import Mathlib

/-!
AuraLogic chat backend: the conversational turn of `api/chat.js`.

A shallow embedding of the serverless chat handler (`src/api/chat.js`), of the
health handler (`src/api/health.js`) and of the intent detection of the site's local
assistant (`detectIntent` in `src/script.js`).

* The handler is an `async` function that talks to a hosted assistant service.  The
  outside world of one request is an `Env`: the answers the service gives during the
  turn, how long every suspension (`await`) lasts, and the clock at arrival.
* Everything the handler awaits is recorded, in order and with the clock at the moment
  it is issued, in a trace of `Event`s.
* The module-level `threadStore` (a JavaScript `Map`) is passed in and out explicitly.
* The `while` loop that polls the run has no structural bound, so the handler takes a
  `fuel` argument: the number of polling rounds it may start.  When the fuel runs out
  the result has no response (`Result.response = none`) and still reports the registry
  and the trace reached so far.
* Console output (`console.log`, `console.error`) is not modelled.
* `detectIntent` tests regular expressions and lower-cases strings; both are asked of
  an `Engine`, and the knowledge base and the conversation context are arguments.
-/

namespace AuraLogic

/-! ## JavaScript values -/

/-- A JavaScript value that can arrive in a JSON request body.  Numbers are the
rationals they denote (`-0` and `0` coincide, as they do as `Map` keys); objects and
arrays are known by reference. -/
inductive JsVal
  | undefined
  | null
  | bool (b : Bool)
  | num (q : ℚ)
  | str (s : String)
  | obj (ref : Nat)
  deriving DecidableEq

/-- JavaScript truthiness (`!v` is `!(v.truthy)`). -/
def JsVal.truthy : JsVal → Bool
  | .undefined => false
  | .null => false
  | .bool b => b
  | .num q => decide (q ≠ 0)
  | .str s => decide (s ≠ "")
  | .obj _ => true

/-- Truthiness of an identifier that is either `undefined` or a string. -/
def truthy : Option String → Bool
  | none => false
  | some s => decide (s ≠ "")

/-- White space and line terminators removed by `String.prototype.trim`. -/
def isJsSpace (c : Char) : Bool :=
  let n := c.toNat
  n == 0x09 || n == 0x0A || n == 0x0B || n == 0x0C || n == 0x0D || n == 0x20 ||
  n == 0xA0 || n == 0x1680 || (0x2000 ≤ n && n ≤ 0x200A) || n == 0x2028 ||
  n == 0x2029 || n == 0x202F || n == 0x205F || n == 0x3000 || n == 0xFEFF

/-- The characters of `s.trim()`. -/
def trimChars (cs : List Char) : List Char :=
  ((cs.dropWhile isJsSpace).reverse.dropWhile isJsSpace).reverse

/-- The JavaScript `s.trim()`. -/
def jsTrim (s : String) : String := String.mk (trimChars s.data)

/-! ## Citation markers: `/【\d+:\d+†source】/g` -/

/-- The opening bracket `【` of a citation marker. -/
def markerOpen : Char := Char.ofNat 0x3010

/-- The tail `†source】` of a citation marker. -/
def markerTail : List Char :=
  [Char.ofNat 0x2020, 's', 'o', 'u', 'r', 'c', 'e', Char.ofNat 0x3011]

/-- Length of the match of `【\d+:\d+†source】` anchored at the head of `cs`, if there
is one.  Both `\d+` are followed by a character that is not a digit, so the greedy
match takes the maximal run of digits. -/
def markerLength (cs : List Char) : Option Nat :=
  match cs with
  | [] => none
  | c :: r =>
    if c = markerOpen then
      let d1 := r.takeWhile Char.isDigit
      match r.dropWhile Char.isDigit with
      | [] => none
      | c2 :: r2 =>
        if d1 ≠ [] ∧ c2 = ':' then
          let d2 := r2.takeWhile Char.isDigit
          let r3 := r2.dropWhile Char.isDigit
          if d2 ≠ [] ∧ markerTail.isPrefixOf r3 then
            some (1 + d1.length + 1 + d2.length + markerTail.length)
          else none
        else none
    else none

/-- Worker of `stripCitations`: `skip` characters of a matched marker are still to be
dropped; otherwise a marker is looked for at the head. -/
def stripFrom : Nat → List Char → List Char
  | _, [] => []
  | skip + 1, _ :: cs => stripFrom skip cs
  | 0, c :: cs =>
    match markerLength (c :: cs) with
    | some n => stripFrom (n - 1) cs
    | none => c :: stripFrom 0 cs

/-- The characters of `text.replace(/【\d+:\d+†source】/g, '')`: every match, found
left to right, is removed. -/
def stripCitations (cs : List Char) : List Char := stripFrom 0 cs

/-- Line 145: `responseText.replace(/【\d+:\d+†source】/g, '').trim()`. -/
def cleanResponse (text : String) : String :=
  String.mk (trimChars (stripCitations text.data))

/-! ## The session registry (`threadStore`, a `Map`) -/

/-- The `Map` from session identifier to thread identifier, in insertion order. -/
structure ThreadStore where
  entries : List (JsVal × String)
  deriving DecidableEq

/-- The registry of a fresh process: `new Map()`. -/
def ThreadStore.empty : ThreadStore := ⟨[]⟩

/-- Lookup in an entry list. -/
def lookupEntry (k : JsVal) : List (JsVal × String) → Option String
  | [] => none
  | (k', v) :: rest => if k' = k then some v else lookupEntry k rest

/-- Update of an entry list: an existing key keeps its place and gets the new value, a
new key goes to the end. -/
def setEntry (k : JsVal) (v : String) : List (JsVal × String) → List (JsVal × String)
  | [] => [(k, v)]
  | (k', v') :: rest => if k' = k then (k, v) :: rest else (k', v') :: setEntry k v rest

/-- The `threadStore.get(key)`: `none` stands for `undefined`. -/
def ThreadStore.get (m : ThreadStore) (k : JsVal) : Option String := lookupEntry k m.entries

/-- The `threadStore.set(key, value)`. -/
def ThreadStore.set (m : ThreadStore) (k : JsVal) (v : String) : ThreadStore :=
  ⟨setEntry k v m.entries⟩

/-! ## Requests, responses, the assistant service -/

/-- What `const { message, sessionId } = body` is applied to. -/
inductive JsBody
  | nullish
  | primitive
  | object (message sessionId : JsVal)
  deriving DecidableEq

/-- The `req.body`: a string (still to be parsed) or an already parsed value. -/
inductive ReqBody
  | text (s : String)
  | value (v : JsBody)
  deriving DecidableEq

/-- An inbound HTTP request. -/
structure Request where
  method : String
  body : ReqBody
  deriving DecidableEq

/-- The JSON payload of a response. -/
inductive Payload
  | ended
  | error (error : String)
  | reply (response : String) (sessionId : JsVal) (threadId : String)
  | health (status : String) (assistantId : String) (timestamp : String)
  deriving DecidableEq

/-- An HTTP response: status code, the headers set, the payload. -/
structure Response where
  status : Nat
  headers : List (String × String)
  payload : Payload
  deriving DecidableEq

/-- The thread object of `openai.beta.threads.create()`. -/
structure Thread where
  id : Option String
  deriving DecidableEq

/-- The run object of `openai.beta.threads.runs.create(...)`. -/
structure Run where
  id : Option String
  deriving DecidableEq

/-- The `last_error` object of a run. -/
structure LastError where
  message : Option String
  deriving DecidableEq

/-- The run object of `openai.beta.threads.runs.retrieve(...)`. -/
structure RunStatus where
  status : String
  last_error : Option LastError
  deriving DecidableEq

/-- One content block of a thread message. -/
inductive ContentBlock
  | text (value : String)
  | other
  deriving DecidableEq

/-- A thread message. -/
structure Message where
  content : List ContentBlock
  deriving DecidableEq

/-- The page returned by `openai.beta.threads.messages.list(...)`. -/
structure MessagePage where
  data : List Message
  deriving DecidableEq

/-- Something the handler awaits: a call to the assistant service or a timer. -/
inductive Call
  | threadsCreate
  | messagesCreate (threadId role content : String)
  | runsCreate (threadId assistantId : String)
  | runsRetrieve (runId threadId : String)
  | setTimeout (ms : Nat)
  | messagesList (threadId : String) (limit : Nat) (order : String)
  deriving DecidableEq

/-- An awaited call together with the clock (ms) at the moment it is issued. -/
structure Event where
  time : Int
  call : Call
  deriving DecidableEq

/-- The outside world of one request.  An `Except String α` answer is either a
rejection (the message of the error thrown) or the value the call resolves to. -/
structure Env where
  /-- The `JSON.parse`. -/
  jsonParse : String → Except String JsBody
  /-- Message of the `TypeError` the engine raises for a property access on a missing
  value, by the name of the value. -/
  typeErrorMessage : String → String
  /-- Answer to `threads.create()`; `none` is a null thread. -/
  threadsCreate : Except String (Option Thread)
  /-- Answer to `threads.messages.create(...)`. -/
  messagesCreate : Except String Unit
  /-- Answer to `threads.runs.create(...)`; `none` is a null run. -/
  runsCreate : Except String (Option Run)
  /-- Answer to the `k`-th `threads.runs.retrieve(...)` of the turn (from 0). -/
  runsRetrieve : Nat → Except String RunStatus
  /-- Answer to `threads.messages.list(...)`. -/
  messagesList : Except String MessagePage
  /-- Clock when the handler is entered. -/
  arrival : Int
  /-- Duration (ms) of the `n`-th suspension of the turn (from 0), given what is
  awaited. -/
  elapse : Nat → Call → Nat

/-- What one turn has done so far. -/
structure World where
  threadStore : ThreadStore
  now : Int
  trace : List Event

/-- Await `c`: it is recorded with the current clock, and the clock moves on. -/
def World.await (env : Env) (w : World) (c : Call) : World :=
  { w with
    now := w.now + (env.elapse w.trace.length c : Int)
    trace := w.trace ++ [⟨w.now, c⟩] }

/-- The state of a turn when the handler is entered. -/
def World.init (env : Env) (threadStore : ThreadStore) : World :=
  { threadStore := threadStore, now := env.arrival, trace := [] }

/-- How a block of the handler ends: it has not ended yet when the fuel ran out
(`pending`), it threw an error with the given message, or it produced a value. -/
inductive Completion (α : Type)
  | pending
  | thrown (message : String)
  | done (value : α)

/-! ## The handler of `api/chat.js` -/

/-- Lines 24-26: the three CORS headers, in the order they are set. -/
def corsHeaders : List (String × String) :=
  [("Access-Control-Allow-Origin", "*"),
   ("Access-Control-Allow-Methods", "POST, OPTIONS"),
   ("Access-Control-Allow-Headers", "Content-Type")]

/-- Line 110: `maxWaitTime`, in ms. -/
def maxWaitTime : Int := 60000

/-- Lines 40-44: parse a string body, then destructure `message` and `sessionId`. -/
def readBody (env : Env) (body : ReqBody) : Except String (JsVal × JsVal) :=
  let parsed : Except String JsBody :=
    match body with
    | .text s => env.jsonParse s
    | .value v => .ok v
  match parsed with
  | .error e => .error e
  | .ok .nullish => .error (env.typeErrorMessage "body")
  | .ok .primitive => .ok (.undefined, .undefined)
  | .ok (.object message sessionId) => .ok (message, sessionId)

/-- Line 47: `!message || typeof message !== 'string' || message.trim().length === 0`.
The result is the accepted string, or `none` when the test rejects. -/
def validMessage (message : JsVal) : Option String :=
  match message with
  | .str s => if !(JsVal.str s).truthy || (jsTrim s).length == 0 then none else some s
  | _ => none

/-- Lines 61-81: the thread of the session, created and stored when the registry has
none. -/
def getOrCreateThread (env : Env) (w : World) (sessionId : JsVal) :
    World × Except String String :=
  let threadId := w.threadStore.get sessionId
  if !truthy threadId then
    let w1 := w.await env .threadsCreate
    match env.threadsCreate with
    | .error e => (w1, .error e)
    | .ok none => (w1, .error "Failed to create thread")
    | .ok (some thread) =>
      if !truthy thread.id then (w1, .error "Failed to create thread")
      else
        let threadId := thread.id.getD ""
        let w2 := { w1 with threadStore := w1.threadStore.set sessionId threadId }
        if threadId = "" then
          (w2, .error "Thread ID is undefined - cannot proceed with chat")
        else (w2, .ok threadId)
  else
    let threadId := threadId.getD ""
    if threadId = "" then (w, .error "Thread ID is undefined - cannot proceed with chat")
    else (w, .ok threadId)

/-- Lines 113-130: the polling loop.  `k` retrievals have answered inside the loop so
far, `runStatus` is the last answer, `fuel` rounds may still be started. -/
def pollLoop (env : Env) (threadId runId : String) (startTime : Int) :
    Nat → Nat → World → RunStatus → World × Completion RunStatus
  | fuel, k, w, runStatus =>
    if runStatus.status = "queued" ∨ runStatus.status = "in_progress" then
      if w.now - startTime > maxWaitTime then
        (w, .thrown "Request timeout: Assistant took too long to respond")
      else
        match fuel with
        | 0 => (w, .pending)
        | fuel + 1 =>
          let w1 := w.await env (.setTimeout 500)
          if threadId = "" ∨ runId = "" then
            (w1, .thrown ("Thread ID or Run ID is undefined. ThreadId: " ++ threadId ++
              ", RunId: " ++ runId))
          else
            let w2 := w1.await env (.runsRetrieve runId threadId)
            match env.runsRetrieve (k + 1) with
            | .error e => (w2, .thrown e)
            | .ok next => pollLoop env threadId runId startTime fuel (k + 1) w2 next
    else (w, .done runStatus)

/-- Lines 140-141: `messages.data[0].content[0].text.value`. -/
def firstText (env : Env) (messages : MessagePage) : Except String String :=
  match messages.data with
  | [] => .error (env.typeErrorMessage "assistantMessage")
  | assistantMessage :: _ =>
    match assistantMessage.content with
    | [] => .error (env.typeErrorMessage "assistantMessage.content[0]")
    | .other :: _ => .error (env.typeErrorMessage "assistantMessage.content[0].text")
    | .text value :: _ => .ok value

/-- Lines 133-159: act on the status the polling loop ended with. -/
def finish (env : Env) (w : World) (sessionId : JsVal) (threadId : String)
    (runStatus : RunStatus) : World × Completion Response :=
  if runStatus.status = "completed" then
    let w1 := w.await env (.messagesList threadId 1 "desc")
    match env.messagesList with
    | .error e => (w1, .thrown e)
    | .ok messages =>
      match firstText env messages with
      | .error e => (w1, .thrown e)
      | .ok responseText =>
        (w1, .done ⟨200, corsHeaders, .reply (cleanResponse responseText) sessionId threadId⟩)
  else if runStatus.status = "failed" then
    let message : Option String :=
      match runStatus.last_error with
      | none => none
      | some e => e.message
    (w, .thrown (if truthy message then message.getD "" else "Assistant run failed"))
  else if runStatus.status = "requires_action" then
    (w, .thrown "Assistant requires action, but no functions are configured")
  else
    (w, .thrown ("Unexpected run status: " ++ runStatus.status))

/-- Lines 109-159: from `startTime = Date.now()` on: poll the run, then act on its last
status.  `runStatus` is the answer to the first retrieval. -/
def pollAndFinish (env : Env) (fuel : Nat) (w : World) (sessionId : JsVal)
    (threadId runId : String) (runStatus : RunStatus) :
    World × Option Int × Completion Response :=
  let startTime := w.now
  match pollLoop env threadId runId startTime fuel 0 w runStatus with
  | (w1, .pending) => (w1, some startTime, .pending)
  | (w1, .thrown e) => (w1, some startTime, .thrown e)
  | (w1, .done last) =>
    let out := finish env w1 sessionId threadId last
    (out.1, some startTime, out.2)

/-- Lines 83-159: the turn once the thread is known: post the message, start a run,
poll it, act on its last status. -/
def runTurn (ASSISTANT_ID : String) (env : Env) (fuel : Nat) (w : World)
    (message : String) (sessionId : JsVal) (threadId : String) :
    World × Option Int × Completion Response :=
  let w1 := w.await env (.messagesCreate threadId "user" (jsTrim message))
  match env.messagesCreate with
  | .error e => (w1, none, .thrown e)
  | .ok _ =>
    let w2 := w1.await env (.runsCreate threadId ASSISTANT_ID)
    match env.runsCreate with
    | .error e => (w2, none, .thrown e)
    | .ok none => (w2, none, .thrown "Failed to create assistant run - run object is null")
    | .ok (some run) =>
      if !truthy run.id then
        (w2, none, .thrown "Failed to create assistant run - run.id is undefined")
      else
        let runId := run.id.getD ""
        let w3 := w2.await env (.runsRetrieve runId threadId)
        match env.runsRetrieve 0 with
        | .error e => (w3, none, .thrown e)
        | .ok runStatus => pollAndFinish env fuel w3 sessionId threadId runId runStatus

/-- Lines 38-159: the body of the `try` block. -/
def tryBlock (ASSISTANT_ID : Option String) (env : Env) (fuel : Nat) (w : World)
    (req : Request) : World × Option Int × Completion Response :=
  match readBody env req.body with
  | .error e => (w, none, .thrown e)
  | .ok (message, sessionId) =>
    match validMessage message with
    | none =>
      (w, none, .done ⟨400, corsHeaders,
        .error "Message is required and must be a non-empty string"⟩)
    | some message =>
      if !truthy ASSISTANT_ID then
        (w, none, .done ⟨500, corsHeaders,
          .error "Chatbot is not configured. Please contact the administrator."⟩)
      else
        match getOrCreateThread env w sessionId with
        | (w1, .error e) => (w1, none, .thrown e)
        | (w1, .ok threadId) =>
          runTurn (ASSISTANT_ID.getD "") env fuel w1 message sessionId threadId

/-- What handling one request leaves behind. -/
structure Result where
  /-- The response sent; `none` when the fuel ran out while polling. -/
  response : Option Response
  /-- The registry after the request. -/
  threadStore : ThreadStore
  /-- Everything awaited, oldest first. -/
  trace : List Event
  /-- The `startTime` of line 111, when the turn got that far. -/
  startTime : Option Int

/-- Lines 161-169 and the `return`s: what the request leaves behind once the `try`
block has ended.  A thrown error is caught and answered with status 500 and
`error.message || 'An unexpected error occurred'`. -/
def settle (outcome : World × Option Int × Completion Response) : Result :=
  match outcome with
  | (w, startTime, .pending) => ⟨none, w.threadStore, w.trace, startTime⟩
  | (w, startTime, .done res) => ⟨some res, w.threadStore, w.trace, startTime⟩
  | (w, startTime, .thrown message) =>
    let errorMessage := if message ≠ "" then message else "An unexpected error occurred"
    ⟨some ⟨500, corsHeaders, .error errorMessage⟩, w.threadStore, w.trace, startTime⟩

/-- The exported `handler(req, res)` of `api/chat.js`; `ASSISTANT_ID` is the module
constant read from the environment (`none` when the variable is not set). -/
def handler (ASSISTANT_ID : Option String) (env : Env) (fuel : Nat)
    (threadStore : ThreadStore) (req : Request) : Result :=
  if req.method = "OPTIONS" then
    ⟨some ⟨200, corsHeaders, .ended⟩, threadStore, [], none⟩
  else if req.method ≠ "POST" then
    ⟨some ⟨405, corsHeaders, .error "Method not allowed"⟩, threadStore, [], none⟩
  else
    settle (tryBlock ASSISTANT_ID env fuel (World.init env threadStore) req)

/-- Requests handled one after another, each with its own outside world and fuel; the
registry is the only thing that passes from one request to the next. -/
def serve (ASSISTANT_ID : Option String) (threadStore : ThreadStore) :
    List (Env × Nat × Request) → ThreadStore
  | [] => threadStore
  | (env, fuel, req) :: rest =>
    serve ASSISTANT_ID (handler ASSISTANT_ID env fuel threadStore req).threadStore rest

/-! ## The handler of `api/health.js` -/

/-- The exported `handler(req, res)` of `api/health.js`; `OPENAI_ASSISTANT_ID` is the
environment variable of that name (`none` when it is not set), `isoNow` the rendering
of the current date. -/
def healthHandler (OPENAI_ASSISTANT_ID : Option String) (isoNow : String)
    (req : Request) : Response :=
  let headers := [("Access-Control-Allow-Origin", "*"),
    ("Access-Control-Allow-Methods", "GET, OPTIONS"),
    ("Access-Control-Allow-Headers", "Content-Type")]
  if req.method = "OPTIONS" then ⟨200, headers, .ended⟩
  else ⟨200, headers,
    .health "ok" (if truthy OPENAI_ASSISTANT_ID then "configured" else "not configured") isoNow⟩

/-! ## Reading a trace -/

/-- The calls of a trace, without their times. -/
def calls (trace : List Event) : List Call := trace.map Event.call

/-- Is the call a thread creation? -/
def Call.isThreadsCreate : Call → Bool
  | .threadsCreate => true
  | _ => false

/-- Is the call a message post? -/
def Call.isMessagesCreate : Call → Bool
  | .messagesCreate _ _ _ => true
  | _ => false

/-- Is the call a run creation? -/
def Call.isRunsCreate : Call → Bool
  | .runsCreate _ _ => true
  | _ => false

/-- Is the call a run-status retrieval? -/
def Call.isRunsRetrieve : Call → Bool
  | .runsRetrieve _ _ => true
  | _ => false

/-- Is the call a polling delay? -/
def Call.isSetTimeout : Call → Bool
  | .setTimeout _ => true
  | _ => false

/-- Is the call a message listing? -/
def Call.isMessagesList : Call → Bool
  | .messagesList _ _ _ => true
  | _ => false

/-- Is the call a call to the assistant service (anything but a timer)? -/
def Call.isRemote (c : Call) : Bool := !c.isSetTimeout

/-- The thread a call is made on, when it is made on one. -/
def Call.thread : Call → Option String
  | .threadsCreate => none
  | .messagesCreate t _ _ => some t
  | .runsCreate t _ => some t
  | .runsRetrieve _ t => some t
  | .setTimeout _ => none
  | .messagesList t _ _ => some t

/-- Shape of what the polling loop awaits: rounds of one delay, started within the time
budget, and one retrieval, issued when that delay is over (the last round may lack its
retrieval). -/
def PollShape (env : Env) (startTime : Int) (runId threadId : String) : List Event → Prop
  | [] => True
  | [d] => d.call = .setTimeout 500 ∧ d.time - startTime ≤ maxWaitTime
  | d :: e :: rest =>
    (d.call = .setTimeout 500 ∧ d.time - startTime ≤ maxWaitTime) ∧
      (e.call = .runsRetrieve runId threadId ∧
        ∃ n, e.time = d.time + (env.elapse n (.setTimeout 500) : Int)) ∧
      PollShape env startTime runId threadId rest

/-- What a turn may await after it has posted the message. -/
def TurnCall (assistantId threadId : String) (c : Call) : Prop :=
  c = .runsCreate threadId assistantId ∨ (∃ runId, c = .runsRetrieve runId threadId) ∨
    c = .setTimeout 500 ∨ c = .messagesList threadId 1 "desc"

/-- Every identifier the registry holds is a non-empty string. -/
def ThreadStore.Usable (m : ThreadStore) : Prop := ∀ k v, m.get k = some v → v ≠ ""

/-- The number of polling delays in a list of events. -/
def delays (trace : List Event) : Nat := (calls trace).countP Call.isSetTimeout

/-- The number of run-status retrievals in a list of events. -/
def retrievals (trace : List Event) : Nat := (calls trace).countP Call.isRunsRetrieve

/-- What must hold of two consecutive events `d`, `e` of a turn whose polling started at
`startTime`: when `e` is a run-status retrieval, `d` is either the run creation (then
`e` is the retrieval made before the loop) or a polling delay that was started within
the time budget, and `e` is issued when that delay is over. -/
def TimelyRetrieval (env : Env) (startTime : Int) (d e : Event) : Prop :=
  e.call.isRunsRetrieve = true →
    d.call.isRunsCreate = true ∨
      (d.call = .setTimeout 500 ∧ d.time - startTime ≤ maxWaitTime ∧
        ∃ n, e.time = d.time + (env.elapse n (.setTimeout 500) : Int))

/-- The calls to the assistant service in a list of events, in the order they are
issued (the timers are left out). -/
def remoteCalls (trace : List Event) : List Call := (calls trace).filter Call.isRemote

/-- The fixed order of the remote operations of a turn on thread `t` with run `runId`:
the thread creation (for a session without a usable mapping only), the message post,
the run creation, `k + 1` run-status retrievals, the message listing. -/
def turnOrder (fresh : Bool) (assistantId t content runId : String) (k : Nat) : List Call :=
  (if fresh then [Call.threadsCreate] else []) ++
    [.messagesCreate t "user" content, .runsCreate t assistantId] ++
    List.replicate (k + 1) (.runsRetrieve runId t) ++ [.messagesList t 1 "desc"]

/-- The answer of the `catch` block (lines 161-169) to an error with the given message:
status 500 and `error.message || 'An unexpected error occurred'`. -/
def caught (message : String) : Response :=
  ⟨500, corsHeaders, .error (if message ≠ "" then message else "An unexpected error occurred")⟩

/-- The citation marker `【m:k†source】` as a list of characters. -/
def marker (m k : List Char) : List Char := markerOpen :: (m ++ ':' :: (k ++ markerTail))

/-- A non-empty run of ASCII digits. -/
def Digits (m : List Char) : Prop := m ≠ [] ∧ ∀ c ∈ m, c.isDigit = true

/-- No citation marker occurs in `cs`: the pattern matches at no position. -/
def MarkerFree (cs : List Char) : Prop :=
  ∀ pre suf, cs = pre ++ suf → markerLength suf = none

/-- The text made of the marker-free piece `p0` followed, for every `(m, k, p)` of
`parts`, by the marker `【m:k†source】` and the piece `p`. -/
def assemble : List Char → List (List Char × List Char × List Char) → List Char
  | p0, [] => p0
  | p0, (m, k, p) :: rest => p0 ++ (marker m k ++ assemble p rest)

/-- The pieces of `assemble p0 parts` without the markers between them. -/
def pieces : List Char → List (List Char × List Char × List Char) → List Char
  | p0, [] => p0
  | p0, (_, _, p) :: rest => p0 ++ pieces p rest

/-- Every piece is marker-free and every marker is made of two non-empty runs of
digits. -/
def PiecesOK : List Char → List (List Char × List Char × List Char) → Prop
  | p0, [] => MarkerFree p0
  | p0, (m, k, p) :: rest => MarkerFree p0 ∧ Digits m ∧ Digits k ∧ PiecesOK p rest

/-- The message posts among the calls of a list of events, in the order they are
issued. -/
def posts (trace : List Event) : List Call := (calls trace).filter Call.isMessagesCreate

/-! ## Intent detection of `script.js` -/

/-- What `detectIntent` asks of the JavaScript engine. -/
structure Engine where
  /-- The `new RegExp(source, 'i').test(input)`: does the case-insensitive pattern with
  the given source match somewhere in `input`? -/
  test : String → String → Bool
  /-- The `s.toLowerCase()`. -/
  toLowerCase : String → String

/-- The `s.includes(part)`. -/
def includes (s part : String) : Bool := decide (part.data <:+: s.data)

/-- The characters that are special in a pattern: the character class of line 903. -/
def specialChars : List Char :=
  ".*+?^$()|[]".data ++ [Char.ofNat 0x7B, Char.ofNat 0x7D, Char.ofNat 0x5C]

/-- Line 903: the `word.replace` that puts a backslash before every character that is
special in a pattern. -/
def escapeRegExp (word : String) : String :=
  String.mk (word.data.flatMap fun c =>
    if c ∈ specialChars then [Char.ofNat 0x5C, c] else [c])

/-- Lines 896-905: a phrase (with a space) is looked for as a substring, a single word
as a whole word. -/
def hasWord (engine : Engine) (message word : String) : Bool :=
  if includes word " " then includes message word
  else engine.test ("\\b" ++ escapeRegExp word ++ "\\b") message

/-- A product of the knowledge base, as far as `detectIntent` reads it. -/
structure Product where
  name : String
  keywords : List String

/-- A service of the knowledge base, as far as `detectIntent` reads it. -/
structure Service where
  keywords : List String

/-- The `knowledgeBase`, as far as `detectIntent` reads it: `Object.entries` of its
products and of its services. -/
structure KnowledgeBase where
  products : List (String × Product)
  services : List (String × Service)

/-- The `conversationContext`, as far as `detectIntent` reads it (`none` is `null`). -/
structure ConversationContext where
  lastTopic : Option String

/-- A detected intent.  Confidences are the decimal numbers written in the source:
`detectIntent` only compares them, and its one sum, `0.85 + 0.05`, is `0.9` in double
arithmetic too. -/
structure Intent where
  type : String
  service : Option String
  product : Option String
  topic : Option String
  confidence : ℚ
  deriving DecidableEq

/-- An intent that has only a type and a confidence. -/
def Intent.plain (type : String) (confidence : ℚ) : Intent :=
  ⟨type, none, none, none, confidence⟩

/-- Lines 913-921: the question types and the sources of their patterns. -/
def questionTypes : List (String × String) :=
  [("what", "\\b(what|what\x27s|what is|what are|what does|what do|tell me about|" ++
      "describe|explain|tell me)\\b"),
   ("how", "\\b(how|how does|how do|how can|how to|how is|how are|how would|how will)\\b"),
   ("when", "\\b(when|when does|when do|when is|when are|when will|when can)\\b"),
   ("where", "\\b(where|where is|where are|where can|where do|location|located)\\b"),
   ("why", "\\b(why|why does|why do|why is|why are|why would|reason)\\b"),
   ("who", "\\b(who|who is|who are|who does|who can)\\b"),
   ("can", "\\b(can|can you|can i|can we|could|could you|is it possible)\\b")]

/-- Lines 995-1010: the general topics and their keywords. -/
def topicKeywords : List (String × List String) :=
  [("company", ["company", "auralogic", "about", "who are you", "tell me about your company",
      "what is auralogic", "who is auralogic"]),
   ("pricing", ["price", "cost", "pricing", "how much", "quote", "estimate", "budget",
      "expensive", "cheap", "affordable"]),
   ("contact", ["contact", "email", "phone", "reach", "get in touch", "address", "location",
      "call", "message"]),
   ("team", ["team", "founder", "staff", "employees", "people", "who works", "who founded"]),
   ("tech", ["technology", "tech stack", "tools", "framework", "languages", "stack",
      "technologies", "what technologies"]),
   ("services", ["service", "services", "what do you do", "offer", "provide", "capabilities",
      "what services", "do you offer", "core services"]),
   ("products", ["product", "products", "app", "application", "tripmate", "buddyup",
      "dressera", "dressera ai", "aura ai", "apps", "applications"]),
   ("earlyAccess", ["early access", "beta", "waitlist", "join", "sign up", "notify", "early",
      "beta testing", "wait list"]),
   ("features", ["feature", "features", "what can", "capabilities", "what does", "include",
      "includes", "has"]),
   ("goals", ["goal", "vision", "mission", "purpose", "why", "objective", "aim",
      "what is your", "what are your"]),
   ("help", ["help", "support", "assist", "guide", "information", "i need help",
      "can you help"]),
   ("greeting", ["hello", "hi", "hey", "greetings", "good morning", "good afternoon",
      "good evening", "good day"]),
   ("thanks", ["thank", "thanks", "appreciate", "grateful", "thank you"]),
   ("goodbye", ["bye", "goodbye", "see you", "farewell", "later", "goodbye"])]

/-- Lines 930-961: one round of the product loop. -/
def productIntent (engine : Engine) (lowerMessage key : String) (product : Product) :
    Option Intent :=
  let specificNameMatch := includes lowerMessage (engine.toLowerCase product.name)
  let keywordCount := (product.keywords.filter (hasWord engine lowerMessage)).length
  let matchCount := (if specificNameMatch then 1 else 0) + keywordCount
  if 0 < matchCount then
    some ⟨"product", none, some key, none,
      if specificNameMatch then 1.0 else if matchCount > 1 then 0.95 else 0.9⟩
  else none

/-- Lines 964-980: one round of the service loop. -/
def serviceIntent (engine : Engine) (lowerMessage key : String) (service : Service) :
    Option Intent :=
  let matchCount := (service.keywords.filter (hasWord engine lowerMessage)).length
  if 0 < matchCount then
    let confidence : ℚ := 0.85 + (if matchCount > 1 then 0.05 else 0)
    some ⟨"service", some key, none, none, min confidence 0.95⟩
  else none

/-- Lines 1012-1025: one round of the topic loop, on the intents pushed so far. -/
def topicStep (engine : Engine) (lowerMessage : String) (intents : List Intent)
    (entry : String × List String) : List Intent :=
  if entry.1 = "services" ∧
      intents.any (fun i => decide (i.type = "services" ∧ i.confidence ≥ 0.9)) = true then
    intents
  else if entry.2.any (hasWord engine lowerMessage) then
    intents ++ [Intent.plain entry.1 (if entry.1 = "services" then 0.8 else 0.75)]
  else intents

/-- Lines 908-1033: the intents pushed, in the order they are pushed. -/
def collectIntents (engine : Engine) (kb : KnowledgeBase)
    (conversationContext : ConversationContext) (message : String) : List Intent :=
  let lowerMessage := engine.toLowerCase message
  let originalMessage := message
  let intents : List Intent :=
    (questionTypes.filter fun q => engine.test q.2 originalMessage).map
      fun q => Intent.plain q.1 0.85
  let intents := intents ++
    kb.products.filterMap fun p => productIntent engine lowerMessage p.1 p.2
  let intents := intents ++
    kb.services.filterMap fun s => serviceIntent engine lowerMessage s.1 s.2
  let intents :=
    if engine.test
        ("\\b(what are the|what are your|what are|list|tell me about|show me)\\b" ++
          ".*\\b(core\\s+)?services\\b")
        originalMessage then
      intents ++ [Intent.plain "services" 0.95]
    else intents
  let intents :=
    if engine.test "\\b(what|which|list|tell me about)\\b.*\\bservices?\\b" originalMessage &&
        !includes lowerMessage "product" then
      intents ++ [Intent.plain "services" 0.9]
    else intents
  let intents := topicKeywords.foldl (topicStep engine lowerMessage) intents
  if truthy conversationContext.lastTopic then
    let intents :=
      if engine.test
          ("\\b(more|tell me more|elaborate|details|further|additional|expand|" ++
            "explain more)\\b")
          originalMessage then
        intents ++ [⟨"followup", none, none, conversationContext.lastTopic, 0.95⟩]
      else intents
    if engine.test "\\b(what else|anything else|other|different|alternatives|options)\\b"
        originalMessage then
      intents ++ [Intent.plain "alternatives" 0.85]
    else intents
  else intents

/-- Line 1039: `intent.service || intent.product || ''`. -/
def Intent.serviceOrProduct (intent : Intent) : String :=
  if truthy intent.service then intent.service.getD ""
  else if truthy intent.product then intent.product.getD ""
  else ""

/-- Line 1039: the key of an intent, `type-service`, `type-product` or `type-`. -/
def intentKey (intent : Intent) : String := intent.type ++ "-" ++ intent.serviceOrProduct

/-- Lines 1036-1044: the intents whose key has not been seen, in order; `seen` holds
the keys met so far. -/
def uniqueIntents : List String → List Intent → List Intent
  | _, [] => []
  | seen, intent :: rest =>
    if intentKey intent ∈ seen then uniqueIntents seen rest
    else intent :: uniqueIntents (intentKey intent :: seen) rest

/-- Line 1046: the comparator `(a, b) => b.confidence - a.confidence` (the difference
of two doubles has the sign of the exact difference). -/
def byConfidence (a b : Intent) : ℚ := b.confidence - a.confidence

/-- The `array.sort(compare)` for a consistent comparator: the stable sorted
arrangement, in which `a` stays before `b` when `compare(a, b) <= 0`. -/
def jsSort {α : Type} (compare : α → α → ℚ) (array : List α) : List α :=
  array.insertionSort fun a b => compare a b ≤ 0

/-- Lines 907-1047: `detectIntent(message)`. -/
def detectIntent (engine : Engine) (kb : KnowledgeBase)
    (conversationContext : ConversationContext) (message : String) : List Intent :=
  jsSort byConfidence (uniqueIntents [] (collectIntents engine kb conversationContext message))

/-! ## Worked examples -/

/-- An outside world in which the service creates thread `thread_1` and run `run_1`,
the run is seen queued, then in progress, then completed, the last message is
`Answer【12:3†source】.`, a remote call takes 7 ms and a timer exactly its delay. -/
def exampleEnv : Env where
  jsonParse := fun _ => .error "Unexpected token in JSON"
  typeErrorMessage := fun what => "Cannot read properties of undefined: " ++ what
  threadsCreate := .ok (some ⟨some "thread_1"⟩)
  messagesCreate := .ok ()
  runsCreate := .ok (some ⟨some "run_1"⟩)
  runsRetrieve := fun k =>
    if k = 0 then .ok ⟨"queued", none⟩
    else if k = 1 then .ok ⟨"in_progress", none⟩
    else .ok ⟨"completed", none⟩
  messagesList := .ok ⟨[⟨[.text "Answer【12:3†source】."]⟩]⟩
  arrival := 1000
  elapse := fun _ c =>
    match c with
    | .setTimeout ms => ms
    | _ => 7

/-- The request `POST /chat` with the JSON body `{message, sessionId}`. -/
def post (message sessionId : String) : Request :=
  ⟨"POST", .value (.object (.str message) (.str sessionId))⟩

/-- As `exampleEnv`, but thread creation answers with a thread that has no id. -/
def noThreadEnv : Env := { exampleEnv with threadsCreate := .ok (some ⟨none⟩) }

/-- As `exampleEnv`, but run creation answers with a null run. -/
def noRunEnv : Env := { exampleEnv with runsCreate := .ok none }

/-- As `exampleEnv`, but the service would create thread `thread_2`. -/
def otherThreadEnv : Env := { exampleEnv with threadsCreate := .ok (some ⟨some "thread_2"⟩) }

/-- As `exampleEnv`, but the run is in progress whenever it is retrieved. -/
def stuckEnv : Env := { exampleEnv with runsRetrieve := fun _ => .ok ⟨"in_progress", none⟩ }

/-- A run that is in progress whenever it is retrieved, on a slow service: every
retrieval takes 59 500 ms, a timer exactly its delay, anything else no time; the clock
is 0 at arrival. -/
def slowEnv : Env :=
  { stuckEnv with
    arrival := 0
    elapse := fun _ c =>
      match c with
      | .setTimeout ms => ms
      | .runsRetrieve _ _ => 59500
      | _ => 0 }

/-- As `exampleEnv`, but the run is seen queued and then failed, with the error
`Rate limit exceeded`. -/
def failedEnv : Env :=
  { exampleEnv with
    runsRetrieve := fun k =>
      if k = 0 then .ok ⟨"queued", none⟩
      else .ok ⟨"failed", some ⟨some "Rate limit exceeded"⟩⟩ }

/-- As `exampleEnv`, but the run is seen queued and then asking for a tool call. -/
def actionEnv : Env :=
  { exampleEnv with
    runsRetrieve := fun k =>
      if k = 0 then .ok ⟨"queued", none⟩ else .ok ⟨"requires_action", none⟩ }

/-- As `exampleEnv`, but the run is seen queued and then expired. -/
def expiredEnv : Env :=
  { exampleEnv with
    runsRetrieve := fun k =>
      if k = 0 then .ok ⟨"queued", none⟩ else .ok ⟨"expired", none⟩ }

/-- As `exampleEnv`, but the second retrieval is rejected by the service. -/
def outageEnv : Env :=
  { exampleEnv with
    runsRetrieve := fun k =>
      if k = 0 then .ok ⟨"queued", none⟩ else .error "503 Service Unavailable" }

/-- The request `POST /chat` with the JSON body `{message}`: no `sessionId`. -/
def postAnonymous (message : String) : Request :=
  ⟨"POST", .value (.object (.str message) .undefined)⟩

/-- The request `POST /chat` whose body is the given text, still to be parsed. -/
def postText (body : String) : Request := ⟨"POST", .text body⟩

/-- The request `POST /chat` without a body. -/
def postNothing : Request := ⟨"POST", .value .nullish⟩

/-- As `exampleEnv`, but the run is seen queued and then completed, and every retrieval
takes 100 000 ms: the completed status is observed 100 500 ms after the loop started. -/
def lateEnv : Env :=
  { exampleEnv with
    runsRetrieve := fun k =>
      if k = 0 then .ok ⟨"queued", none⟩ else .ok ⟨"completed", none⟩
    elapse := fun _ c =>
      match c with
      | .setTimeout ms => ms
      | .runsRetrieve _ _ => 100000
      | _ => 7 }

/-! ## Lemmas -/

theorem jsTrim_empty : jsTrim "" = "" := by rfl

theorem length_jsTrim_eq_zero (s : String) : (jsTrim s).length = 0 ↔ jsTrim s = "" := by
  constructor
  · intro h
    have h1 : (trimChars s.data).length = 0 := by simpa [jsTrim, String.length] using h
    have h2 : trimChars s.data = [] := List.length_eq_zero.mp h1
    simp [jsTrim, h2]
  · intro h
    rw [h]; rfl

theorem validMessage_of_trim_ne (s : String) (h : jsTrim s ≠ "") :
    validMessage (.str s) = some s := by
  have hs : s ≠ "" := fun e => h (by rw [e]; exact jsTrim_empty)
  have hl : (jsTrim s).length ≠ 0 := fun e => h ((length_jsTrim_eq_zero s).mp e)
  simp [validMessage, JsVal.truthy, hs, hl]

theorem validMessage_of_invalid (message : JsVal)
    (h : (∀ s, message ≠ .str s) ∨ ∃ s, message = .str s ∧ jsTrim s = "") :
    validMessage message = none := by
  rcases h with h | ⟨s, rfl, hs⟩
  · cases message <;> simp_all [validMessage]
  · simp [validMessage, hs]

theorem pollLoop_zero (env : Env) (threadId runId : String) (startTime : Int) (k : Nat)
    (w : World) (runStatus : RunStatus) :
    pollLoop env threadId runId startTime 0 k w runStatus =
      if runStatus.status = "queued" ∨ runStatus.status = "in_progress" then
        if w.now - startTime > maxWaitTime then
          (w, .thrown "Request timeout: Assistant took too long to respond")
        else (w, .pending)
      else (w, .done runStatus) := by
  rw [pollLoop]

theorem pollLoop_succ (env : Env) (threadId runId : String) (startTime : Int) (fuel k : Nat)
    (w : World) (runStatus : RunStatus) :
    pollLoop env threadId runId startTime (fuel + 1) k w runStatus =
      if runStatus.status = "queued" ∨ runStatus.status = "in_progress" then
        if w.now - startTime > maxWaitTime then
          (w, .thrown "Request timeout: Assistant took too long to respond")
        else if threadId = "" ∨ runId = "" then
          (w.await env (.setTimeout 500),
            .thrown ("Thread ID or Run ID is undefined. ThreadId: " ++ threadId ++
              ", RunId: " ++ runId))
        else
          match env.runsRetrieve (k + 1) with
          | .error e =>
            ((w.await env (.setTimeout 500)).await env (.runsRetrieve runId threadId), .thrown e)
          | .ok next =>
            pollLoop env threadId runId startTime fuel (k + 1)
              ((w.await env (.setTimeout 500)).await env (.runsRetrieve runId threadId)) next
      else (w, .done runStatus) := by
  rw [pollLoop]

theorem pollLoop_ext (env : Env) (threadId runId : String) (startTime : Int) :
    ∀ (fuel k : Nat) (w : World) (runStatus : RunStatus),
      (pollLoop env threadId runId startTime fuel k w runStatus).1.threadStore = w.threadStore ∧
      ∃ evs, (pollLoop env threadId runId startTime fuel k w runStatus).1.trace = w.trace ++ evs ∧
        PollShape env startTime runId threadId evs := by
  intro fuel
  induction fuel with
  | zero =>
    intro k w st
    rw [pollLoop_zero]
    split
    · split
      · exact ⟨rfl, [], by simp, trivial⟩
      · exact ⟨rfl, [], by simp, trivial⟩
    · exact ⟨rfl, [], by simp, trivial⟩
  | succ fuel ih =>
    intro k w st
    rw [pollLoop_succ]
    split
    · split
      · exact ⟨rfl, [], by simp, trivial⟩
      · rename_i hto
        split
        · exact ⟨rfl, [⟨w.now, .setTimeout 500⟩], by simp [World.await],
            ⟨rfl, by simpa using hto⟩⟩
        · split
          · exact ⟨rfl, [⟨w.now, .setTimeout 500⟩,
              ⟨(w.await env (.setTimeout 500)).now, .runsRetrieve runId threadId⟩],
              by simp [World.await], ⟨rfl, by simpa using hto⟩, ⟨rfl, _, rfl⟩, trivial⟩
          · rename_i next _
            obtain ⟨hs, evs, he, hp⟩ := ih (k + 1)
              ((w.await env (.setTimeout 500)).await env (.runsRetrieve runId threadId)) next
            refine ⟨by rw [hs]; rfl, ⟨w.now, .setTimeout 500⟩ ::
              ⟨(w.await env (.setTimeout 500)).now, .runsRetrieve runId threadId⟩ :: evs, ?_,
              ⟨rfl, by simpa using hto⟩, ⟨rfl, _, rfl⟩, hp⟩
            rw [he]; simp [World.await]
    · exact ⟨rfl, [], by simp, trivial⟩

theorem PollShape.call_mem {env : Env} {startTime : Int} {runId threadId : String} :
    ∀ (evs : List Event), PollShape env startTime runId threadId evs →
      ∀ e ∈ evs, e.call = .setTimeout 500 ∨ e.call = .runsRetrieve runId threadId
  | [], _, e, he => by simp at he
  | [d], h, e, he => by
    simp at he; subst he; exact Or.inl h.1
  | d :: e' :: rest, h, e, he => by
    simp only [List.mem_cons] at he
    rcases he with rfl | rfl | he
    · exact Or.inl h.1.1
    · exact Or.inr h.2.1.1
    · exact PollShape.call_mem rest h.2.2 e he

theorem finish_ext (env : Env) (w : World) (sessionId : JsVal) (threadId : String)
    (runStatus : RunStatus) :
    (finish env w sessionId threadId runStatus).1 = w ∨
      (runStatus.status = "completed" ∧
        (finish env w sessionId threadId runStatus).1 =
          w.await env (.messagesList threadId 1 "desc")) := by
  unfold finish
  split
  · rename_i hc
    right
    refine ⟨hc, ?_⟩
    split
    · rfl
    · split <;> rfl
  · left
    split
    · rfl
    · split <;> rfl

theorem pollAndFinish_ext (env : Env) (fuel : Nat) (w : World) (sessionId : JsVal)
    (threadId runId : String) (runStatus : RunStatus) :
    (pollAndFinish env fuel w sessionId threadId runId runStatus).1.threadStore =
        w.threadStore ∧
    ∃ evs tail, (pollAndFinish env fuel w sessionId threadId runId runStatus).1.trace =
        w.trace ++ evs ++ tail ∧ PollShape env w.now runId threadId evs ∧
        (tail = [] ∨ ∃ time, tail = [⟨time, .messagesList threadId 1 "desc"⟩]) := by
  obtain ⟨hs, evs, he, hp⟩ := pollLoop_ext env threadId runId w.now fuel 0 w runStatus
  unfold pollAndFinish
  dsimp only
  split
  · rename_i w1 heq
    rw [heq] at hs he
    exact ⟨hs, evs, [], by simpa using he, hp, Or.inl rfl⟩
  · rename_i w1 e heq
    rw [heq] at hs he
    exact ⟨hs, evs, [], by simpa using he, hp, Or.inl rfl⟩
  · rename_i w1 last heq
    rw [heq] at hs he
    dsimp only
    rcases finish_ext env w1 sessionId threadId last with hf | ⟨_, hf⟩
    · rw [hf]
      exact ⟨hs, evs, [], by simpa using he, hp, Or.inl rfl⟩
    · rw [hf]
      exact ⟨hs, evs, [⟨w1.now, .messagesList threadId 1 "desc"⟩],
        by simp only [World.await]; rw [he], hp, Or.inr ⟨_, rfl⟩⟩

theorem runTurn_ext (ASSISTANT_ID : String) (env : Env) (fuel : Nat) (w : World)
    (message : String) (sessionId : JsVal) (threadId : String) :
    (runTurn ASSISTANT_ID env fuel w message sessionId threadId).1.threadStore = w.threadStore ∧
    ∃ evs, (runTurn ASSISTANT_ID env fuel w message sessionId threadId).1.trace =
        w.trace ++ ⟨w.now, .messagesCreate threadId "user" (jsTrim message)⟩ :: evs ∧
      ∀ e ∈ evs, TurnCall ASSISTANT_ID threadId e.call := by
  unfold runTurn
  split
  · exact ⟨rfl, [], by simp [World.await], by simp⟩
  · split
    · exact ⟨rfl, [_], by simp [World.await]; rfl, by simp [TurnCall]⟩
    · exact ⟨rfl, [_], by simp [World.await]; rfl, by simp [TurnCall]⟩
    · split
      · exact ⟨rfl, [_], by simp [World.await]; rfl, by simp [TurnCall]⟩
      · split
        · exact ⟨rfl, [_, _], by simp [World.await]; exact ⟨rfl, rfl⟩, by simp [TurnCall]⟩
        · rename_i run _ _ _ runStatus _
          dsimp only
          generalize hw : ((w.await env (.messagesCreate threadId "user" (jsTrim message))).await
            env (.runsCreate threadId ASSISTANT_ID)).await env (.runsRetrieve _ threadId) = w3
          obtain ⟨hs, evs, tail, he, hp, ht⟩ :=
            pollAndFinish_ext env fuel w3 sessionId threadId _ runStatus
          have hcalls := PollShape.call_mem evs hp
          refine ⟨by rw [hs, ← hw]; rfl,
            ⟨(w.await env (.messagesCreate threadId "user" (jsTrim message))).now,
              .runsCreate threadId ASSISTANT_ID⟩ ::
            ⟨((w.await env (.messagesCreate threadId "user" (jsTrim message))).await env
              (.runsCreate threadId ASSISTANT_ID)).now,
              .runsRetrieve (run.id.getD "") threadId⟩ :: (evs ++ tail), ?_, ?_⟩
          · rw [he, ← hw]; simp [World.await]
          · intro e hin
            simp only [List.mem_cons, List.mem_append] at hin
            rcases hin with rfl | rfl | hin | hin
            · exact Or.inl rfl
            · exact Or.inr (Or.inl ⟨_, rfl⟩)
            · rcases hcalls e hin with h | h
              · exact Or.inr (Or.inr (Or.inl h))
              · exact Or.inr (Or.inl ⟨_, h⟩)
            · rcases ht with rfl | ⟨time, rfl⟩
              · simp at hin
              · simp at hin; subst hin; exact Or.inr (Or.inr (Or.inr rfl))

/-! ### The registry -/

theorem lookupEntry_setEntry_same (k : JsVal) (v : String) (l : List (JsVal × String)) :
    lookupEntry k (setEntry k v l) = some v := by
  induction l with
  | nil => simp [setEntry, lookupEntry]
  | cons p rest ih =>
    obtain ⟨k', v'⟩ := p
    by_cases h : k' = k
    · simp [setEntry, lookupEntry, h]
    · simp [setEntry, lookupEntry, h, ih]

theorem lookupEntry_setEntry_other (k k2 : JsVal) (v : String) (l : List (JsVal × String))
    (h : k ≠ k2) : lookupEntry k2 (setEntry k v l) = lookupEntry k2 l := by
  induction l with
  | nil => simp [setEntry, lookupEntry, h]
  | cons p rest ih =>
    obtain ⟨k', v'⟩ := p
    by_cases h1 : k' = k
    · subst h1
      simp [setEntry, lookupEntry, h]
    · by_cases h2 : k' = k2
      · subst h2
        simp [setEntry, lookupEntry, h1]
      · simp [setEntry, lookupEntry, h1, h2, ih]

theorem ThreadStore.get_set_same (m : ThreadStore) (k : JsVal) (v : String) :
    (m.set k v).get k = some v :=
  lookupEntry_setEntry_same k v m.entries

theorem ThreadStore.get_set_other (m : ThreadStore) (k k2 : JsVal) (v : String) (h : k ≠ k2) :
    (m.set k v).get k2 = m.get k2 :=
  lookupEntry_setEntry_other k k2 v m.entries h

/-! ### Resolving the thread -/

theorem truthy_eq_true {o : Option String} : truthy o = true ↔ ∃ s, o = some s ∧ s ≠ "" := by
  cases o <;> simp [truthy]

theorem truthy_eq_false {o : Option String} : truthy o = false ↔ o = none ∨ o = some "" := by
  cases o <;> simp [truthy]

theorem getOrCreateThread_existing (env : Env) (w : World) (sessionId : JsVal) (t : String)
    (hmap : w.threadStore.get sessionId = some t) (ht : t ≠ "") :
    getOrCreateThread env w sessionId = (w, .ok t) := by
  have h1 : truthy (some t) = true := by simp [truthy, ht]
  simp [getOrCreateThread, hmap, h1, ht]

theorem getOrCreateThread_created (env : Env) (w : World) (sessionId : JsVal) (t : String)
    (hfresh : truthy (w.threadStore.get sessionId) = false)
    (hcreate : env.threadsCreate = .ok (some ⟨some t⟩)) (ht : t ≠ "") :
    getOrCreateThread env w sessionId =
      ({ w.await env .threadsCreate with threadStore := w.threadStore.set sessionId t },
        .ok t) := by
  have h1 : truthy (some t) = true := by simp [truthy, ht]
  simp [getOrCreateThread, hfresh, hcreate, h1, ht]
  rfl

theorem getOrCreateThread_failed (env : Env) (w : World) (sessionId : JsVal)
    (thread : Option Thread)
    (hfresh : truthy (w.threadStore.get sessionId) = false)
    (hcreate : env.threadsCreate = .ok thread)
    (hbad : ∀ th, thread = some th → truthy th.id = false) :
    getOrCreateThread env w sessionId =
      (w.await env .threadsCreate, .error "Failed to create thread") := by
  cases thread with
  | none => simp [getOrCreateThread, hfresh, hcreate]
  | some th => simp [getOrCreateThread, hfresh, hcreate, hbad th rfl]

theorem getOrCreateThread_cases (env : Env) (w : World) (sessionId : JsVal) :
    (∃ t, w.threadStore.get sessionId = some t ∧ t ≠ "" ∧
        getOrCreateThread env w sessionId = (w, .ok t)) ∨
    (truthy (w.threadStore.get sessionId) = false ∧
      ((∃ e, getOrCreateThread env w sessionId = (w.await env .threadsCreate, .error e)) ∨
        ∃ t, t ≠ "" ∧ getOrCreateThread env w sessionId =
          ({ w.await env .threadsCreate with threadStore := w.threadStore.set sessionId t },
            .ok t))) := by
  by_cases h : truthy (w.threadStore.get sessionId) = true
  · obtain ⟨t, ht, hne⟩ := truthy_eq_true.mp h
    exact Or.inl ⟨t, ht, hne, getOrCreateThread_existing env w sessionId t ht hne⟩
  · have hf : truthy (w.threadStore.get sessionId) = false := by simpa using h
    refine Or.inr ⟨hf, ?_⟩
    cases hc : env.threadsCreate with
    | error e => exact Or.inl ⟨e, by simp [getOrCreateThread, hf, hc]⟩
    | ok thread =>
      by_cases hb : ∀ th, thread = some th → truthy th.id = false
      · exact Or.inl ⟨_, getOrCreateThread_failed env w sessionId thread hf hc hb⟩
      · push_neg at hb
        obtain ⟨th, rfl, hth⟩ := hb
        have hth2 : truthy th.id = true := by simpa using hth
        obtain ⟨t, hid, hne⟩ := truthy_eq_true.mp hth2
        refine Or.inr ⟨t, hne, ?_⟩
        have : th = ⟨some t⟩ := by cases th; simp_all
        subst this
        exact getOrCreateThread_created env w sessionId t hf hc hne

/-! ### The request boundary -/

@[simp] theorem settle_threadStore (o : World × Option Int × Completion Response) :
    (settle o).threadStore = o.1.threadStore := by
  obtain ⟨w, st, c⟩ := o
  cases c <;> rfl

@[simp] theorem settle_trace (o : World × Option Int × Completion Response) :
    (settle o).trace = o.1.trace := by
  obtain ⟨w, st, c⟩ := o
  cases c <;> rfl

@[simp] theorem settle_startTime (o : World × Option Int × Completion Response) :
    (settle o).startTime = o.2.1 := by
  obtain ⟨w, st, c⟩ := o
  cases c <;> rfl

/-- A valid turn: the handler resolves the thread and runs the turn on it. -/
theorem handler_valid (assistantId : String) (env : Env) (fuel : Nat)
    (threadStore : ThreadStore) (req : Request) (message : String) (sessionId : JsVal)
    (hcfg : assistantId ≠ "") (hmethod : req.method = "POST")
    (hbody : readBody env req.body = .ok (.str message, sessionId))
    (hmsg : jsTrim message ≠ "") :
    handler (some assistantId) env fuel threadStore req =
      settle (match getOrCreateThread env (World.init env threadStore) sessionId with
        | (w1, .error e) => (w1, none, .thrown e)
        | (w1, .ok threadId) => runTurn assistantId env fuel w1 message sessionId threadId) := by
  have hv := validMessage_of_trim_ne message hmsg
  have ht : truthy (some assistantId) = true := by simp [truthy, hcfg]
  simp [handler, hmethod, tryBlock, hbody, hv, ht]

theorem tryBlock_store (ASSISTANT_ID : Option String) (env : Env) (fuel : Nat) (w : World)
    (req : Request) :
    (tryBlock ASSISTANT_ID env fuel w req).1.threadStore = w.threadStore ∨
      ∃ sessionId t, truthy (w.threadStore.get sessionId) = false ∧ t ≠ "" ∧
        (tryBlock ASSISTANT_ID env fuel w req).1.threadStore = w.threadStore.set sessionId t := by
  unfold tryBlock
  split
  · exact Or.inl rfl
  · rename_i message sessionId _
    split
    · exact Or.inl rfl
    · split
      · exact Or.inl rfl
      · rcases getOrCreateThread_cases env w sessionId with ⟨t, _, _, h⟩ | ⟨hf, ⟨e, h⟩ | ⟨t, ht, h⟩⟩
        · rw [h]
          exact Or.inl (runTurn_ext _ env fuel w _ sessionId t).1
        · rw [h]
          exact Or.inl rfl
        · rw [h]
          refine Or.inr ⟨sessionId, t, hf, ht, ?_⟩
          exact (runTurn_ext _ env fuel _ _ sessionId t).1

theorem handler_store (ASSISTANT_ID : Option String) (env : Env) (fuel : Nat)
    (threadStore : ThreadStore) (req : Request) :
    (handler ASSISTANT_ID env fuel threadStore req).threadStore = threadStore ∨
      ∃ sessionId t, truthy (threadStore.get sessionId) = false ∧ t ≠ "" ∧
        (handler ASSISTANT_ID env fuel threadStore req).threadStore =
          threadStore.set sessionId t := by
  unfold handler
  split
  · exact Or.inl rfl
  · split
    · exact Or.inl rfl
    · simpa using tryBlock_store ASSISTANT_ID env fuel (World.init env threadStore) req

theorem ThreadStore.usable_empty : ThreadStore.empty.Usable := by
  intro k v h
  simp [ThreadStore.empty, ThreadStore.get, lookupEntry] at h

theorem handler_usable (ASSISTANT_ID : Option String) (env : Env) (fuel : Nat)
    (threadStore : ThreadStore) (req : Request) (h : threadStore.Usable) :
    (handler ASSISTANT_ID env fuel threadStore req).threadStore.Usable := by
  rcases handler_store ASSISTANT_ID env fuel threadStore req with he | ⟨sid, t, _, ht, he⟩
  · rw [he]; exact h
  · rw [he]
    intro k v hk
    by_cases hkk : sid = k
    · subst hkk
      rw [ThreadStore.get_set_same] at hk
      cases hk
      exact ht
    · rw [ThreadStore.get_set_other _ _ _ _ hkk] at hk
      exact h k v hk

/-- A mapping to a usable identifier survives every request. -/
theorem handler_keeps (ASSISTANT_ID : Option String) (env : Env) (fuel : Nat)
    (threadStore : ThreadStore) (req : Request) (s : JsVal) (t : String)
    (hmap : threadStore.get s = some t) (ht : t ≠ "") :
    (handler ASSISTANT_ID env fuel threadStore req).threadStore.get s = some t := by
  rcases handler_store ASSISTANT_ID env fuel threadStore req with he | ⟨sid, t', hf, _, he⟩
  · rw [he]; exact hmap
  · rw [he]
    by_cases hkk : sid = s
    · subst hkk
      rw [hmap] at hf
      simp [truthy, ht] at hf
    · rw [ThreadStore.get_set_other _ _ _ _ hkk]
      exact hmap

theorem serve_usable (ASSISTANT_ID : Option String) :
    ∀ (requests : List (Env × Nat × Request)) (threadStore : ThreadStore),
      threadStore.Usable → (serve ASSISTANT_ID threadStore requests).Usable
  | [], _, h => h
  | (env, fuel, req) :: rest, threadStore, h =>
    serve_usable ASSISTANT_ID rest _ (handler_usable ASSISTANT_ID env fuel threadStore req h)

theorem serve_keeps (ASSISTANT_ID : Option String) (s : JsVal) (t : String) (ht : t ≠ "") :
    ∀ (requests : List (Env × Nat × Request)) (threadStore : ThreadStore),
      threadStore.get s = some t → (serve ASSISTANT_ID threadStore requests).get s = some t
  | [], _, h => h
  | (env, fuel, req) :: rest, threadStore, h =>
    serve_keeps ASSISTANT_ID s t ht rest _
      (handler_keeps ASSISTANT_ID env fuel threadStore req s t h ht)

theorem TurnCall.ne_threadsCreate {a t : String} {c : Call} (h : TurnCall a t c) :
    c ≠ .threadsCreate := by
  rcases h with h | ⟨_, h⟩ | h | h <;> simp [h]

theorem TurnCall.ne_messagesCreate {a t : String} {c : Call} (h : TurnCall a t c)
    (t2 role content : String) : c ≠ .messagesCreate t2 role content := by
  rcases h with h | ⟨_, h⟩ | h | h <;> simp [h]

/-- A reply always names the session and the thread the turn ran on. -/
theorem runTurn_reply (ASSISTANT_ID : String) (env : Env) (fuel : Nat) (w : World)
    (message : String) (sessionId : JsVal) (threadId : String) (res : Response)
    (h : (runTurn ASSISTANT_ID env fuel w message sessionId threadId).2.2 = .done res) :
    ∃ text, res = ⟨200, corsHeaders, .reply text sessionId threadId⟩ := by
  unfold runTurn at h
  split at h
  · simp at h
  · split at h
    · simp at h
    · simp at h
    · split at h
      · simp at h
      · split at h
        · simp at h
        · unfold pollAndFinish at h
          dsimp only at h
          split at h
          · simp at h
          · simp at h
          · unfold finish at h
            split at h
            · split at h
              · simp at h
              · split at h
                · simp at h
                · simp only [Completion.done.injEq] at h
                  exact ⟨_, h.symm⟩
            · split at h
              · simp at h
              · split at h <;> simp at h

theorem runTurn_run_failed (ASSISTANT_ID : String) (env : Env) (fuel : Nat) (w : World)
    (message : String) (sessionId : JsVal) (threadId : String) (run : Option Run)
    (hpost : env.messagesCreate = .ok ())
    (hrun : env.runsCreate = .ok run)
    (hbad : ∀ r, run = some r → r.id = none ∨ r.id = some "") :
    runTurn ASSISTANT_ID env fuel w message sessionId threadId =
      ((w.await env (.messagesCreate threadId "user" (jsTrim message))).await env
          (.runsCreate threadId ASSISTANT_ID), none,
        .thrown (if run = none then "Failed to create assistant run - run object is null"
          else "Failed to create assistant run - run.id is undefined")) := by
  cases run with
  | none => simp [runTurn, hpost, hrun]
  | some r =>
    have hb : truthy r.id = false := truthy_eq_false.mpr (hbad r rfl)
    simp [runTurn, hpost, hrun, hb]

theorem pollLoop_done (env : Env) (threadId runId : String) (startTime : Int) (fuel k : Nat)
    (w : World) (runStatus : RunStatus)
    (h : ¬(runStatus.status = "queued" ∨ runStatus.status = "in_progress")) :
    pollLoop env threadId runId startTime fuel k w runStatus = (w, .done runStatus) := by
  cases fuel with
  | zero => rw [pollLoop_zero, if_neg h]
  | succ fuel => rw [pollLoop_succ, if_neg h]

theorem delays_append (a b : List Event) : delays (a ++ b) = delays a + delays b := by
  simp [delays, calls]

theorem retrievals_append (a b : List Event) :
    retrievals (a ++ b) = retrievals a + retrievals b := by
  simp [retrievals, calls]

/-- The loop on a run that shows `n` more non-terminal statuses and then `last`: unless
the time budget is exceeded, it makes `n` rounds and ends with `last`. -/
theorem pollLoop_rounds (env : Env) (threadId runId : String) (startTime : Int)
    (last : RunStatus) (hthread : threadId ≠ "") (hrunId : runId ≠ "")
    (hterm : ¬(last.status = "queued" ∨ last.status = "in_progress")) :
    ∀ (n fuel k : Nat) (w : World) (runStatus : RunStatus), n ≤ fuel →
      env.runsRetrieve k = .ok runStatus →
      (∀ i, i < n → ∃ s, env.runsRetrieve (k + i) = .ok s ∧
        (s.status = "queued" ∨ s.status = "in_progress")) →
      env.runsRetrieve (k + n) = .ok last →
      (pollLoop env threadId runId startTime fuel k w runStatus).2 =
          .thrown "Request timeout: Assistant took too long to respond" ∨
      ((pollLoop env threadId runId startTime fuel k w runStatus).2 = .done last ∧
        ∃ evs, (pollLoop env threadId runId startTime fuel k w runStatus).1.trace =
            w.trace ++ evs ∧ delays evs = n ∧ retrievals evs = n) := by
  intro n
  induction n with
  | zero =>
    intro fuel k w st _ hst _ hlast
    have : st = last := by
      rw [Nat.add_zero, hst] at hlast
      exact Except.ok.inj hlast
    subst this
    rw [pollLoop_done env threadId runId startTime fuel k w st hterm]
    exact Or.inr ⟨rfl, [], by simp, rfl, rfl⟩
  | succ n ih =>
    intro fuel k w st hfuel hst hseq hlast
    obtain ⟨fuel, rfl⟩ : ∃ f, fuel = f + 1 := ⟨fuel - 1, by omega⟩
    have hnon : st.status = "queued" ∨ st.status = "in_progress" := by
      obtain ⟨s, hs, hn⟩ := hseq 0 (by omega)
      rw [Nat.add_zero, hst] at hs
      cases Except.ok.inj hs
      exact hn
    rw [pollLoop_succ, if_pos hnon]
    by_cases hto : w.now - startTime > maxWaitTime
    · rw [if_pos hto]
      exact Or.inl rfl
    · rw [if_neg hto, if_neg (by simp [hthread, hrunId])]
      have hnext : ∃ s, env.runsRetrieve (k + 1) = .ok s := by
        by_cases hn : n = 0
        · subst hn
          exact ⟨last, hlast⟩
        · obtain ⟨s, hs, _⟩ := hseq 1 (by omega)
          exact ⟨s, hs⟩
      obtain ⟨s, hs⟩ := hnext
      simp only [hs]
      rcases ih fuel (k + 1)
        ((w.await env (.setTimeout 500)).await env (.runsRetrieve runId threadId)) s
        (by omega) hs
        (fun i hi => by
          obtain ⟨s', hs', hn'⟩ := hseq (i + 1) (by omega)
          exact ⟨s', by rw [← hs']; congr 1; omega, hn'⟩)
        (by rw [← hlast]; congr 1; omega) with h | ⟨hd, evs, he, hdel, hret⟩
      · exact Or.inl h
      · refine Or.inr ⟨hd, ⟨w.now, .setTimeout 500⟩ ::
          ⟨(w.await env (.setTimeout 500)).now, .runsRetrieve runId threadId⟩ :: evs, ?_, ?_, ?_⟩
        · rw [he]; simp [World.await]
        · rw [← hdel]
          simp [delays, calls, Call.isSetTimeout]
        · rw [← hret]
          simp [retrievals, calls, Call.isRunsRetrieve]

theorem getOrCreateThread_resolves (env : Env) (threadStore : ThreadStore) (sessionId : JsVal)
    (hthread : (∃ t, threadStore.get sessionId = some t ∧ t ≠ "") ∨
      ∃ t, env.threadsCreate = .ok (some ⟨some t⟩) ∧ t ≠ "") :
    ∃ w1 t1, getOrCreateThread env (World.init env threadStore) sessionId = (w1, .ok t1) ∧
      t1 ≠ "" ∧ ∀ e ∈ w1.trace, e.call = .threadsCreate := by
  by_cases hex : ∃ t, threadStore.get sessionId = some t ∧ t ≠ ""
  · obtain ⟨t, hmap, ht⟩ := hex
    exact ⟨_, t, getOrCreateThread_existing env (World.init env threadStore) sessionId t
      hmap ht, ht, by simp [World.init]⟩
  · obtain ⟨t, hcreate, ht⟩ := hthread.resolve_left hex
    have hf : truthy ((World.init env threadStore).threadStore.get sessionId) = false := by
      show truthy (threadStore.get sessionId) = false
      cases hg : truthy (threadStore.get sessionId) with
      | false => rfl
      | true => exact absurd (truthy_eq_true.mp hg) hex
    exact ⟨_, t, getOrCreateThread_created env (World.init env threadStore) sessionId t hf
      hcreate ht, ht, by simp [World.await, World.init]⟩

theorem runTurn_polling (ASSISTANT_ID : String) (env : Env) (fuel : Nat) (w : World)
    (message : String) (sessionId : JsVal) (threadId runId : String) (first : RunStatus)
    (hpost : env.messagesCreate = .ok ())
    (hrun : env.runsCreate = .ok (some ⟨some runId⟩)) (hid : runId ≠ "")
    (hfirst : env.runsRetrieve 0 = .ok first) :
    runTurn ASSISTANT_ID env fuel w message sessionId threadId =
      pollAndFinish env fuel
        (((w.await env (.messagesCreate threadId "user" (jsTrim message))).await env
          (.runsCreate threadId ASSISTANT_ID)).await env (.runsRetrieve runId threadId))
        sessionId threadId runId first := by
  have h1 : truthy (some runId) = true := by simp [truthy, hid]
  simp [runTurn, hpost, hrun, h1, hfirst]

theorem pollAndFinish_thrown (env : Env) (fuel : Nat) (w : World) (sessionId : JsVal)
    (threadId runId : String) (runStatus : RunStatus) (e : String)
    (h : (pollLoop env threadId runId w.now fuel 0 w runStatus).2 = .thrown e) :
    pollAndFinish env fuel w sessionId threadId runId runStatus =
      ((pollLoop env threadId runId w.now fuel 0 w runStatus).1, some w.now, .thrown e) := by
  unfold pollAndFinish
  dsimp only
  split <;> rename_i heq <;> rw [heq] at h ⊢ <;> simp at h
  rw [h]

theorem pollAndFinish_done (env : Env) (fuel : Nat) (w : World) (sessionId : JsVal)
    (threadId runId : String) (runStatus last : RunStatus)
    (h : (pollLoop env threadId runId w.now fuel 0 w runStatus).2 = .done last) :
    pollAndFinish env fuel w sessionId threadId runId runStatus =
      ((finish env (pollLoop env threadId runId w.now fuel 0 w runStatus).1 sessionId
          threadId last).1, some w.now,
        (finish env (pollLoop env threadId runId w.now fuel 0 w runStatus).1 sessionId
          threadId last).2) := by
  unfold pollAndFinish
  dsimp only
  split <;> rename_i heq <;> rw [heq] at h ⊢ <;> simp at h
  subst h
  rfl

theorem finish_ne_pending (env : Env) (w : World) (sessionId : JsVal) (threadId : String)
    (runStatus : RunStatus) : (finish env w sessionId threadId runStatus).2 ≠ .pending := by
  unfold finish
  split
  · split
    · simp
    · split <;> simp
  · split
    · simp
    · split <;> simp

theorem settle_response_ne_none (w : World) (startTime : Option Int)
    (c : Completion Response) (h : c ≠ .pending) :
    (settle (w, startTime, c)).response ≠ none := by
  cases c <;> simp [settle] at h ⊢

/-- The loop on a run that never leaves the non-terminal statuses, with a timer that
never fires early: after `k` rounds at least `500 * k` ms have passed, so the loop ends
with the timeout error within `121 - k` further delays. -/
theorem pollLoop_timeout (env : Env) (threadId runId : String) (startTime : Int)
    (hthread : threadId ≠ "") (hrunId : runId ≠ "")
    (hstatus : ∀ k, ∃ s, env.runsRetrieve k = .ok s ∧
      (s.status = "queued" ∨ s.status = "in_progress"))
    (htimer : ∀ n ms, ms ≤ env.elapse n (.setTimeout ms)) :
    ∀ (d fuel k : Nat) (w : World) (runStatus : RunStatus), k + d = 121 → d ≤ fuel →
      (runStatus.status = "queued" ∨ runStatus.status = "in_progress") →
      500 * (k : Int) ≤ w.now - startTime →
      (pollLoop env threadId runId startTime fuel k w runStatus).2 =
          .thrown "Request timeout: Assistant took too long to respond" ∧
        ∃ evs, (pollLoop env threadId runId startTime fuel k w runStatus).1.trace =
            w.trace ++ evs ∧ delays evs ≤ d := by
  intro d
  induction d with
  | zero =>
    intro fuel k w st hk _ hnon hnow
    have hto : w.now - startTime > maxWaitTime := by
      have : k = 121 := by omega
      subst this
      simp only [maxWaitTime]
      omega
    cases fuel with
    | zero =>
      rw [pollLoop_zero, if_pos hnon, if_pos hto]
      exact ⟨rfl, [], by simp, by simp [delays, calls]⟩
    | succ fuel =>
      rw [pollLoop_succ, if_pos hnon, if_pos hto]
      exact ⟨rfl, [], by simp, by simp [delays, calls]⟩
  | succ d ih =>
    intro fuel k w st hk hfuel hnon hnow
    obtain ⟨fuel, rfl⟩ : ∃ f, fuel = f + 1 := ⟨fuel - 1, by omega⟩
    rw [pollLoop_succ, if_pos hnon]
    by_cases hto : w.now - startTime > maxWaitTime
    · rw [if_pos hto]
      exact ⟨rfl, [], by simp, by simp [delays, calls]⟩
    · rw [if_neg hto, if_neg (by simp [hthread, hrunId])]
      obtain ⟨s, hs, hsn⟩ := hstatus (k + 1)
      simp only [hs]
      have hstep : 500 * ((k + 1 : Nat) : Int) ≤
          ((w.await env (.setTimeout 500)).await env (.runsRetrieve runId threadId)).now -
            startTime := by
        have h500 := htimer w.trace.length 500
        simp only [World.await]
        push_cast
        omega
      obtain ⟨hthrown, evs, he, hdel⟩ := ih fuel (k + 1)
        ((w.await env (.setTimeout 500)).await env (.runsRetrieve runId threadId)) s
        (by omega) (by omega) hsn hstep
      refine ⟨hthrown, ⟨w.now, .setTimeout 500⟩ ::
        ⟨(w.await env (.setTimeout 500)).now, .runsRetrieve runId threadId⟩ :: evs, ?_, ?_⟩
      · rw [he]; simp [World.await]
      · have : delays (⟨w.now, .setTimeout 500⟩ ::
            ⟨(w.await env (.setTimeout 500)).now, .runsRetrieve runId threadId⟩ :: evs) =
            delays evs + 1 := by
          simp [delays, calls, Call.isSetTimeout]
        omega

theorem chain_of_no_retrieval (env : Env) (startTime : Int) :
    ∀ (l : List Event), (∀ e ∈ l, e.call.isRunsRetrieve = false) →
      List.Chain' (TimelyRetrieval env startTime) l
  | [], _ => List.chain'_nil
  | [_], _ => List.chain'_singleton _
  | d :: e :: rest, h => by
    refine List.chain'_cons.mpr ⟨?_, chain_of_no_retrieval env startTime (e :: rest)
      (fun x hx => h x (List.mem_cons_of_mem _ hx))⟩
    intro he
    rw [h e (by simp)] at he
    cases he

theorem chain_append_of_head (env : Env) (startTime : Int) (a b : List Event)
    (ha : List.Chain' (TimelyRetrieval env startTime) a)
    (hb : List.Chain' (TimelyRetrieval env startTime) b)
    (hhead : ∀ y ∈ b.head?, y.call.isRunsRetrieve = false) :
    List.Chain' (TimelyRetrieval env startTime) (a ++ b) := by
  refine List.chain'_append.mpr ⟨ha, hb, ?_⟩
  intro x _ y hy he
  rw [hhead y hy] at he
  cases he

theorem PollShape.chain {env : Env} {startTime : Int} {runId threadId : String} :
    ∀ (evs : List Event), PollShape env startTime runId threadId evs →
      List.Chain' (TimelyRetrieval env startTime) evs ∧
        ∀ y ∈ evs.head?, y.call.isRunsRetrieve = false
  | [], _ => ⟨List.chain'_nil, by simp⟩
  | [d], h => ⟨List.chain'_singleton _, by simp [h.1, Call.isRunsRetrieve]⟩
  | d :: e :: rest, h => by
    obtain ⟨hc, hh⟩ := PollShape.chain rest h.2.2
    refine ⟨?_, by simp [h.1.1, Call.isRunsRetrieve]⟩
    refine List.chain'_cons.mpr ⟨fun _ => Or.inr ⟨h.1.1, h.1.2, h.2.1.2⟩, ?_⟩
    cases rest with
    | nil => exact List.chain'_singleton _
    | cons d2 rest2 =>
      refine List.chain'_cons.mpr ⟨?_, hc⟩
      intro he
      rw [hh d2 (by simp)] at he
      cases he

theorem pollAndFinish_startTime (env : Env) (fuel : Nat) (w : World) (sessionId : JsVal)
    (threadId runId : String) (runStatus : RunStatus) :
    (pollAndFinish env fuel w sessionId threadId runId runStatus).2.1 = some w.now := by
  unfold pollAndFinish
  dsimp only
  split <;> rfl

theorem runTurn_chain (ASSISTANT_ID : String) (env : Env) (fuel : Nat) (w : World)
    (message : String) (sessionId : JsVal) (threadId : String) (startTime : Int)
    (hstart : (runTurn ASSISTANT_ID env fuel w message sessionId threadId).2.1 =
      some startTime)
    (hpre : ∀ e ∈ w.trace, e.call.isRunsRetrieve = false) :
    List.Chain' (TimelyRetrieval env startTime)
      (runTurn ASSISTANT_ID env fuel w message sessionId threadId).1.trace := by
  cases hm : env.messagesCreate with
  | error e => simp [runTurn, hm] at hstart
  | ok u =>
    cases hr : env.runsCreate with
    | error e => simp [runTurn, hm, hr] at hstart
    | ok orun =>
      cases orun with
      | none => simp [runTurn, hm, hr] at hstart
      | some run =>
        by_cases hid : truthy run.id = true
        · cases h0 : env.runsRetrieve 0 with
          | error e => simp [runTurn, hm, hr, hid, h0] at hstart
          | ok runStatus =>
            have hrt : runTurn ASSISTANT_ID env fuel w message sessionId threadId =
                pollAndFinish env fuel
                  (((w.await env (.messagesCreate threadId "user" (jsTrim message))).await env
                    (.runsCreate threadId ASSISTANT_ID)).await env
                    (.runsRetrieve (run.id.getD "") threadId))
                  sessionId threadId (run.id.getD "") runStatus := by
              simp [runTurn, hm, hr, hid, h0]
            rw [hrt] at hstart ⊢
            generalize hw : ((w.await env (.messagesCreate threadId "user"
              (jsTrim message))).await env (.runsCreate threadId ASSISTANT_ID)).await env
              (.runsRetrieve (run.id.getD "") threadId) = w3 at hstart ⊢
            rw [pollAndFinish_startTime] at hstart
            cases hstart
            obtain ⟨_, evs, tail, he, hp, ht⟩ :=
              pollAndFinish_ext env fuel w3 sessionId threadId (run.id.getD "") runStatus
            obtain ⟨hc, hh⟩ := PollShape.chain evs hp
            rw [he, List.append_assoc]
            have htail : List.Chain' (TimelyRetrieval env w3.now) tail ∧
                ∀ y ∈ tail.head?, y.call.isRunsRetrieve = false := by
              rcases ht with rfl | ⟨time, rfl⟩
              · exact ⟨List.chain'_nil, by simp⟩
              · exact ⟨List.chain'_singleton _, by simp [Call.isRunsRetrieve]⟩
            have hrest : List.Chain' (TimelyRetrieval env w3.now) (evs ++ tail) ∧
                ∀ y ∈ (evs ++ tail).head?, y.call.isRunsRetrieve = false := by
              refine ⟨chain_append_of_head env _ evs tail hc htail.1 htail.2, ?_⟩
              cases evs with
              | nil => simpa using htail.2
              | cons d rest => simpa using hh
            refine chain_append_of_head env _ _ _ ?_ hrest.1 hrest.2
            rw [← hw]
            simp only [World.await, List.append_assoc]
            refine chain_append_of_head env _ _ _ (chain_of_no_retrieval env _ _ hpre) ?_
              (by simp [Call.isRunsRetrieve])
            refine List.chain'_cons.mpr ⟨fun he => by simp [Call.isRunsRetrieve] at he, ?_⟩
            exact List.chain'_cons.mpr ⟨fun _ => Or.inl rfl, List.chain'_singleton _⟩
        · simp [runTurn, hm, hr, hid] at hstart

theorem remoteCalls_append (a b : List Event) :
    remoteCalls (a ++ b) = remoteCalls a ++ remoteCalls b := by
  simp [remoteCalls, calls]

/-- What the polling loop does, told by the retrievals it issues.  Started after the
`k`-th retrieval, it issues `j` further ones, each after one delay, and how it ends is
decided by the answer to the last retrieval issued: a status outside `queued` and
`in_progress` ends it normally; a rejection is thrown; the timeout and running out of
fuel happen only on a status it keeps waiting on. -/
theorem pollLoop_observe (env : Env) (threadId runId : String) (startTime : Int)
    (hthread : threadId ≠ "") (hrunId : runId ≠ "") :
    ∀ (fuel k : Nat) (w : World) (runStatus : RunStatus),
      env.runsRetrieve k = .ok runStatus →
      ∃ j evs,
        (pollLoop env threadId runId startTime fuel k w runStatus).1.trace = w.trace ++ evs ∧
        (pollLoop env threadId runId startTime fuel k w runStatus).1.threadStore =
          w.threadStore ∧
        retrievals evs = j ∧ delays evs = j ∧
        remoteCalls evs = List.replicate j (.runsRetrieve runId threadId) ∧
        (∀ i, i < j → ∃ s, env.runsRetrieve (k + i) = .ok s ∧
          (s.status = "queued" ∨ s.status = "in_progress")) ∧
        (∀ last, (pollLoop env threadId runId startTime fuel k w runStatus).2 = .done last →
          env.runsRetrieve (k + j) = .ok last ∧
            ¬(last.status = "queued" ∨ last.status = "in_progress")) ∧
        (∀ e, (pollLoop env threadId runId startTime fuel k w runStatus).2 = .thrown e →
          env.runsRetrieve (k + j) = .error e ∨
            (e = "Request timeout: Assistant took too long to respond" ∧
              ∃ s, env.runsRetrieve (k + j) = .ok s ∧
                (s.status = "queued" ∨ s.status = "in_progress"))) ∧
        ((pollLoop env threadId runId startTime fuel k w runStatus).2 = .pending →
          ∃ s, env.runsRetrieve (k + j) = .ok s ∧
            (s.status = "queued" ∨ s.status = "in_progress")) := by
  intro fuel
  induction fuel with
  | zero =>
    intro k w st hst
    refine ⟨0, [], ?_⟩
    rw [pollLoop_zero]
    split
    · rename_i hnon
      split
      · exact ⟨by simp, rfl, rfl, rfl, rfl, by simp, by simp, fun e he => Or.inr
          ⟨by simpa using he.symm, st, hst, hnon⟩, by simp⟩
      · exact ⟨by simp, rfl, rfl, rfl, rfl, by simp, by simp, by simp,
          fun _ => ⟨st, hst, hnon⟩⟩
    · rename_i hterm
      exact ⟨by simp, rfl, rfl, rfl, rfl, by simp, fun last hl => by
        simp only [Completion.done.injEq] at hl
        subst hl
        exact ⟨hst, hterm⟩, by simp, by simp⟩
  | succ fuel ih =>
    intro k w st hst
    rw [pollLoop_succ]
    split
    · rename_i hnon
      split
      · exact ⟨0, [], by simp, rfl, rfl, rfl, rfl, by simp, by simp, fun e he => Or.inr
          ⟨by simpa using he.symm, st, hst, hnon⟩, by simp⟩
      · rw [if_neg (by simp [hthread, hrunId])]
        cases hnext : env.runsRetrieve (k + 1) with
        | error e =>
          refine ⟨1, [⟨w.now, .setTimeout 500⟩,
            ⟨(w.await env (.setTimeout 500)).now, .runsRetrieve runId threadId⟩], ?_⟩
          simp only []
          refine ⟨by simp [World.await], rfl, ?_, ?_, ?_, ?_, by simp, ?_, by simp⟩
          · simp [retrievals, calls, Call.isRunsRetrieve]
          · simp [delays, calls, Call.isSetTimeout]
          · simp [remoteCalls, calls, Call.isRemote, Call.isSetTimeout]
          · intro i hi
            have : i = 0 := by omega
            subst this
            exact ⟨st, hst, hnon⟩
          · intro e' he'
            simp only [Completion.thrown.injEq] at he'
            subst he'
            exact Or.inl hnext
        | ok next =>
          simp only []
          obtain ⟨j, evs, he, hs, hret, hdel, hrem, hmid, hdone, hthrown, hpend⟩ := ih (k + 1)
            ((w.await env (.setTimeout 500)).await env (.runsRetrieve runId threadId)) next
            hnext
          have hidx : k + (j + 1) = k + 1 + j := by omega
          refine ⟨j + 1, ⟨w.now, .setTimeout 500⟩ ::
            ⟨(w.await env (.setTimeout 500)).now, .runsRetrieve runId threadId⟩ :: evs,
            ?_, ?_, ?_, ?_, ?_, ?_, ?_, ?_, ?_⟩
          · rw [he]; simp [World.await]
          · rw [hs]; rfl
          · rw [← hret]; simp [retrievals, calls, Call.isRunsRetrieve]
          · rw [← hdel]; simp [delays, calls, Call.isSetTimeout]
          · have : remoteCalls (⟨w.now, .setTimeout 500⟩ ::
                ⟨(w.await env (.setTimeout 500)).now, .runsRetrieve runId threadId⟩ :: evs) =
                .runsRetrieve runId threadId :: remoteCalls evs := by
              simp [remoteCalls, calls, Call.isRemote, Call.isSetTimeout]
            rw [this, hrem, List.replicate_succ]
          · intro i hi
            cases i with
            | zero => exact ⟨st, hst, hnon⟩
            | succ i =>
              obtain ⟨s, hs', hw⟩ := hmid i (by omega)
              exact ⟨s, by rw [← hs']; congr 1; omega, hw⟩
          · rw [hidx]; exact hdone
          · rw [hidx]; exact hthrown
          · rw [hidx]; exact hpend
    · rename_i hterm
      exact ⟨0, [], by simp, rfl, rfl, rfl, rfl, by simp, fun last hl => by
        simp only [Completion.done.injEq] at hl
        subst hl
        exact ⟨hst, hterm⟩, by simp, by simp⟩

theorem validMessage_some (message : JsVal) (s : String) (h : validMessage message = some s) :
    message = .str s ∧ jsTrim s ≠ "" := by
  cases message with
  | str s' =>
    simp only [validMessage] at h
    split at h
    · simp at h
    · rename_i hc
      simp only [Option.some.injEq] at h
      subst h
      refine ⟨rfl, fun he => hc ?_⟩
      simp [he]
  | _ => simp [validMessage] at h

/-- The paths of `runTurn`: the post fails; the run creation fails or gives no usable
id; the first retrieval fails; or polling starts. -/
theorem runTurn_cases (ASSISTANT_ID : String) (env : Env) (fuel : Nat) (w : World)
    (message : String) (sessionId : JsVal) (threadId : String) :
    (∃ e, env.messagesCreate = .error e ∧
      runTurn ASSISTANT_ID env fuel w message sessionId threadId =
        (w.await env (.messagesCreate threadId "user" (jsTrim message)), none, .thrown e)) ∨
    (env.messagesCreate = .ok () ∧ ∃ e,
      runTurn ASSISTANT_ID env fuel w message sessionId threadId =
        ((w.await env (.messagesCreate threadId "user" (jsTrim message))).await env
          (.runsCreate threadId ASSISTANT_ID), none, .thrown e) ∧
      (env.runsCreate = .error e ∨
        (env.runsCreate = .ok none ∧
          e = "Failed to create assistant run - run object is null") ∨
        (∃ run, env.runsCreate = .ok (some run) ∧ truthy run.id = false ∧
          e = "Failed to create assistant run - run.id is undefined"))) ∨
    (env.messagesCreate = .ok () ∧ ∃ runId, runId ≠ "" ∧
      env.runsCreate = .ok (some ⟨some runId⟩) ∧
      ((∃ e, env.runsRetrieve 0 = .error e ∧
        runTurn ASSISTANT_ID env fuel w message sessionId threadId =
          (((w.await env (.messagesCreate threadId "user" (jsTrim message))).await env
            (.runsCreate threadId ASSISTANT_ID)).await env (.runsRetrieve runId threadId),
            none, .thrown e)) ∨
      (∃ first, env.runsRetrieve 0 = .ok first ∧
        runTurn ASSISTANT_ID env fuel w message sessionId threadId =
          pollAndFinish env fuel
            (((w.await env (.messagesCreate threadId "user" (jsTrim message))).await env
              (.runsCreate threadId ASSISTANT_ID)).await env (.runsRetrieve runId threadId))
            sessionId threadId runId first))) := by
  cases hm : env.messagesCreate with
  | error e => exact Or.inl ⟨e, rfl, by simp [runTurn, hm]⟩
  | ok u =>
    cases hr : env.runsCreate with
    | error e => exact Or.inr (Or.inl ⟨rfl, e, by simp [runTurn, hm, hr], Or.inl rfl⟩)
    | ok orun =>
      cases orun with
      | none =>
        exact Or.inr (Or.inl ⟨rfl, _, by simp [runTurn, hm, hr], Or.inr (Or.inl ⟨rfl, rfl⟩)⟩)
      | some run =>
        by_cases hid : truthy run.id = true
        · obtain ⟨runId, hrid, hne⟩ := truthy_eq_true.mp hid
          have hrun : run = ⟨some runId⟩ := by cases run; simp_all
          subst hrun
          refine Or.inr (Or.inr ⟨rfl, runId, hne, rfl, ?_⟩)
          cases h0 : env.runsRetrieve 0 with
          | error e => exact Or.inl ⟨e, rfl, by simp [runTurn, hm, hr, hid, h0]⟩
          | ok first => exact Or.inr ⟨first, rfl, by simp [runTurn, hm, hr, hid, h0]⟩
        · have hid' : truthy run.id = false := by simpa using hid
          exact Or.inr (Or.inl ⟨rfl, _, by simp [runTurn, hm, hr, hid'],
            Or.inr (Or.inr ⟨run, rfl, hid', rfl⟩)⟩)

/-- The paths of a valid turn up to `runTurn`: thread creation fails, or the thread is
resolved (found in the registry, or created and stored) and the turn runs on it. -/
theorem handler_paths (assistantId : String) (env : Env) (fuel : Nat)
    (threadStore : ThreadStore) (req : Request) (message : String) (sessionId : JsVal)
    (hcfg : assistantId ≠ "") (hmethod : req.method = "POST")
    (hbody : readBody env req.body = .ok (.str message, sessionId))
    (hmsg : jsTrim message ≠ "") :
    (truthy (threadStore.get sessionId) = false ∧ ∃ e,
      handler (some assistantId) env fuel threadStore req =
        settle ((World.init env threadStore).await env .threadsCreate, none, .thrown e) ∧
      (env.threadsCreate = .error e ∨
        (e = "Failed to create thread" ∧ ∃ thread, env.threadsCreate = .ok thread ∧
          ∀ th, thread = some th → truthy th.id = false))) ∨
    (∃ w1 t, t ≠ "" ∧ w1.threadStore.get sessionId = some t ∧
      ((w1 = World.init env threadStore ∧ threadStore.get sessionId = some t) ∨
        (truthy (threadStore.get sessionId) = false ∧
          env.threadsCreate = .ok (some ⟨some t⟩) ∧
          w1 = { (World.init env threadStore).await env .threadsCreate with
            threadStore := threadStore.set sessionId t })) ∧
      handler (some assistantId) env fuel threadStore req =
        settle (runTurn assistantId env fuel w1 message sessionId t)) := by
  rw [handler_valid assistantId env fuel _ req message sessionId hcfg hmethod hbody hmsg]
  by_cases h : truthy (threadStore.get sessionId) = true
  · obtain ⟨t, ht, hne⟩ := truthy_eq_true.mp h
    rw [getOrCreateThread_existing env (World.init env threadStore) sessionId t ht hne]
    exact Or.inr ⟨_, t, hne, ht, Or.inl ⟨rfl, ht⟩, rfl⟩
  · have hf : truthy (threadStore.get sessionId) = false := by simpa using h
    have hf' : truthy ((World.init env threadStore).threadStore.get sessionId) = false := hf
    cases hc : env.threadsCreate with
    | error e =>
      refine Or.inl ⟨hf, e, ?_, Or.inl rfl⟩
      simp [getOrCreateThread, hf', hc]
    | ok thread =>
      by_cases hb : ∀ th, thread = some th → truthy th.id = false
      · rw [getOrCreateThread_failed env _ sessionId thread hf' hc hb]
        exact Or.inl ⟨hf, _, rfl, Or.inr ⟨rfl, thread, rfl, hb⟩⟩
      · push_neg at hb
        obtain ⟨th, rfl, hth⟩ := hb
        have hth2 : truthy th.id = true := by simpa using hth
        obtain ⟨t, hid, hne⟩ := truthy_eq_true.mp hth2
        have : th = ⟨some t⟩ := by cases th; simp_all
        subst this
        rw [getOrCreateThread_created env _ sessionId t hf' hc hne]
        exact Or.inr ⟨_, t, hne, ThreadStore.get_set_same _ _ _,
          Or.inr ⟨hf, rfl, rfl⟩, rfl⟩

/-- How polling and the final dispatch end, told by the retrievals issued: after the
first retrieval the loop issues `j` more; on a last answer outside `queued` and
`in_progress` the dispatch of lines 133-159 runs on it; otherwise an error is thrown
(a rejected retrieval, or the timeout on a status still waited on) or the fuel ran
out. -/
theorem pollAndFinish_observe (env : Env) (fuel : Nat) (w : World) (sessionId : JsVal)
    (threadId runId : String) (first : RunStatus)
    (hthread : threadId ≠ "") (hrunId : runId ≠ "")
    (hfirst : env.runsRetrieve 0 = .ok first) :
    ∃ j evs w4, w4.trace = w.trace ++ evs ∧ w4.threadStore = w.threadStore ∧
      retrievals evs = j ∧ delays evs = j ∧
      remoteCalls evs = List.replicate j (.runsRetrieve runId threadId) ∧
      (∀ i, i < j → ∃ s, env.runsRetrieve i = .ok s ∧
        (s.status = "queued" ∨ s.status = "in_progress")) ∧
      ((∃ last, env.runsRetrieve j = .ok last ∧
          ¬(last.status = "queued" ∨ last.status = "in_progress") ∧
          pollAndFinish env fuel w sessionId threadId runId first =
            ((finish env w4 sessionId threadId last).1, some w.now,
              (finish env w4 sessionId threadId last).2)) ∨
        (∃ e, pollAndFinish env fuel w sessionId threadId runId first =
            (w4, some w.now, .thrown e) ∧
          (env.runsRetrieve j = .error e ∨
            (e = "Request timeout: Assistant took too long to respond" ∧
              ∃ s, env.runsRetrieve j = .ok s ∧
                (s.status = "queued" ∨ s.status = "in_progress")))) ∨
        (pollAndFinish env fuel w sessionId threadId runId first =
            (w4, some w.now, .pending) ∧
          ∃ s, env.runsRetrieve j = .ok s ∧
            (s.status = "queued" ∨ s.status = "in_progress"))) := by
  obtain ⟨j, evs, he, hs, hret, hdel, hrem, hmid, hdone, hthrown, hpend⟩ :=
    pollLoop_observe env threadId runId w.now hthread hrunId fuel 0 w first hfirst
  rw [Nat.zero_add] at hdone hthrown hpend
  refine ⟨j, evs, (pollLoop env threadId runId w.now fuel 0 w first).1, he, hs, hret, hdel,
    hrem, fun i hi => by simpa using hmid i hi, ?_⟩
  cases hc : (pollLoop env threadId runId w.now fuel 0 w first).2 with
  | pending =>
    refine Or.inr (Or.inr ⟨?_, hpend hc⟩)
    unfold pollAndFinish
    dsimp only
    split <;> rename_i heq <;> rw [heq] at hc ⊢ <;> simp at hc
  | thrown e =>
    exact Or.inr (Or.inl ⟨e, pollAndFinish_thrown env fuel w sessionId threadId runId first e
      hc, hthrown e hc⟩)
  | done last =>
    exact Or.inl ⟨last, (hdone last hc).1, (hdone last hc).2,
      pollAndFinish_done env fuel w sessionId threadId runId first last hc⟩

theorem finish_completed (env : Env) (w : World) (sessionId : JsVal) (threadId : String)
    (last : RunStatus) (h : last.status = "completed") :
    finish env w sessionId threadId last =
      (w.await env (.messagesList threadId 1 "desc"),
        match env.messagesList with
        | .error e => .thrown e
        | .ok messages =>
          match firstText env messages with
          | .error e => .thrown e
          | .ok responseText =>
            .done ⟨200, corsHeaders,
              .reply (cleanResponse responseText) sessionId threadId⟩) := by
  unfold finish
  rw [if_pos h]
  dsimp only
  cases env.messagesList with
  | error e => rfl
  | ok messages =>
    dsimp only
    cases firstText env messages <;> rfl

theorem finish_failed (env : Env) (w : World) (sessionId : JsVal) (threadId : String)
    (last : RunStatus) (h : last.status = "failed") :
    (∀ m, last.last_error = some ⟨some m⟩ → m ≠ "" →
      finish env w sessionId threadId last = (w, .thrown m)) ∧
    ((∀ m, last.last_error = some ⟨some m⟩ → m = "") →
      finish env w sessionId threadId last = (w, .thrown "Assistant run failed")) := by
  have hc : last.status ≠ "completed" := by rw [h]; decide
  constructor
  · intro m hm hne
    have ht : truthy (some m) = true := by simp [truthy, hne]
    simp [finish, hc, h, hm, ht]
  · intro hall
    cases hl : last.last_error with
    | none => simp [finish, hc, h, hl, truthy]
    | some e =>
      obtain ⟨msg⟩ := e
      cases msg with
      | none => simp [finish, hc, h, hl, truthy]
      | some m =>
        have := hall m hl
        subst this
        simp [finish, hc, h, hl, truthy]

theorem finish_requires_action (env : Env) (w : World) (sessionId : JsVal)
    (threadId : String) (last : RunStatus) (h : last.status = "requires_action") :
    finish env w sessionId threadId last =
      (w, .thrown "Assistant requires action, but no functions are configured") := by
  unfold finish
  rw [if_neg (by rw [h]; decide), if_neg (by rw [h]; decide), if_pos h]

theorem finish_other (env : Env) (w : World) (sessionId : JsVal) (threadId : String)
    (last : RunStatus) (h1 : last.status ≠ "completed") (h2 : last.status ≠ "failed")
    (h3 : last.status ≠ "requires_action") :
    finish env w sessionId threadId last =
      (w, .thrown ("Unexpected run status: " ++ last.status)) := by
  unfold finish
  rw [if_neg h1, if_neg h2, if_neg h3]

/-- Anything is awaited only in a valid turn: method `POST`, a message that is a string
and not empty after trimming, and a configured assistant. -/
theorem handler_trace_ne_nil (ASSISTANT_ID : Option String) (env : Env) (fuel : Nat)
    (threadStore : ThreadStore) (req : Request)
    (h : (handler ASSISTANT_ID env fuel threadStore req).trace ≠ []) :
    req.method = "POST" ∧ ∃ message sessionId assistantId,
      readBody env req.body = .ok (.str message, sessionId) ∧ jsTrim message ≠ "" ∧
        ASSISTANT_ID = some assistantId ∧ assistantId ≠ "" := by
  by_cases hopt : req.method = "OPTIONS"
  · simp [handler, hopt] at h
  by_cases hpost : req.method = "POST"
  swap
  · simp [handler, hopt, hpost] at h
  refine ⟨hpost, ?_⟩
  have hh : handler ASSISTANT_ID env fuel threadStore req =
      settle (tryBlock ASSISTANT_ID env fuel (World.init env threadStore) req) := by
    simp [handler, hpost]
  rw [hh, settle_trace] at h
  cases hb : readBody env req.body with
  | error e => simp [tryBlock, hb, World.init] at h
  | ok fields =>
    obtain ⟨message, sessionId⟩ := fields
    cases hv : validMessage message with
    | none => simp [tryBlock, hb, hv, World.init] at h
    | some text =>
      obtain ⟨rfl, hne⟩ := validMessage_some message text hv
      by_cases hcfg : truthy ASSISTANT_ID = true
      swap
      · simp [tryBlock, hb, hv, hcfg, World.init] at h
      obtain ⟨a, ha, hane⟩ := truthy_eq_true.mp hcfg
      exact ⟨text, sessionId, a, rfl, hne, ha, hane⟩

theorem retrievals_nil : retrievals [] = 0 := rfl

theorem delays_nil : delays [] = 0 := rfl

/-- The world in which `runTurn` starts has awaited nothing but, at most, the thread
creation. -/
theorem paths_start (env : Env) (threadStore : ThreadStore) (sessionId : JsVal) (t : String)
    (w1 : World)
    (h : (w1 = World.init env threadStore ∧ threadStore.get sessionId = some t) ∨
      (truthy (threadStore.get sessionId) = false ∧
        env.threadsCreate = .ok (some ⟨some t⟩) ∧
        w1 = { (World.init env threadStore).await env .threadsCreate with
          threadStore := threadStore.set sessionId t })) :
    (w1.trace = [] ∨ w1.trace = [⟨env.arrival, .threadsCreate⟩]) ∧
      retrievals w1.trace = 0 ∧ delays w1.trace = 0 ∧
      ∀ e ∈ w1.trace, e.call.isMessagesList = false := by
  rcases h with ⟨rfl, _⟩ | ⟨_, _, rfl⟩
  · exact ⟨Or.inl rfl, rfl, rfl, by simp [World.init]⟩
  · exact ⟨Or.inr rfl, rfl, rfl, by simp [World.init, World.await, Call.isMessagesList]⟩

theorem finish_trace_cases (env : Env) (w : World) (sessionId : JsVal) (threadId : String)
    (last : RunStatus) :
    retrievals (finish env w sessionId threadId last).1.trace = retrievals w.trace ∧
      delays (finish env w sessionId threadId last).1.trace = delays w.trace := by
  rcases finish_ext env w sessionId threadId last with h | ⟨_, h⟩
  · rw [h]; exact ⟨rfl, rfl⟩
  · rw [h]
    simp only [World.await, retrievals_append, delays_append]
    simp [retrievals, delays, calls, Call.isRunsRetrieve, Call.isSetTimeout]

/-- A turn whose last retrieval, the `n`-th, answered with a status outside `queued` and
`in_progress`: it is a valid turn whose thread `t` is in the registry afterwards, and
the handler ends with the dispatch of lines 133-159 on that status, after `n + 1`
retrievals and `n` delays and before any listing. -/
theorem handler_last_status (ASSISTANT_ID : Option String) (env : Env) (fuel : Nat)
    (threadStore : ThreadStore) (req : Request) (n : Nat) (last : RunStatus)
    (hobs : n + 1 ≤ retrievals (handler ASSISTANT_ID env fuel threadStore req).trace)
    (hlast : env.runsRetrieve n = .ok last)
    (hterm : ¬(last.status = "queued" ∨ last.status = "in_progress")) :
    ∃ message sessionId assistantId t w4 startTime,
      req.method = "POST" ∧ readBody env req.body = .ok (.str message, sessionId) ∧
      jsTrim message ≠ "" ∧ ASSISTANT_ID = some assistantId ∧ assistantId ≠ "" ∧ t ≠ "" ∧
      w4.threadStore.get sessionId = some t ∧
      retrievals w4.trace = n + 1 ∧ delays w4.trace = n ∧
      (∀ e ∈ w4.trace, e.call.isMessagesList = false) ∧
      handler ASSISTANT_ID env fuel threadStore req =
        settle ((finish env w4 sessionId t last).1, some startTime,
          (finish env w4 sessionId t last).2) := by
  have hne : (handler ASSISTANT_ID env fuel threadStore req).trace ≠ [] := by
    intro h
    rw [h] at hobs
    simp [retrievals, calls] at hobs
  obtain ⟨hmethod, message, sessionId, assistantId, hbody, hmsg, rfl, hcfg⟩ :=
    handler_trace_ne_nil ASSISTANT_ID env fuel threadStore req hne
  rcases handler_paths assistantId env fuel threadStore req message sessionId hcfg hmethod
    hbody hmsg with ⟨_, e, hh, _⟩ | ⟨w1, t, ht, hget, hw1, hh⟩
  · rw [hh, settle_trace] at hobs
    simp [World.await, World.init, retrievals, calls, Call.isRunsRetrieve] at hobs
  obtain ⟨_, hr1, hd1, hl1⟩ := paths_start env threadStore sessionId t w1 hw1
  rw [hh] at hobs ⊢
  rcases runTurn_cases assistantId env fuel w1 message sessionId t with
    ⟨e, _, hrt⟩ | ⟨_, e, hrt, _⟩ | ⟨_, runId, hrid, _, ⟨e, h0, hrt⟩ | ⟨first, h0, hrt⟩⟩
  · rw [hrt, settle_trace] at hobs
    simp only [World.await, retrievals_append, hr1] at hobs
    simp [retrievals, calls, Call.isRunsRetrieve] at hobs
  · rw [hrt, settle_trace] at hobs
    simp only [World.await, retrievals_append, hr1] at hobs
    simp [retrievals, calls, Call.isRunsRetrieve] at hobs
  · rw [hrt, settle_trace] at hobs
    simp only [World.await, retrievals_append, hr1] at hobs
    simp [retrievals, calls, Call.isRunsRetrieve] at hobs
    subst hobs
    rw [h0] at hlast
    cases hlast
  · rw [hrt] at hobs ⊢
    generalize hw3 : ((w1.await env (.messagesCreate t "user" (jsTrim message))).await env
      (.runsCreate t assistantId)).await env (.runsRetrieve runId t) = w3 at hobs ⊢
    have hr3 : retrievals w3.trace = 1 := by
      rw [← hw3]
      simp only [World.await, retrievals_append, hr1]
      simp [retrievals, calls, Call.isRunsRetrieve]
    have hd3 : delays w3.trace = 0 := by
      rw [← hw3]
      simp only [World.await, delays_append, hd1]
      simp [delays, calls, Call.isSetTimeout]
    have hl3 : ∀ e ∈ w3.trace, e.call.isMessagesList = false := by
      rw [← hw3]
      intro e he
      simp only [World.await, List.mem_append, List.mem_singleton] at he
      rcases he with ((he | rfl) | rfl) | rfl
      · exact hl1 e he
      · rfl
      · rfl
      · rfl
    have hs3 : w3.threadStore = w1.threadStore := by rw [← hw3]; rfl
    obtain ⟨j, evs, w4, he4, hs4, hret, hdel, hrem, hmid, hcase⟩ :=
      pollAndFinish_observe env fuel w3 sessionId t runId first ht hrid h0
    have hmid' : n < j → False := by
      intro hlt
      obtain ⟨s, hs, hw⟩ := hmid n hlt
      rw [hlast] at hs
      cases hs
      exact hterm hw
    have hr4 : retrievals w4.trace = 1 + j := by rw [he4, retrievals_append, hr3, hret]
    have hd4 : delays w4.trace = j := by rw [he4, delays_append, hd3, hdel, Nat.zero_add]
    rcases hcase with ⟨last', hl', _, hpf⟩ | ⟨e, hpf, herr⟩ | ⟨hpf, s, hs, hwait⟩
    · rw [hpf] at hobs ⊢
      rw [settle_trace, (finish_trace_cases env w4 sessionId t last').1, hr4] at hobs
      have hj : j = n := by
        by_contra hne
        exact hmid' (by omega)
      subst hj
      rw [hlast] at hl'
      cases hl'
      refine ⟨message, sessionId, assistantId, t, w4, w3.now, hmethod, hbody, hmsg, rfl,
        hcfg, ht, by rw [hs4, hs3]; exact hget, by omega, hd4, ?_, rfl⟩
      intro e he
      rw [he4] at he
      rcases List.mem_append.mp he with he | he
      · exact hl3 e he
      · have hmem : e.call ∈ calls evs := List.mem_map.mpr ⟨e, he, rfl⟩
        cases hc : e.call with
        | messagesList a b c =>
          have : Call.messagesList a b c ∈ remoteCalls evs := by
            rw [hc] at hmem
            exact List.mem_filter.mpr ⟨hmem, rfl⟩
          rw [hrem] at this
          cases (List.eq_of_mem_replicate this)
        | _ => rfl
    · rw [hpf, settle_trace, hr4] at hobs
      have hj : j = n := by
        by_contra hne
        exact hmid' (by omega)
      subst hj
      rcases herr with herr | ⟨_, s, hs, hwait⟩
      · rw [hlast] at herr; cases herr
      · rw [hlast] at hs; cases hs; exact absurd hwait hterm
    · rw [hpf, settle_trace, hr4] at hobs
      have hj : j = n := by
        by_contra hne
        exact hmid' (by omega)
      subst hj
      rw [hlast] at hs; cases hs; exact absurd hwait hterm

theorem remoteCalls_paths_start (env : Env) (threadStore : ThreadStore) (sessionId : JsVal)
    (t : String) (w1 : World) (ht : t ≠ "")
    (h : (w1 = World.init env threadStore ∧ threadStore.get sessionId = some t) ∨
      (truthy (threadStore.get sessionId) = false ∧
        env.threadsCreate = .ok (some ⟨some t⟩) ∧
        w1 = { (World.init env threadStore).await env .threadsCreate with
          threadStore := threadStore.set sessionId t })) :
    remoteCalls w1.trace =
      if !truthy (threadStore.get sessionId) then [Call.threadsCreate] else [] := by
  rcases h with ⟨rfl, hget⟩ | ⟨hf, _, rfl⟩
  · have : truthy (threadStore.get sessionId) = true := by rw [hget]; simp [truthy, ht]
    simp [this, World.init, remoteCalls, calls]
  · simp [hf, World.init, World.await, remoteCalls, calls, Call.isRemote, Call.isSetTimeout]

theorem settle_thrown (w : World) (startTime : Option Int) (m : String) :
    (settle (w, startTime, .thrown m)).response = some (caught m) := rfl

theorem mem_remoteCalls {c : Call} {trace : List Event} :
    c ∈ remoteCalls trace ↔ c ∈ calls trace ∧ c.isRemote = true := by
  simp [remoteCalls, List.mem_filter]

/-- A rejected call is answered through the `catch` block: whenever a call to the
service was awaited and the service rejected it with message `e`, the response is
`caught e`. -/
theorem handler_rejections (ASSISTANT_ID : Option String) (env : Env) (fuel : Nat)
    (threadStore : ThreadStore) (req : Request) (e : String) :
    (Call.threadsCreate ∈ calls (handler ASSISTANT_ID env fuel threadStore req).trace →
      env.threadsCreate = .error e →
      (handler ASSISTANT_ID env fuel threadStore req).response = some (caught e)) ∧
    ((∃ c ∈ calls (handler ASSISTANT_ID env fuel threadStore req).trace,
        c.isMessagesCreate = true) →
      env.messagesCreate = .error e →
      (handler ASSISTANT_ID env fuel threadStore req).response = some (caught e)) ∧
    ((∃ c ∈ calls (handler ASSISTANT_ID env fuel threadStore req).trace,
        c.isRunsCreate = true) →
      env.runsCreate = .error e →
      (handler ASSISTANT_ID env fuel threadStore req).response = some (caught e)) ∧
    (∀ n, n + 1 ≤ retrievals (handler ASSISTANT_ID env fuel threadStore req).trace →
      env.runsRetrieve n = .error e →
      (handler ASSISTANT_ID env fuel threadStore req).response = some (caught e)) ∧
    ((∃ c ∈ calls (handler ASSISTANT_ID env fuel threadStore req).trace,
        c.isMessagesList = true) →
      env.messagesList = .error e →
      (handler ASSISTANT_ID env fuel threadStore req).response = some (caught e)) := by
  by_cases hnil : (handler ASSISTANT_ID env fuel threadStore req).trace = []
  · rw [hnil]
    simp [calls, retrievals]
  obtain ⟨hmethod, message, sessionId, assistantId, hbody, hmsg, rfl, hcfg⟩ :=
    handler_trace_ne_nil ASSISTANT_ID env fuel threadStore req hnil
  rcases handler_paths assistantId env fuel threadStore req message sessionId hcfg hmethod
    hbody hmsg with ⟨hf, e', hh, hcause⟩ | ⟨w1, t, ht, hget, hw1, hh⟩
  · rw [hh]
    simp only [settle_trace, settle_thrown]
    refine ⟨fun _ he => ?_, ?_, ?_, ?_, ?_⟩
    · rcases hcause with hc | ⟨_, th, hc, _⟩
      · rw [hc] at he; cases he; rfl
      · rw [hc] at he; cases he
    all_goals
      simp [World.init, World.await, calls, retrievals, Call.isMessagesCreate,
        Call.isRunsCreate, Call.isMessagesList, Call.isRunsRetrieve]
  obtain ⟨hw1t, hr1, hd1, hl1⟩ := paths_start env threadStore sessionId t w1 hw1
  have hthr : Call.threadsCreate ∈ calls w1.trace → env.threadsCreate = .error e → False := by
    intro hin he
    rcases hw1 with ⟨rfl, _⟩ | ⟨_, hc, _⟩
    · simp [World.init, calls] at hin
    · rw [hc] at he; cases he
  have hc1 : ∀ c ∈ calls w1.trace, c = Call.threadsCreate := by
    intro c hc
    rcases hw1t with h | h <;> rw [h] at hc <;> simp [calls] at hc
    exact hc
  rw [hh]
  rcases runTurn_cases assistantId env fuel w1 message sessionId t with
    ⟨e', hm, hrt⟩ | ⟨hm, e', hrt, hcause⟩ |
    ⟨hm, runId, hrid, hrun, ⟨e', h0, hrt⟩ | ⟨first, h0, hrt⟩⟩
  · rw [hrt]
    simp only [settle_trace, settle_thrown, World.await]
    refine ⟨fun hin he => ?_, fun _ he => ?_, fun hin _ => ?_, fun n hn _ => ?_,
      fun hin _ => ?_⟩
    · simp only [calls, List.map_append, List.mem_append] at hin
      rcases hin with hin | hin
      · exact absurd he (fun he => hthr hin he)
      · simp at hin
    · rw [hm] at he; cases he; rfl
    · obtain ⟨c, hc, hk⟩ := hin
      simp only [calls, List.map_append, List.mem_append] at hc
      rcases hc with hc | hc
      · rw [hc1 c hc] at hk; cases hk
      · simp at hc; subst hc; cases hk
    · simp only [retrievals_append, hr1] at hn
      simp [retrievals, calls, Call.isRunsRetrieve] at hn
    · obtain ⟨c, hc, hk⟩ := hin
      simp only [calls, List.map_append, List.mem_append] at hc
      rcases hc with hc | hc
      · rw [hc1 c hc] at hk; cases hk
      · simp at hc; subst hc; cases hk
  · rw [hrt]
    simp only [settle_trace, settle_thrown, World.await]
    refine ⟨fun hin he => ?_, fun _ he => ?_, fun _ he => ?_, fun n hn _ => ?_,
      fun hin _ => ?_⟩
    · simp only [calls, List.map_append, List.mem_append] at hin
      rcases hin with (hin | hin) | hin
      · exact absurd he (fun he => hthr hin he)
      · simp at hin
      · simp at hin
    · rw [hm] at he; cases he
    · rcases hcause with hc | ⟨hc, _⟩ | ⟨run, hc, _⟩
      · rw [hc] at he; cases he; rfl
      · rw [hc] at he; cases he
      · rw [hc] at he; cases he
    · simp only [retrievals_append, hr1] at hn
      simp [retrievals, calls, Call.isRunsRetrieve] at hn
    · obtain ⟨c, hc, hk⟩ := hin
      simp only [calls, List.map_append, List.mem_append] at hc
      rcases hc with (hc | hc) | hc
      · rw [hc1 c hc] at hk; cases hk
      · simp at hc; subst hc; cases hk
      · simp at hc; subst hc; cases hk
  · rw [hrt]
    simp only [settle_trace, settle_thrown, World.await]
    refine ⟨fun hin he => ?_, fun _ he => ?_, fun _ he => ?_, fun n hn he => ?_,
      fun hin _ => ?_⟩
    · simp only [calls, List.map_append, List.mem_append] at hin
      rcases hin with ((hin | hin) | hin) | hin
      · exact absurd he (fun he => hthr hin he)
      · simp at hin
      · simp at hin
      · simp at hin
    · rw [hm] at he; cases he
    · rw [hrun] at he; cases he
    · simp only [retrievals_append, hr1] at hn
      simp [retrievals, calls, Call.isRunsRetrieve] at hn
      subst hn
      rw [h0] at he; cases he; rfl
    · obtain ⟨c, hc, hk⟩ := hin
      simp only [calls, List.map_append, List.mem_append] at hc
      rcases hc with ((hc | hc) | hc) | hc
      · rw [hc1 c hc] at hk; cases hk
      · simp at hc; subst hc; cases hk
      · simp at hc; subst hc; cases hk
      · simp at hc; subst hc; cases hk
  · rw [hrt]
    generalize hw3 : ((w1.await env (.messagesCreate t "user" (jsTrim message))).await env
      (.runsCreate t assistantId)).await env (.runsRetrieve runId t) = w3
    have hr3 : retrievals w3.trace = 1 := by
      rw [← hw3]
      simp only [World.await, retrievals_append, hr1]
      simp [retrievals, calls, Call.isRunsRetrieve]
    obtain ⟨j, evs, w4, he4, hs4, hret, hdel, hrem, hmid, hcase⟩ :=
      pollAndFinish_observe env fuel w3 sessionId t runId first ht hrid h0
    have hr4 : retrievals w4.trace = j + 1 := by
      rw [he4, retrievals_append, hr3, hret, Nat.add_comm]
    have hevs : ∀ c ∈ calls evs, c.isSetTimeout = true ∨ c = .runsRetrieve runId t := by
      intro c hc
      by_cases hk : c.isSetTimeout = true
      · exact Or.inl hk
      · have : c ∈ remoteCalls evs := mem_remoteCalls.mpr ⟨hc, by simp [Call.isRemote, hk]⟩
        rw [hrem] at this
        exact Or.inr (List.eq_of_mem_replicate this)
    have hc4 : ∀ c ∈ calls w4.trace, c = Call.threadsCreate ∧ c ∈ calls w1.trace ∨
        c.isSetTimeout = true ∨ c.isRunsRetrieve = true ∨ c.isMessagesCreate = true ∨
        c.isRunsCreate = true := by
      intro c hc
      rw [he4, ← hw3] at hc
      simp only [World.await, calls, List.map_append, List.mem_append] at hc
      rcases hc with (((hc | hc) | hc) | hc) | hc
      · exact Or.inl ⟨hc1 c hc, hc⟩
      · simp at hc; subst hc; exact Or.inr (Or.inr (Or.inr (Or.inl rfl)))
      · simp at hc; subst hc; exact Or.inr (Or.inr (Or.inr (Or.inr rfl)))
      · simp at hc; subst hc; exact Or.inr (Or.inr (Or.inl rfl))
      · rcases hevs c hc with h | h
        · exact Or.inr (Or.inl h)
        · subst h; exact Or.inr (Or.inr (Or.inl rfl))
    have hthr4 : Call.threadsCreate ∈ calls w4.trace → env.threadsCreate = .error e →
        False := by
      intro hin he
      rcases hc4 _ hin with ⟨_, h⟩ | h | h | h | h
      · exact hthr h he
      all_goals cases h
    have hnl4 : ∀ c ∈ calls w4.trace, c.isMessagesList = false := by
      intro c hc
      rcases hc4 c hc with ⟨h, _⟩ | h | h | h | h
      · rw [h]; rfl
      all_goals
        cases c <;> first
          | rfl
          | simp [Call.isSetTimeout, Call.isRunsRetrieve, Call.isMessagesCreate,
              Call.isRunsCreate] at h
    have hidx : ∀ n, n + 1 ≤ j + 1 → env.runsRetrieve n = .error e → n = j := by
      intro n hn he
      by_contra hne
      obtain ⟨s, hs, _⟩ := hmid n (by omega)
      rw [hs] at he; cases he
    rcases hcase with ⟨last, hl, _, hpf⟩ | ⟨e', hpf, herr⟩ | ⟨hpf, s, hs, _⟩
    · rw [hpf]
      by_cases hc : last.status = "completed"
      · rw [finish_completed env w4 sessionId t last hc]
        simp only [settle_trace, World.await, retrievals_append, hr4]
        refine ⟨fun hin he => ?_, fun _ he => ?_, fun _ he => ?_, fun n hn he => ?_,
          fun _ he => ?_⟩
        · simp only [calls, List.map_append, List.mem_append] at hin
          rcases hin with hin | hin
          · exact absurd he (fun he => hthr4 hin he)
          · simp at hin
        · rw [hm] at he; cases he
        · rw [hrun] at he; cases he
        · simp [retrievals, calls, Call.isRunsRetrieve] at hn
          have := hidx n (by omega) he
          subst this
          rw [hl] at he; cases he
        · rw [he]; rfl
      · rcases finish_ext env w4 sessionId t last with hfin | ⟨hc', _⟩
        swap
        · exact absurd hc' hc
        simp only [settle_trace, hfin, hr4]
        refine ⟨fun hin he => absurd he (fun he => hthr4 hin he), fun _ he => ?_,
          fun _ he => ?_, fun n hn he => ?_, fun hin _ => ?_⟩
        · rw [hm] at he; cases he
        · rw [hrun] at he; cases he
        · have := hidx n hn he
          subst this
          rw [hl] at he; cases he
        · obtain ⟨c, hc, hk⟩ := hin
          rw [hnl4 c hc] at hk; cases hk
    · rw [hpf]
      simp only [settle_trace, settle_thrown, hr4]
      refine ⟨fun hin he => absurd he (fun he => hthr4 hin he), fun _ he => ?_,
        fun _ he => ?_, fun n hn he => ?_, fun hin _ => ?_⟩
      · rw [hm] at he; cases he
      · rw [hrun] at he; cases he
      · have := hidx n hn he
        subst this
        rcases herr with herr | ⟨_, s, hs, _⟩
        · rw [herr] at he; cases he; rfl
        · rw [hs] at he; cases he
      · obtain ⟨c, hc, hk⟩ := hin
        rw [hnl4 c hc] at hk; cases hk
    · rw [hpf]
      simp only [settle_trace, hr4]
      refine ⟨fun hin he => absurd he (fun he => hthr4 hin he), fun _ he => ?_,
        fun _ he => ?_, fun n hn he => ?_, fun hin _ => ?_⟩
      · rw [hm] at he; cases he
      · rw [hrun] at he; cases he
      · have := hidx n hn he
        subst this
        rw [hs] at he; cases he
      · obtain ⟨c, hc, hk⟩ := hin
        rw [hnl4 c hc] at hk; cases hk

/-- What the `try` block can return: the validation answer, the configuration answer,
or a reply. -/
theorem tryBlock_done (ASSISTANT_ID : Option String) (env : Env) (fuel : Nat) (w : World)
    (req : Request) (res : Response)
    (h : (tryBlock ASSISTANT_ID env fuel w req).2.2 = .done res) :
    res = ⟨400, corsHeaders, .error "Message is required and must be a non-empty string"⟩ ∨
    res = ⟨500, corsHeaders,
      .error "Chatbot is not configured. Please contact the administrator."⟩ ∨
    ∃ text sessionId threadId, res = ⟨200, corsHeaders, .reply text sessionId threadId⟩ := by
  cases hb : readBody env req.body with
  | error e => simp [tryBlock, hb] at h
  | ok fields =>
    obtain ⟨message, sessionId⟩ := fields
    cases hv : validMessage message with
    | none =>
      simp [tryBlock, hb, hv] at h
      exact Or.inl h.symm
    | some text =>
      by_cases hcfg : truthy ASSISTANT_ID = true
      swap
      · simp [tryBlock, hb, hv, hcfg] at h
        exact Or.inr (Or.inl h.symm)
      rcases getOrCreateThread_cases env w sessionId with
        ⟨t, _, _, hg⟩ | ⟨_, ⟨e, hg⟩ | ⟨t, _, hg⟩⟩
      · simp only [tryBlock, hb, hv, hcfg, hg] at h
        obtain ⟨txt, hres⟩ := runTurn_reply _ env fuel _ text sessionId t res (by simpa using h)
        exact Or.inr (Or.inr ⟨txt, sessionId, t, hres⟩)
      · simp [tryBlock, hb, hv, hcfg, hg] at h
      · simp only [tryBlock, hb, hv, hcfg, hg] at h
        obtain ⟨txt, hres⟩ := runTurn_reply _ env fuel _ text sessionId t res (by simpa using h)
        exact Or.inr (Or.inr ⟨txt, sessionId, t, hres⟩)

theorem marker_length (m k : List Char) :
    (marker m k).length = 1 + m.length + 1 + k.length + markerTail.length := by
  simp [marker]
  omega

theorem markerTail_eq : markerTail = Char.ofNat 0x2020 :: markerTail.tail := rfl

theorem markerLength_marker (m k rest : List Char) (hm : Digits m) (hk : Digits k) :
    markerLength (marker m k ++ rest) = some (marker m k).length := by
  have hcolon : Char.isDigit ':' = false := by decide
  have hdag : Char.isDigit (Char.ofNat 0x2020) = false := by decide
  have h1 : (m ++ ':' :: (k ++ markerTail) ++ rest).takeWhile Char.isDigit = m := by
    rw [List.append_assoc, List.takeWhile_append_of_pos hm.2]
    simp [List.takeWhile, hcolon]
  have h2 : (m ++ ':' :: (k ++ markerTail) ++ rest).dropWhile Char.isDigit =
      ':' :: (k ++ markerTail ++ rest) := by
    rw [List.append_assoc, List.dropWhile_append_of_pos hm.2]
    simp [List.dropWhile, hcolon]
  have h3 : (k ++ markerTail ++ rest).takeWhile Char.isDigit = k := by
    rw [List.append_assoc, List.takeWhile_append_of_pos hk.2, markerTail_eq]
    simp [List.takeWhile, hdag]
  have h4 : (k ++ markerTail ++ rest).dropWhile Char.isDigit = markerTail ++ rest := by
    rw [List.append_assoc, List.dropWhile_append_of_pos hk.2]
    conv_lhs => rw [markerTail_eq]
    simp only [List.cons_append, List.dropWhile, hdag]
    rfl
  have hc : (marker m k ++ rest) = markerOpen :: (m ++ ':' :: (k ++ markerTail) ++ rest) := by
    simp [marker]
  rw [hc]
  simp only [markerLength, if_true, h1, h2, h3, h4]
  simp [hm.1, hk.1, marker_length]

theorem markerLength_some {cs : List Char} {n : Nat} (h : markerLength cs = some n) :
    ∃ m k rest, cs = marker m k ++ rest ∧ Digits m ∧ Digits k ∧ n = (marker m k).length := by
  cases cs with
  | nil => simp [markerLength] at h
  | cons c r =>
    simp only [markerLength] at h
    split at h
    swap
    · simp at h
    rename_i hc
    subst hc
    split at h
    · simp at h
    rename_i c2 r2 hd
    split at h
    swap
    · simp at h
    rename_i hcond
    obtain ⟨hm1, rfl⟩ := hcond
    split at h
    swap
    · simp at h
    rename_i hcond2
    obtain ⟨hk1, hpre⟩ := hcond2
    rw [List.isPrefixOf_iff_prefix] at hpre
    obtain ⟨rest, hrest⟩ := hpre
    simp only [Option.some.injEq] at h
    refine ⟨r.takeWhile Char.isDigit, r2.takeWhile Char.isDigit, rest, ?_,
      ⟨hm1, fun c hc => (List.mem_takeWhile_imp hc)⟩,
      ⟨hk1, fun c hc => (List.mem_takeWhile_imp hc)⟩, ?_⟩
    · have hr : r = r.takeWhile Char.isDigit ++ r.dropWhile Char.isDigit :=
        (List.takeWhile_append_dropWhile _ _).symm
      have hr2 : r2 = r2.takeWhile Char.isDigit ++ r2.dropWhile Char.isDigit :=
        (List.takeWhile_append_dropWhile _ _).symm
      rw [hd] at hr
      rw [← hrest] at hr2
      simp only [marker, List.cons_append, List.append_assoc, List.cons.injEq, true_and]
      conv_lhs => rw [hr]
      conv_lhs => rw [hr2]
    · rw [marker_length, ← h]

theorem markerOpen_not_mem_marker_tail (m k : List Char) (hm : Digits m) (hk : Digits k) :
    markerOpen ∉ m ++ ':' :: (k ++ markerTail) := by
  have hd : Char.isDigit markerOpen = false := by decide
  intro h
  simp only [List.mem_append, List.mem_cons] at h
  rcases h with h | h | h | h
  · rw [hm.2 _ h] at hd; cases hd
  · exact absurd h (by decide)
  · rw [hk.2 _ h] at hd; cases hd
  · exact absurd h (by decide)

/-- A match cannot run across an opening bracket: a marker found at the head of
`s ++ 【…` lies within `s`. -/
theorem markerLength_append_open {s y : List Char} {n : Nat} (hs : s ≠ [])
    (h : markerLength (s ++ markerOpen :: y) = some n) : markerLength s = some n := by
  obtain ⟨m, k, rest, heq, hm, hk, hn⟩ := markerLength_some h
  cases s with
  | nil => exact absurd rfl hs
  | cons c s' =>
    simp only [marker, List.cons_append, List.cons.injEq] at heq
    obtain ⟨rfl, heq⟩ := heq
    have hnot := markerOpen_not_mem_marker_tail m k hm hk
    rcases List.append_eq_append_iff.mp heq with ⟨a', h1, h2⟩ | ⟨c', h1, h2⟩
    · cases a' with
      | nil =>
        have : markerOpen :: s' = marker m k ++ [] := by
          simp [marker, h1]
        rw [this, hn]
        exact markerLength_marker m k [] hm hk
      | cons x a'' =>
        simp only [List.cons_append, List.cons.injEq] at h2
        exact absurd (by rw [h1, ← h2.1]; simp) hnot
    · have : markerOpen :: s' = marker m k ++ c' := by
        simp [marker, h1]
      rw [this, hn]
      exact markerLength_marker m k c' hm hk

theorem markerLength_append {s b : List Char} {n : Nat} (h : markerLength s = some n) :
    markerLength (s ++ b) = some n := by
  obtain ⟨m, k, rest, rfl, hm, hk, rfl⟩ := markerLength_some h
  rw [List.append_assoc]
  exact markerLength_marker m k (rest ++ b) hm hk

theorem MarkerFree.suffix {x y : List Char} (h : MarkerFree (x ++ y)) : MarkerFree y :=
  fun pre suf he => h (x ++ pre) suf (by rw [he, List.append_assoc])

theorem MarkerFree.prefix {x y : List Char} (h : MarkerFree (x ++ y)) : MarkerFree x := by
  intro pre suf he
  cases hs : markerLength suf with
  | none => rfl
  | some n =>
    have := h pre (suf ++ y) (by rw [he, List.append_assoc])
    rw [markerLength_append hs] at this
    cases this

theorem MarkerFree.head {c : Char} {a : List Char} (h : MarkerFree (c :: a)) :
    markerLength (c :: a) = none := h [] (c :: a) rfl

theorem MarkerFree.tail {c : Char} {a : List Char} (h : MarkerFree (c :: a)) :
    MarkerFree a := MarkerFree.suffix (x := [c]) h

theorem markerFree_nil : MarkerFree [] := by
  intro pre suf he
  have : suf = [] := by
    have := congrArg List.length he
    simp at this
    exact List.length_eq_zero.mp (by omega)
  rw [this]
  rfl

theorem stripFrom_skip (x rest : List Char) :
    stripFrom x.length (x ++ rest) = stripFrom 0 rest := by
  induction x with
  | nil => rfl
  | cons c x ih => simpa [stripFrom] using ih

theorem stripFrom_marker (m k rest : List Char) (hm : Digits m) (hk : Digits k) :
    stripFrom 0 (marker m k ++ rest) = stripFrom 0 rest := by
  have h := markerLength_marker m k rest hm hk
  have hc : marker m k ++ rest = markerOpen :: (m ++ ':' :: (k ++ markerTail) ++ rest) := by
    simp [marker]
  rw [hc] at h ⊢
  rw [stripFrom, h]
  have hl : (marker m k).length - 1 = (m ++ ':' :: (k ++ markerTail)).length := by
    simp [marker]
  simp only [hl]
  exact stripFrom_skip _ rest

theorem stripFrom_free (b : List Char) (h : MarkerFree b) : stripFrom 0 b = b := by
  induction b with
  | nil => rfl
  | cons c b ih =>
    rw [stripFrom, h.head]
    simp [ih h.tail]

/-- One pass over marker-free text followed by a marker: the text is kept, the marker is
dropped, and the pass goes on behind it. -/
theorem stripFrom_free_marker (a m k rest : List Char) (ha : MarkerFree a) (hm : Digits m)
    (hk : Digits k) :
    stripFrom 0 (a ++ (marker m k ++ rest)) = a ++ stripFrom 0 rest := by
  induction a with
  | nil => simpa using stripFrom_marker m k rest hm hk
  | cons c a ih =>
    have hnone : markerLength (c :: a ++ (marker m k ++ rest)) = none := by
      cases hs : markerLength (c :: a ++ (marker m k ++ rest)) with
      | none => rfl
      | some n =>
        have hform : c :: a ++ (marker m k ++ rest) =
            (c :: a) ++ markerOpen :: (m ++ ':' :: (k ++ markerTail) ++ rest) := by
          simp [marker]
        rw [hform] at hs
        have := markerLength_append_open (by simp) hs
        rw [ha.head] at this
        cases this
    rw [List.cons_append, stripFrom, ← List.cons_append, hnone]
    simp [ih ha.tail]

theorem markerFree_of_no_open {cs : List Char} (h : markerOpen ∉ cs) : MarkerFree cs := by
  intro pre suf he
  cases hs : markerLength suf with
  | none => rfl
  | some n =>
    obtain ⟨m, k, rest, rfl, _, _, _⟩ := markerLength_some hs
    exact absurd (by rw [he]; simp [marker]) h

theorem PiecesOK.first {p0 : List Char} {parts : List (List Char × List Char × List Char)}
    (h : PiecesOK p0 parts) : MarkerFree p0 := by
  cases parts with
  | nil => exact h
  | cons x rest => obtain ⟨m, k, p⟩ := x; exact h.1

theorem assemble_eq_append (p0 : List Char)
    (parts : List (List Char × List Char × List Char)) :
    ∃ z, assemble p0 parts = p0 ++ z := by
  cases parts with
  | nil => exact ⟨[], by simp [assemble]⟩
  | cons x rest => obtain ⟨m, k, p⟩ := x; exact ⟨_, rfl⟩

/-- One pass removes exactly the markers between the pieces. -/
theorem stripCitations_assemble :
    ∀ (parts : List (List Char × List Char × List Char)) (p0 : List Char),
      PiecesOK p0 parts → stripCitations (assemble p0 parts) = pieces p0 parts
  | [], p0, h => stripFrom_free p0 h
  | (m, k, p) :: rest, p0, h => by
    have ih := stripCitations_assemble rest p h.2.2.2
    simp only [stripCitations] at ih ⊢
    simp only [assemble, pieces]
    rw [stripFrom_free_marker p0 m k _ h.1 h.2.1 h.2.2.1, ih]

/-- Every text is made of marker-free pieces separated by markers. -/
theorem exists_assemble :
    ∀ (n : Nat) (cs : List Char), cs.length ≤ n →
      ∃ p0 parts, cs = assemble p0 parts ∧ PiecesOK p0 parts := by
  intro n
  induction n with
  | zero =>
    intro cs h
    have : cs = [] := List.length_eq_zero.mp (by omega)
    subst this
    exact ⟨[], [], rfl, markerFree_nil⟩
  | succ n ih =>
    intro cs h
    cases cs with
    | nil => exact ⟨[], [], rfl, markerFree_nil⟩
    | cons c cs' =>
      cases hs : markerLength (c :: cs') with
      | some len =>
        obtain ⟨m, k, rest, heq, hm, hk, _⟩ := markerLength_some hs
        have hlen : rest.length ≤ n := by
          have := congrArg List.length heq
          simp [marker] at this h
          omega
        obtain ⟨q0, qs, hq, hok⟩ := ih rest hlen
        exact ⟨[], (m, k, q0) :: qs, by rw [heq, hq]; simp [assemble],
          markerFree_nil, hm, hk, hok⟩
      | none =>
        obtain ⟨q0, qs, hq, hok⟩ := ih cs' (by simpa using h)
        obtain ⟨z, hz⟩ := assemble_eq_append q0 qs
        have hfree : MarkerFree (c :: q0) := by
          intro pre suf he
          cases pre with
          | nil =>
            simp only [List.nil_append] at he
            subst he
            cases hs2 : markerLength (c :: q0) with
            | none => rfl
            | some len =>
              have := markerLength_append (b := z) hs2
              rw [List.cons_append, ← hz, ← hq, hs] at this
              cases this
          | cons x pre' =>
            simp only [List.cons_append, List.cons.injEq] at he
            exact hok.first pre' suf he.2
        refine ⟨c :: q0, qs, ?_, ?_⟩
        · cases qs with
          | nil => simp [assemble] at hq ⊢; exact hq
          | cons x rest =>
            obtain ⟨m, k, p⟩ := x
            simp [assemble] at hq ⊢
            exact hq
        · cases qs with
          | nil => exact hfree
          | cons x rest =>
            obtain ⟨m, k, p⟩ := x
            exact ⟨hfree, hok.2⟩

theorem trimChars_eq (cs : List Char) :
    trimChars cs = (cs.dropWhile isJsSpace).rdropWhile isJsSpace := rfl

theorem MarkerFree.trim {cs : List Char} (h : MarkerFree cs) : MarkerFree (trimChars cs) := by
  obtain ⟨pre, hpre⟩ := List.dropWhile_suffix (l := cs) isJsSpace
  obtain ⟨post, hpost⟩ := List.rdropWhile_prefix (p := isJsSpace)
    (l := cs.dropWhile isJsSpace)
  rw [trimChars_eq]
  have h1 : MarkerFree (cs.dropWhile isJsSpace) := by
    rw [← hpre] at h
    exact h.suffix
  rw [← hpost] at h1
  exact h1.prefix

theorem firstText_text (env : Env) (page : MessagePage) (msg : Message) (rest : List Message)
    (value : String) (more : List ContentBlock)
    (hdata : page.data = msg :: rest) (hcontent : msg.content = .text value :: more) :
    firstText env page = .ok value := by
  simp [firstText, hdata, hcontent]

theorem posts_append (a b : List Event) : posts (a ++ b) = posts a ++ posts b := by
  simp [posts, calls]

theorem TurnCall.not_isMessagesCreate {a t : String} {c : Call} (h : TurnCall a t c) :
    c.isMessagesCreate = false := by
  rcases h with rfl | ⟨r, rfl⟩ | rfl | rfl <;> rfl

theorem posts_turnCalls (a t : String) (evs : List Event)
    (h : ∀ e ∈ evs, TurnCall a t e.call) : posts evs = [] := by
  simp only [posts, calls, List.filter_eq_nil_iff, List.mem_map]
  rintro c ⟨e, he, rfl⟩
  simp [(h e he).not_isMessagesCreate]

/-- A valid turn on a session without a usable mapping, when the service returns a
thread with the non-empty id `t`, is the rest of the turn run on `t` in the world that
has awaited the creation and stored `t`. -/
theorem handler_fresh_turn (assistantId : String) (env : Env) (fuel : Nat)
    (threadStore : ThreadStore) (req : Request) (message : String) (sessionId : JsVal)
    (t : String) (hcfg : assistantId ≠ "") (hmethod : req.method = "POST")
    (hbody : readBody env req.body = .ok (.str message, sessionId))
    (hmsg : jsTrim message ≠ "")
    (hfresh : truthy (threadStore.get sessionId) = false)
    (hcreate : env.threadsCreate = .ok (some ⟨some t⟩)) (ht : t ≠ "") :
    handler (some assistantId) env fuel threadStore req =
      settle (runTurn assistantId env fuel
        { (World.init env threadStore).await env .threadsCreate with
          threadStore := threadStore.set sessionId t } message sessionId t) := by
  rw [handler_valid assistantId env fuel _ req message sessionId hcfg hmethod hbody hmsg]
  rw [getOrCreateThread_created env (World.init env threadStore) sessionId t hfresh hcreate ht]
  rfl

/-- A valid turn on a session mapped to the usable identifier `t` is the rest of the
turn run on `t`, with nothing awaited before. -/
theorem handler_known_turn (assistantId : String) (env : Env) (fuel : Nat)
    (threadStore : ThreadStore) (req : Request) (message : String) (sessionId : JsVal)
    (t : String) (hcfg : assistantId ≠ "") (hmethod : req.method = "POST")
    (hbody : readBody env req.body = .ok (.str message, sessionId))
    (hmsg : jsTrim message ≠ "")
    (hmap : threadStore.get sessionId = some t) (ht : t ≠ "") :
    handler (some assistantId) env fuel threadStore req =
      settle (runTurn assistantId env fuel (World.init env threadStore) message sessionId t) := by
  rw [handler_valid assistantId env fuel _ req message sessionId hcfg hmethod hbody hmsg]
  rw [getOrCreateThread_existing env (World.init env threadStore) sessionId t hmap ht]

/-- What a valid turn on a session mapped to `t` awaits and leaves behind. -/
theorem handler_known_turn_trace (assistantId : String) (env : Env) (fuel : Nat)
    (threadStore : ThreadStore) (req : Request) (message : String) (sessionId : JsVal)
    (t : String) (hcfg : assistantId ≠ "") (hmethod : req.method = "POST")
    (hbody : readBody env req.body = .ok (.str message, sessionId))
    (hmsg : jsTrim message ≠ "")
    (hmap : threadStore.get sessionId = some t) (ht : t ≠ "") :
    (handler (some assistantId) env fuel threadStore req).threadStore = threadStore ∧
    (∀ e ∈ (handler (some assistantId) env fuel threadStore req).trace,
      e.call ≠ .threadsCreate) ∧
    ∃ evs, (handler (some assistantId) env fuel threadStore req).trace =
        ⟨env.arrival, .messagesCreate t "user" (jsTrim message)⟩ :: evs ∧
      ∀ e ∈ evs, TurnCall assistantId t e.call := by
  rw [handler_known_turn assistantId env fuel threadStore req message sessionId t hcfg hmethod
    hbody hmsg hmap ht]
  obtain ⟨hs, evs, he, hc⟩ := runTurn_ext assistantId env fuel (World.init env threadStore)
    message sessionId t
  simp only [settle_trace, settle_threadStore]
  refine ⟨hs, ?_, evs, by rw [he]; rfl, hc⟩
  intro e hin
  rw [he] at hin
  simp only [World.init, List.nil_append, List.mem_cons] at hin
  rcases hin with rfl | hin
  · simp
  · exact (hc e hin).ne_threadsCreate

/-- What a valid turn that creates thread `t` awaits and leaves behind. -/
theorem handler_fresh_turn_trace (assistantId : String) (env : Env) (fuel : Nat)
    (threadStore : ThreadStore) (req : Request) (message : String) (sessionId : JsVal)
    (t : String) (hcfg : assistantId ≠ "") (hmethod : req.method = "POST")
    (hbody : readBody env req.body = .ok (.str message, sessionId))
    (hmsg : jsTrim message ≠ "")
    (hfresh : truthy (threadStore.get sessionId) = false)
    (hcreate : env.threadsCreate = .ok (some ⟨some t⟩)) (ht : t ≠ "") :
    (handler (some assistantId) env fuel threadStore req).threadStore =
      threadStore.set sessionId t ∧
    ∃ evs, (handler (some assistantId) env fuel threadStore req).trace =
        ⟨env.arrival, .threadsCreate⟩ ::
          ⟨env.arrival + (env.elapse 0 .threadsCreate : Int),
            .messagesCreate t "user" (jsTrim message)⟩ :: evs ∧
      ∀ e ∈ evs, TurnCall assistantId t e.call := by
  rw [handler_fresh_turn assistantId env fuel threadStore req message sessionId t hcfg hmethod
    hbody hmsg hfresh hcreate ht]
  obtain ⟨hs, evs, he, hc⟩ := runTurn_ext assistantId env fuel
    { (World.init env threadStore).await env .threadsCreate with
      threadStore := threadStore.set sessionId t } message sessionId t
  simp only [settle_trace, settle_threadStore]
  exact ⟨hs, evs, by rw [he]; rfl, hc⟩

theorem setEntry_absent (k : JsVal) (v : String) (l : List (JsVal × String))
    (h : lookupEntry k l = none) : setEntry k v l = l ++ [(k, v)] := by
  induction l with
  | nil => rfl
  | cons p rest ih =>
    obtain ⟨k', v'⟩ := p
    by_cases hk : k' = k
    · simp [lookupEntry, hk] at h
    · simp only [lookupEntry, hk, if_false] at h
      simp [setEntry, hk, ih h]

/-- The registry after the `try` block: unchanged, or the old one with the `sessionId`
read from the body, which had no usable mapping, set to a new identifier. -/
theorem tryBlock_store_key (ASSISTANT_ID : Option String) (env : Env) (fuel : Nat) (w : World)
    (req : Request) :
    (tryBlock ASSISTANT_ID env fuel w req).1.threadStore = w.threadStore ∨
      ∃ message sessionId t, readBody env req.body = .ok (message, sessionId) ∧
        truthy (w.threadStore.get sessionId) = false ∧ t ≠ "" ∧
        (tryBlock ASSISTANT_ID env fuel w req).1.threadStore =
          w.threadStore.set sessionId t := by
  cases hb : readBody env req.body with
  | error e => exact Or.inl (by simp [tryBlock, hb])
  | ok fields =>
    obtain ⟨message, sessionId⟩ := fields
    cases hv : validMessage message with
    | none => exact Or.inl (by simp [tryBlock, hb, hv])
    | some text =>
      by_cases hcfg : truthy ASSISTANT_ID = true
      swap
      · exact Or.inl (by simp [tryBlock, hb, hv, hcfg])
      rcases getOrCreateThread_cases env w sessionId with
        ⟨t, _, _, h⟩ | ⟨hf, ⟨e, h⟩ | ⟨t, ht, h⟩⟩
      · have hstep : tryBlock ASSISTANT_ID env fuel w req =
            runTurn (ASSISTANT_ID.getD "") env fuel w text sessionId t := by
          simp [tryBlock, hb, hv, hcfg, h]
        rw [hstep]
        exact Or.inl (runTurn_ext _ env fuel w _ sessionId t).1
      · have hstep : tryBlock ASSISTANT_ID env fuel w req =
            (w.await env .threadsCreate, none, .thrown e) := by
          simp [tryBlock, hb, hv, hcfg, h]
        rw [hstep]
        exact Or.inl rfl
      · have hstep : tryBlock ASSISTANT_ID env fuel w req =
            runTurn (ASSISTANT_ID.getD "") env fuel
              { w.await env .threadsCreate with threadStore := w.threadStore.set sessionId t }
              text sessionId t := by
          simp [tryBlock, hb, hv, hcfg, h]
        rw [hstep]
        exact Or.inr ⟨message, sessionId, t, rfl, hf, ht,
          (runTurn_ext _ env fuel _ _ sessionId t).1⟩

theorem handler_store_key (ASSISTANT_ID : Option String) (env : Env) (fuel : Nat)
    (threadStore : ThreadStore) (req : Request) :
    (handler ASSISTANT_ID env fuel threadStore req).threadStore = threadStore ∨
      ∃ message sessionId t, readBody env req.body = .ok (message, sessionId) ∧
        truthy (threadStore.get sessionId) = false ∧ t ≠ "" ∧
        (handler ASSISTANT_ID env fuel threadStore req).threadStore =
          threadStore.set sessionId t := by
  unfold handler
  split
  · exact Or.inl rfl
  · split
    · exact Or.inl rfl
    · simpa using tryBlock_store_key ASSISTANT_ID env fuel (World.init env threadStore) req

/-- The `return` of the configuration error is reached exactly by a readable body with
a valid message, when no assistant is configured. -/
theorem tryBlock_not_configured (ASSISTANT_ID : Option String) (env : Env) (fuel : Nat)
    (w : World) (req : Request) (hcfg : truthy ASSISTANT_ID = false) :
    (tryBlock ASSISTANT_ID env fuel w req).2.2 = .done ⟨500, corsHeaders,
        .error "Chatbot is not configured. Please contact the administrator."⟩ ↔
      ∃ message sessionId, readBody env req.body = .ok (.str message, sessionId) ∧
        jsTrim message ≠ "" := by
  cases hb : readBody env req.body with
  | error e => simp [tryBlock, hb]
  | ok fields =>
    obtain ⟨message, sessionId⟩ := fields
    cases hv : validMessage message with
    | none =>
      have hno : ¬∃ m s, Except.ok (ε := String) (message, sessionId) = .ok (.str m, s) ∧
          jsTrim m ≠ "" := by
        rintro ⟨m, s, he, hne⟩
        simp only [Except.ok.injEq, Prod.mk.injEq] at he
        rw [he.1, validMessage_of_trim_ne m hne] at hv
        cases hv
      simp only [tryBlock, hb, hv, hno, iff_false]
      intro h
      simp only [Completion.done.injEq, Response.mk.injEq] at h
      exact absurd h.1 (by decide)
    | some text =>
      obtain ⟨rfl, hne⟩ := validMessage_some message text hv
      simp only [tryBlock, hb, hv, hcfg, Bool.not_false, if_true, true_iff]
      exact ⟨text, sessionId, rfl, hne⟩

/-- A check of the loop condition on a status still waited on, past the time budget:
the timeout is thrown there, whatever the fuel. -/
theorem pollLoop_over_budget (env : Env) (threadId runId : String) (startTime : Int)
    (fuel k : Nat) (w : World) (runStatus : RunStatus)
    (hwait : runStatus.status = "queued" ∨ runStatus.status = "in_progress")
    (hover : w.now - startTime > maxWaitTime) :
    pollLoop env threadId runId startTime fuel k w runStatus =
      (w, .thrown "Request timeout: Assistant took too long to respond") := by
  cases fuel with
  | zero => rw [pollLoop_zero, if_pos hwait, if_pos hover]
  | succ fuel => rw [pollLoop_succ, if_pos hwait, if_pos hover]

/-- A check of the loop condition on a status still waited on, within the time budget:
the loop awaits the delay and retrieves the status again. -/
theorem pollLoop_within_budget (env : Env) (threadId runId : String) (startTime : Int)
    (fuel k : Nat) (w : World) (runStatus : RunStatus)
    (hwait : runStatus.status = "queued" ∨ runStatus.status = "in_progress")
    (hin : w.now - startTime ≤ maxWaitTime) (hthread : threadId ≠ "") (hrunId : runId ≠ "") :
    (∀ next, env.runsRetrieve (k + 1) = .ok next →
      pollLoop env threadId runId startTime (fuel + 1) k w runStatus =
        pollLoop env threadId runId startTime fuel (k + 1)
          ((w.await env (.setTimeout 500)).await env (.runsRetrieve runId threadId)) next) ∧
    (∀ e, env.runsRetrieve (k + 1) = .error e →
      pollLoop env threadId runId startTime (fuel + 1) k w runStatus =
        ((w.await env (.setTimeout 500)).await env (.runsRetrieve runId threadId),
          .thrown e)) := by
  have hno : ¬(w.now - startTime > maxWaitTime) := not_lt.mpr hin
  have hids : ¬(threadId = "" ∨ runId = "") := by
    rintro (h | h)
    · exact hthread h
    · exact hrunId h
  constructor
  · intro next hnext
    rw [pollLoop_succ, if_pos hwait, if_neg hno, if_neg hids, hnext]
  · intro e he
    rw [pollLoop_succ, if_pos hwait, if_neg hno, if_neg hids, he]

/-- Within the time budget, a round that is started awaits something. -/
theorem pollLoop_round_awaits (env : Env) (threadId runId : String) (startTime : Int)
    (fuel k : Nat) (w : World) (runStatus : RunStatus)
    (hwait : runStatus.status = "queued" ∨ runStatus.status = "in_progress")
    (hin : ¬(w.now - startTime > maxWaitTime)) :
    ∃ evs, (pollLoop env threadId runId startTime (fuel + 1) k w runStatus).1.trace =
      w.trace ++ ⟨w.now, .setTimeout 500⟩ :: evs := by
  rw [pollLoop_succ, if_pos hwait, if_neg hin]
  split
  · exact ⟨[], by simp [World.await]⟩
  · split
    · exact ⟨[⟨(w.await env (.setTimeout 500)).now, .runsRetrieve runId threadId⟩],
        by simp [World.await]⟩
    · rename_i next _
      obtain ⟨_, evs, he, _⟩ := pollLoop_ext env threadId runId startTime fuel (k + 1)
        ((w.await env (.setTimeout 500)).await env (.runsRetrieve runId threadId)) next
      exact ⟨⟨(w.await env (.setTimeout 500)).now, .runsRetrieve runId threadId⟩ :: evs,
        by rw [he]; simp [World.await]⟩

/-- The timeout is thrown at a check exactly when the status is still waited on and
the clock is past the budget. -/
theorem pollLoop_timeout_iff (env : Env) (threadId runId : String) (startTime : Int)
    (fuel k : Nat) (w : World) (runStatus : RunStatus) :
    pollLoop env threadId runId startTime fuel k w runStatus =
        (w, .thrown "Request timeout: Assistant took too long to respond") ↔
      (runStatus.status = "queued" ∨ runStatus.status = "in_progress") ∧
        w.now - startTime > maxWaitTime := by
  constructor
  · intro h
    by_cases hwait : runStatus.status = "queued" ∨ runStatus.status = "in_progress"
    swap
    · rw [pollLoop_done env threadId runId startTime fuel k w runStatus hwait] at h
      simp at h
    by_cases hover : w.now - startTime > maxWaitTime
    · exact ⟨hwait, hover⟩
    · exfalso
      cases fuel with
      | zero =>
        rw [pollLoop_zero, if_pos hwait, if_neg hover] at h
        simp at h
      | succ fuel =>
        obtain ⟨evs, he⟩ := pollLoop_round_awaits env threadId runId startTime fuel k w
          runStatus hwait hover
        rw [h] at he
        have := congrArg List.length he
        simp at this
  · rintro ⟨hwait, hover⟩
    exact pollLoop_over_budget env threadId runId startTime fuel k w runStatus hwait hover

/-- How the loop as a whole can throw: a rejected retrieval, or the timeout, and then
the clock at the end of the loop is past the budget. -/
theorem pollLoop_thrown_cases (env : Env) (threadId runId : String) (startTime : Int)
    (hthread : threadId ≠ "") (hrunId : runId ≠ "") :
    ∀ (fuel k : Nat) (w : World) (runStatus : RunStatus) (e : String),
      (pollLoop env threadId runId startTime fuel k w runStatus).2 = .thrown e →
      (∃ j, env.runsRetrieve j = .error e) ∨
        (e = "Request timeout: Assistant took too long to respond" ∧
          (pollLoop env threadId runId startTime fuel k w runStatus).1.now - startTime >
            maxWaitTime) := by
  have hids : ¬(threadId = "" ∨ runId = "") := by
    rintro (h | h)
    · exact hthread h
    · exact hrunId h
  intro fuel
  induction fuel with
  | zero =>
    intro k w rs e h
    rw [pollLoop_zero] at h ⊢
    split at h
    · split at h
      · rename_i hwait hover
        rw [if_pos hwait, if_pos hover]
        simp only [Completion.thrown.injEq] at h
        exact Or.inr ⟨h.symm, hover⟩
      · simp at h
    · simp at h
  | succ fuel ih =>
    intro k w rs e h
    by_cases hwait : rs.status = "queued" ∨ rs.status = "in_progress"
    swap
    · rw [pollLoop_done env threadId runId startTime _ k w rs hwait] at h
      simp at h
    by_cases hover : w.now - startTime > maxWaitTime
    · rw [pollLoop_over_budget env threadId runId startTime _ k w rs hwait hover] at h ⊢
      simp only [Completion.thrown.injEq] at h
      exact Or.inr ⟨h.symm, hover⟩
    · obtain ⟨hok, herr⟩ := pollLoop_within_budget env threadId runId startTime fuel k w rs
        hwait (not_lt.mp hover) hthread hrunId
      cases hr : env.runsRetrieve (k + 1) with
      | error e' =>
        rw [herr e' hr] at h
        simp only [Completion.thrown.injEq] at h
        subst h
        exact Or.inl ⟨k + 1, hr⟩
      | ok next =>
        rw [hok next hr] at h ⊢
        exact ih (k + 1) _ next e h

theorem uniqueIntents_keys (l : List Intent) :
    ∀ seen, (∀ i ∈ uniqueIntents seen l, intentKey i ∉ seen) ∧
      ((uniqueIntents seen l).map intentKey).Nodup := by
  induction l with
  | nil => intro seen; simp [uniqueIntents]
  | cons intent rest ih =>
    intro seen
    by_cases h : intentKey intent ∈ seen
    · simp only [uniqueIntents, h, if_true]
      exact ih seen
    · simp only [uniqueIntents, h, if_false]
      obtain ⟨h1, h2⟩ := ih (intentKey intent :: seen)
      constructor
      · intro i hi
        rcases List.mem_cons.mp hi with rfl | hi
        · exact h
        · exact fun hin => h1 i hi (List.mem_cons_of_mem _ hin)
      · rw [List.map_cons, List.nodup_cons]
        refine ⟨?_, h2⟩
        intro hin
        obtain ⟨i, hi, hk⟩ := List.mem_map.mp hin
        exact h1 i hi (by rw [hk]; exact List.mem_cons_self _ _)

theorem jsSort_perm {α : Type} (compare : α → α → ℚ) (array : List α) :
    (jsSort compare array).Perm array :=
  List.perm_insertionSort _ array

theorem jsSort_byConfidence_sorted (array : List Intent) :
    (jsSort byConfidence array).Pairwise fun a b => b.confidence ≤ a.confidence := by
  haveI : IsTotal Intent (fun a b => byConfidence a b ≤ 0) :=
    ⟨fun a b => by
      simp only [byConfidence, sub_nonpos]
      exact le_total _ _⟩
  haveI : IsTrans Intent (fun a b => byConfidence a b ≤ 0) :=
    ⟨fun a b c hab hbc => by
      simp only [byConfidence, sub_nonpos] at hab hbc ⊢
      exact le_trans hbc hab⟩
  have h := List.sorted_insertionSort (fun a b : Intent => byConfidence a b ≤ 0) array
  refine List.Pairwise.imp ?_ h
  intro a b hab
  simpa [byConfidence, sub_nonpos] using hab

/-- The registry frame of one request, on a registry whose identifiers are all
non-empty: the registry stays as it was or gets one entry appended, for the `sessionId`
read from the body; other keys keep their mapping; no entry is lost. -/
theorem handler_frame (ASSISTANT_ID : Option String) (env : Env) (fuel : Nat)
    (threadStore : ThreadStore) (req : Request) (husable : threadStore.Usable) :
    ((handler ASSISTANT_ID env fuel threadStore req).threadStore = threadStore ∨
      ∃ message sessionId t, readBody env req.body = .ok (message, sessionId) ∧
        threadStore.get sessionId = none ∧ t ≠ "" ∧
        (handler ASSISTANT_ID env fuel threadStore req).threadStore.entries =
          threadStore.entries ++ [(sessionId, t)]) ∧
    (∀ k, (∀ message, readBody env req.body ≠ .ok (message, k)) →
      (handler ASSISTANT_ID env fuel threadStore req).threadStore.get k =
        threadStore.get k) ∧
    (∀ k v, threadStore.get k = some v →
      (handler ASSISTANT_ID env fuel threadStore req).threadStore.get k = some v) := by
  rcases handler_store_key ASSISTANT_ID env fuel threadStore req with
    he | ⟨message, sessionId, t, hb, hf, ht, he⟩
  · rw [he]
    exact ⟨Or.inl rfl, fun _ _ => rfl, fun _ _ h => h⟩
  · have hnone : threadStore.get sessionId = none := by
      rcases truthy_eq_false.mp hf with h | h
      · exact h
      · exact absurd rfl (husable sessionId "" h)
    rw [he]
    refine ⟨Or.inr ⟨message, sessionId, t, hb, hnone, ht, ?_⟩, ?_, ?_⟩
    · exact setEntry_absent sessionId t threadStore.entries hnone
    · intro k hk
      have hne : sessionId ≠ k := by
        rintro rfl
        exact hk message hb
      exact ThreadStore.get_set_other _ _ _ _ hne
    · intro k v hkv
      have hne : sessionId ≠ k := by
        rintro rfl
        rw [hnone] at hkv
        cases hkv
      rw [ThreadStore.get_set_other _ _ _ _ hne]
      exact hkv

/-! ## The claims -/

/-- C1.  A `POST` whose body yields a `message` that is not a string (in particular a
missing one) or a string that is empty after trimming is answered with status 400 and
the error payload; nothing is awaited (no call to the assistant service) and the
registry is unchanged.  This holds whatever `ASSISTANT_ID` is. -/
theorem chat_rejects_invalid_message (ASSISTANT_ID : Option String) (env : Env) (fuel : Nat)
    (threadStore : ThreadStore) (req : Request) (message sessionId : JsVal)
    (hmethod : req.method = "POST")
    (hbody : readBody env req.body = .ok (message, sessionId))
    (hmsg : (∀ s, message ≠ .str s) ∨ ∃ s, message = .str s ∧ jsTrim s = "") :
    (handler ASSISTANT_ID env fuel threadStore req).response =
        some ⟨400, corsHeaders, .error "Message is required and must be a non-empty string"⟩ ∧
      (handler ASSISTANT_ID env fuel threadStore req).trace = [] ∧
      (handler ASSISTANT_ID env fuel threadStore req).threadStore = threadStore := by
  have hv := validMessage_of_invalid message hmsg
  simp [handler, settle, hmethod, tryBlock, hbody, hv, World.init]

theorem chat_rejects_invalid_message_witness :
    ((post "" "s1").method = "POST" ∧
      readBody exampleEnv (post "" "s1").body = .ok (.str "", .str "s1") ∧
      ((∀ s, JsVal.str "" ≠ .str s) ∨ ∃ s, JsVal.str "" = .str s ∧ jsTrim s = "")) ∧
    ((handler (some "asst_1") exampleEnv 5 .empty (post "" "s1")).response =
        some ⟨400, corsHeaders, .error "Message is required and must be a non-empty string"⟩ ∧
      (handler (some "asst_1") exampleEnv 5 .empty (post "" "s1")).trace = [] ∧
      (handler (some "asst_1") exampleEnv 5 .empty (post "" "s1")).threadStore = .empty) :=
  ⟨⟨rfl, rfl, Or.inr ⟨"", rfl, by decide⟩⟩,
    chat_rejects_invalid_message (some "asst_1") exampleEnv 5 .empty (post "" "s1") (.str "")
      (.str "s1") rfl rfl (Or.inr ⟨"", rfl, by decide⟩)⟩

/-- C2.  A `POST` with a valid message (a string that is not empty after trimming), when
`ASSISTANT_ID` is absent or empty, is answered with status 500 and the configuration
error; nothing is awaited and the registry is unchanged. -/
theorem chat_not_configured (ASSISTANT_ID : Option String) (env : Env) (fuel : Nat)
    (threadStore : ThreadStore) (req : Request) (message : String) (sessionId : JsVal)
    (hmethod : req.method = "POST")
    (hbody : readBody env req.body = .ok (.str message, sessionId))
    (hmsg : jsTrim message ≠ "")
    (hcfg : ASSISTANT_ID = none ∨ ASSISTANT_ID = some "") :
    (handler ASSISTANT_ID env fuel threadStore req).response =
        some ⟨500, corsHeaders,
          .error "Chatbot is not configured. Please contact the administrator."⟩ ∧
      (handler ASSISTANT_ID env fuel threadStore req).trace = [] ∧
      (handler ASSISTANT_ID env fuel threadStore req).threadStore = threadStore := by
  have hv := validMessage_of_trim_ne message hmsg
  have ht : truthy ASSISTANT_ID = false := by rcases hcfg with h | h <;> simp [h, truthy]
  simp [handler, settle, hmethod, tryBlock, hbody, hv, ht, World.init]

theorem chat_not_configured_witness :
    ((post "hello" "s1").method = "POST" ∧
      readBody exampleEnv (post "hello" "s1").body = .ok (.str "hello", .str "s1") ∧
      jsTrim "hello" ≠ "" ∧ ((none : Option String) = none ∨ (none : Option String) = some "")) ∧
    ((handler none exampleEnv 5 .empty (post "hello" "s1")).response =
        some ⟨500, corsHeaders,
          .error "Chatbot is not configured. Please contact the administrator."⟩ ∧
      (handler none exampleEnv 5 .empty (post "hello" "s1")).trace = [] ∧
      (handler none exampleEnv 5 .empty (post "hello" "s1")).threadStore = .empty) :=
  ⟨⟨rfl, rfl, by decide, Or.inl rfl⟩,
    chat_not_configured none exampleEnv 5 .empty (post "hello" "s1") "hello" (.str "s1")
      rfl rfl (by decide) (Or.inl rfl)⟩

/-- C3.  A valid turn (non-empty message, configured assistant) on a registry the
process can be in (the empty one after any `history` of requests) that maps `sessionId`
to `t`: no thread creation is ever awaited; the first thing awaited is the post of the
trimmed message on `t`, and everything after it is a run creation on `t`, a retrieval
on `t`, a polling delay or a message listing on `t`; the registry still maps
`sessionId` to `t`.  This holds for every outside world and every fuel, so whatever the
outcome of the turn. -/
theorem chat_reuses_existing_thread (assistantId : String)
    (history : List (Env × Nat × Request)) (env : Env) (fuel : Nat) (req : Request)
    (message : String) (sessionId : JsVal) (t : String)
    (hcfg : assistantId ≠ "") (hmethod : req.method = "POST")
    (hbody : readBody env req.body = .ok (.str message, sessionId))
    (hmsg : jsTrim message ≠ "")
    (hmap : (serve (some assistantId) .empty history).get sessionId = some t) :
    (∀ e ∈ (handler (some assistantId) env fuel
        (serve (some assistantId) .empty history) req).trace, e.call ≠ .threadsCreate) ∧
    (∃ evs, (handler (some assistantId) env fuel
        (serve (some assistantId) .empty history) req).trace =
          ⟨env.arrival, .messagesCreate t "user" (jsTrim message)⟩ :: evs ∧
        ∀ e ∈ evs, TurnCall assistantId t e.call) ∧
    (handler (some assistantId) env fuel
      (serve (some assistantId) .empty history) req).threadStore.get sessionId = some t := by
  have ht : t ≠ "" :=
    serve_usable (some assistantId) history .empty ThreadStore.usable_empty sessionId t hmap
  rw [handler_valid assistantId env fuel _ req message sessionId hcfg hmethod hbody hmsg]
  rw [getOrCreateThread_existing env (World.init env _) sessionId t hmap ht]
  obtain ⟨hs, evs, he, hc⟩ := runTurn_ext assistantId env fuel
    (World.init env (serve (some assistantId) .empty history)) message sessionId t
  simp only [settle_trace, settle_threadStore]
  refine ⟨?_, ⟨evs, by rw [he]; rfl, hc⟩, by rw [hs]; exact hmap⟩
  intro e hin
  rw [he] at hin
  simp only [World.init, List.nil_append, List.mem_cons] at hin
  rcases hin with rfl | hin
  · simp
  · exact (hc e hin).ne_threadsCreate

theorem chat_reuses_existing_thread_witness :
    ("asst_1" ≠ "" ∧ (post "again" "s1").method = "POST" ∧
      readBody exampleEnv (post "again" "s1").body = .ok (.str "again", .str "s1") ∧
      jsTrim "again" ≠ "" ∧
      (serve (some "asst_1") .empty [(exampleEnv, 5, post "hello" "s1")]).get (.str "s1") =
        some "thread_1") ∧
    ((∀ e ∈ (handler (some "asst_1") exampleEnv 5
        (serve (some "asst_1") .empty [(exampleEnv, 5, post "hello" "s1")])
        (post "again" "s1")).trace, e.call ≠ .threadsCreate) ∧
    (∃ evs, (handler (some "asst_1") exampleEnv 5
        (serve (some "asst_1") .empty [(exampleEnv, 5, post "hello" "s1")])
        (post "again" "s1")).trace =
          ⟨exampleEnv.arrival, .messagesCreate "thread_1" "user" (jsTrim "again")⟩ :: evs ∧
        ∀ e ∈ evs, TurnCall "asst_1" "thread_1" e.call) ∧
    (handler (some "asst_1") exampleEnv 5
      (serve (some "asst_1") .empty [(exampleEnv, 5, post "hello" "s1")])
      (post "again" "s1")).threadStore.get (.str "s1") = some "thread_1") :=
  ⟨⟨by decide, rfl, rfl, by decide, by decide⟩,
    chat_reuses_existing_thread "asst_1" [(exampleEnv, 5, post "hello" "s1")] exampleEnv 5
      (post "again" "s1") "again" (.str "s1") "thread_1" (by decide) rfl rfl (by decide)
      (by decide)⟩

/-- C4.  A valid turn on a session without a mapping, when the service returns a thread
with the non-empty id `t`: thread creation is awaited exactly once and the registry
maps `sessionId` to `t` afterwards.  A second valid turn for the same `sessionId`, in
any outside world, awaits no thread creation, starts with the message post on `t`,
awaits only calls on `t` after it, and any reply it sends names `t` as its thread. -/
theorem chat_creates_thread_once (assistantId : String) (threadStore : ThreadStore)
    (env : Env) (fuel : Nat) (req : Request) (message : String)
    (env2 : Env) (fuel2 : Nat) (req2 : Request) (message2 : String)
    (sessionId : JsVal) (t : String)
    (hcfg : assistantId ≠ "") (hmethod : req.method = "POST")
    (hbody : readBody env req.body = .ok (.str message, sessionId))
    (hmsg : jsTrim message ≠ "")
    (hfresh : threadStore.get sessionId = none)
    (hcreate : env.threadsCreate = .ok (some ⟨some t⟩)) (ht : t ≠ "")
    (hmethod2 : req2.method = "POST")
    (hbody2 : readBody env2 req2.body = .ok (.str message2, sessionId))
    (hmsg2 : jsTrim message2 ≠ "") :
    (calls (handler (some assistantId) env fuel threadStore req).trace).count
        .threadsCreate = 1 ∧
    (handler (some assistantId) env fuel threadStore req).threadStore.get sessionId =
        some t ∧
    (∀ e ∈ (handler (some assistantId) env2 fuel2
        (handler (some assistantId) env fuel threadStore req).threadStore req2).trace,
        e.call ≠ .threadsCreate) ∧
    (∃ evs, (handler (some assistantId) env2 fuel2
        (handler (some assistantId) env fuel threadStore req).threadStore req2).trace =
          ⟨env2.arrival, .messagesCreate t "user" (jsTrim message2)⟩ :: evs ∧
        ∀ e ∈ evs, TurnCall assistantId t e.call) ∧
    (∀ status headers text sid tid, (handler (some assistantId) env2 fuel2
        (handler (some assistantId) env fuel threadStore req).threadStore req2).response =
          some ⟨status, headers, .reply text sid tid⟩ → tid = t) := by
  have hf : truthy ((World.init env threadStore).threadStore.get sessionId) = false := by
    show truthy (threadStore.get sessionId) = false
    rw [hfresh]; rfl
  have h1 : handler (some assistantId) env fuel threadStore req =
      settle (runTurn assistantId env fuel
        { (World.init env threadStore).await env .threadsCreate with
          threadStore := threadStore.set sessionId t } message sessionId t) := by
    rw [handler_valid assistantId env fuel _ req message sessionId hcfg hmethod hbody hmsg,
      getOrCreateThread_created env (World.init env threadStore) sessionId t hf hcreate ht]
    rfl
  obtain ⟨hs, evs, he, hc⟩ := runTurn_ext assistantId env fuel
    { (World.init env threadStore).await env .threadsCreate with
      threadStore := threadStore.set sessionId t } message sessionId t
  have hstore : (handler (some assistantId) env fuel threadStore req).threadStore =
      threadStore.set sessionId t := by
    rw [h1, settle_threadStore, hs]
  have hget : (handler (some assistantId) env fuel threadStore req).threadStore.get
      sessionId = some t := by
    rw [hstore]; exact ThreadStore.get_set_same _ _ _
  refine ⟨?_, hget, ?_⟩
  · rw [h1, settle_trace, he]
    have hnot : Call.threadsCreate ∉ evs.map Event.call := by
      intro hin
      obtain ⟨e, hin, heq⟩ := List.mem_map.mp hin
      exact (hc e hin).ne_threadsCreate heq
    simp [calls, World.await, World.init, List.count_cons, List.count_eq_zero_of_not_mem hnot]
  · rw [handler_valid assistantId env2 fuel2 _ req2 message2 sessionId hcfg hmethod2 hbody2
      hmsg2, getOrCreateThread_existing env2 (World.init env2 _) sessionId t hget ht]
    obtain ⟨_, evs2, he2, hc2⟩ := runTurn_ext assistantId env2 fuel2
      (World.init env2 (handler (some assistantId) env fuel threadStore req).threadStore)
      message2 sessionId t
    simp only [settle_trace]
    refine ⟨?_, ⟨evs2, by rw [he2]; rfl, hc2⟩, ?_⟩
    · intro e hin
      rw [he2] at hin
      simp only [World.init, List.nil_append, List.mem_cons] at hin
      rcases hin with rfl | hin
      · simp
      · exact (hc2 e hin).ne_threadsCreate
    · intro status headers text sid tid hres
      generalize hrun : runTurn assistantId env2 fuel2
        (World.init env2 (handler (some assistantId) env fuel threadStore req).threadStore)
        message2 sessionId t = out at hres
      obtain ⟨w, st, c⟩ := out
      cases c with
      | pending => simp [settle] at hres
      | thrown m => simp [settle] at hres
      | done res =>
        obtain ⟨text2, hres2⟩ := runTurn_reply assistantId env2 fuel2 _ message2 sessionId t res
          (by rw [hrun])
        simp [settle, hres2] at hres
        exact hres.2.2.2.2.symm

theorem chat_creates_thread_once_witness :
    ("asst_1" ≠ "" ∧ (post "hello" "s1").method = "POST" ∧
      readBody exampleEnv (post "hello" "s1").body = .ok (.str "hello", .str "s1") ∧
      jsTrim "hello" ≠ "" ∧ ThreadStore.empty.get (.str "s1") = none ∧
      exampleEnv.threadsCreate = .ok (some ⟨some "thread_1"⟩) ∧ "thread_1" ≠ "" ∧
      (post "again" "s1").method = "POST" ∧
      readBody noThreadEnv (post "again" "s1").body = .ok (.str "again", .str "s1") ∧
      jsTrim "again" ≠ "") ∧
    ((calls (handler (some "asst_1") exampleEnv 5 .empty (post "hello" "s1")).trace).count
        .threadsCreate = 1 ∧
    (handler (some "asst_1") exampleEnv 5 .empty (post "hello" "s1")).threadStore.get
        (.str "s1") = some "thread_1" ∧
    (∀ e ∈ (handler (some "asst_1") noThreadEnv 5
        (handler (some "asst_1") exampleEnv 5 .empty (post "hello" "s1")).threadStore
        (post "again" "s1")).trace, e.call ≠ .threadsCreate) ∧
    (∃ evs, (handler (some "asst_1") noThreadEnv 5
        (handler (some "asst_1") exampleEnv 5 .empty (post "hello" "s1")).threadStore
        (post "again" "s1")).trace =
          ⟨noThreadEnv.arrival, .messagesCreate "thread_1" "user" (jsTrim "again")⟩ :: evs ∧
        ∀ e ∈ evs, TurnCall "asst_1" "thread_1" e.call) ∧
    (∀ status headers text sid tid, (handler (some "asst_1") noThreadEnv 5
        (handler (some "asst_1") exampleEnv 5 .empty (post "hello" "s1")).threadStore
        (post "again" "s1")).response =
          some ⟨status, headers, .reply text sid tid⟩ → tid = "thread_1")) :=
  ⟨⟨by decide, rfl, rfl, by decide, rfl, rfl, by decide, rfl, rfl, by decide⟩,
    chat_creates_thread_once "asst_1" .empty exampleEnv 5 (post "hello" "s1") "hello"
      noThreadEnv 5 (post "again" "s1") "again" (.str "s1") "thread_1" (by decide) rfl rfl
      (by decide) rfl rfl (by decide) rfl rfl (by decide)⟩

/-- C5.  The registry never overwrites a mapping: when, after any `history` of requests
handled one after another from the empty registry, the registry maps `s` to `t`, it
still maps `s` to `t` after any `later` requests. -/
theorem registry_never_overwrites (ASSISTANT_ID : Option String)
    (history later : List (Env × Nat × Request)) (s : JsVal) (t : String)
    (hmap : (serve ASSISTANT_ID .empty history).get s = some t) :
    (serve ASSISTANT_ID (serve ASSISTANT_ID .empty history) later).get s = some t :=
  serve_keeps ASSISTANT_ID s t
    (serve_usable ASSISTANT_ID history .empty ThreadStore.usable_empty s t hmap) later _ hmap

theorem registry_never_overwrites_witness :
    (serve (some "asst_1") .empty [(exampleEnv, 5, post "hello" "s1")]).get (.str "s1") =
        some "thread_1" ∧
    (serve (some "asst_1") (serve (some "asst_1") .empty [(exampleEnv, 5, post "hello" "s1")])
      [(otherThreadEnv, 5, post "again" "s1"), (otherThreadEnv, 5, post "hi" "s2")]).get
        (.str "s1") = some "thread_1" :=
  ⟨by decide, registry_never_overwrites (some "asst_1") [(exampleEnv, 5, post "hello" "s1")]
    [(otherThreadEnv, 5, post "again" "s1"), (otherThreadEnv, 5, post "hi" "s2")] (.str "s1")
    "thread_1" (by decide)⟩

/-- C6.  A valid turn on a session without a mapping, when thread creation resolves to
no thread or to a thread whose id is missing or empty: the answer is status 500 with
`Failed to create thread`; the only thing awaited is the one thread creation (no
retry, no message post, run creation, retrieval or delay); the registry is unchanged
and has no mapping for the session. -/
theorem chat_thread_creation_failure (assistantId : String) (threadStore : ThreadStore)
    (env : Env) (fuel : Nat) (req : Request) (message : String) (sessionId : JsVal)
    (thread : Option Thread)
    (hcfg : assistantId ≠ "") (hmethod : req.method = "POST")
    (hbody : readBody env req.body = .ok (.str message, sessionId))
    (hmsg : jsTrim message ≠ "")
    (hfresh : threadStore.get sessionId = none)
    (hcreate : env.threadsCreate = .ok thread)
    (hbad : ∀ th, thread = some th → th.id = none ∨ th.id = some "") :
    (handler (some assistantId) env fuel threadStore req).response =
        some ⟨500, corsHeaders, .error "Failed to create thread"⟩ ∧
    calls (handler (some assistantId) env fuel threadStore req).trace = [.threadsCreate] ∧
    (handler (some assistantId) env fuel threadStore req).threadStore = threadStore ∧
    (handler (some assistantId) env fuel threadStore req).threadStore.get sessionId = none := by
  have hf : truthy ((World.init env threadStore).threadStore.get sessionId) = false := by
    show truthy (threadStore.get sessionId) = false
    rw [hfresh]; rfl
  have hb : ∀ th, thread = some th → truthy th.id = false :=
    fun th h => truthy_eq_false.mpr (hbad th h)
  rw [handler_valid assistantId env fuel _ req message sessionId hcfg hmethod hbody hmsg,
    getOrCreateThread_failed env (World.init env threadStore) sessionId thread hf hcreate hb]
  simp [settle, World.await, World.init, calls, hfresh]

theorem chat_thread_creation_failure_witness :
    ("asst_1" ≠ "" ∧ (post "hello" "s1").method = "POST" ∧
      readBody noThreadEnv (post "hello" "s1").body = .ok (.str "hello", .str "s1") ∧
      jsTrim "hello" ≠ "" ∧ ThreadStore.empty.get (.str "s1") = none ∧
      noThreadEnv.threadsCreate = .ok (some ⟨none⟩) ∧
      ∀ th, some (Thread.mk none) = some th → th.id = none ∨ th.id = some "") ∧
    ((handler (some "asst_1") noThreadEnv 5 .empty (post "hello" "s1")).response =
        some ⟨500, corsHeaders, .error "Failed to create thread"⟩ ∧
    calls (handler (some "asst_1") noThreadEnv 5 .empty (post "hello" "s1")).trace =
        [.threadsCreate] ∧
    (handler (some "asst_1") noThreadEnv 5 .empty (post "hello" "s1")).threadStore = .empty ∧
    (handler (some "asst_1") noThreadEnv 5 .empty (post "hello" "s1")).threadStore.get
        (.str "s1") = none) :=
  ⟨⟨by decide, rfl, rfl, by decide, rfl, rfl, fun th h => Or.inl (by cases h; rfl)⟩,
    chat_thread_creation_failure "asst_1" .empty noThreadEnv 5 (post "hello" "s1") "hello"
      (.str "s1") (some ⟨none⟩) (by decide) rfl rfl (by decide) rfl rfl
      (fun th h => Or.inl (by cases h; rfl))⟩

/-- C7.  A valid turn whose thread is resolved (an existing usable mapping, or a
successful creation) and whose message post succeeds: when run creation resolves to no
run or to a run whose id is missing or empty, the answer is status 500 with the
run-creation error, and no retrieval, no polling delay and no message listing is
awaited. -/
theorem chat_run_creation_failure (assistantId : String) (threadStore : ThreadStore)
    (env : Env) (fuel : Nat) (req : Request) (message : String) (sessionId : JsVal)
    (run : Option Run)
    (hcfg : assistantId ≠ "") (hmethod : req.method = "POST")
    (hbody : readBody env req.body = .ok (.str message, sessionId))
    (hmsg : jsTrim message ≠ "")
    (hthread : (∃ t, threadStore.get sessionId = some t ∧ t ≠ "") ∨
      ∃ t, env.threadsCreate = .ok (some ⟨some t⟩) ∧ t ≠ "")
    (hpost : env.messagesCreate = .ok ())
    (hrun : env.runsCreate = .ok run)
    (hbad : ∀ r, run = some r → r.id = none ∨ r.id = some "") :
    (handler (some assistantId) env fuel threadStore req).response =
        some ⟨500, corsHeaders,
          .error (if run = none then "Failed to create assistant run - run object is null"
            else "Failed to create assistant run - run.id is undefined")⟩ ∧
    ∀ e ∈ (handler (some assistantId) env fuel threadStore req).trace,
      e.call.isRunsRetrieve = false ∧ e.call.isSetTimeout = false ∧
        e.call.isMessagesList = false := by
  have hres : ∃ w1 t1, getOrCreateThread env (World.init env threadStore) sessionId =
      (w1, .ok t1) ∧ ∀ e ∈ w1.trace, e.call = .threadsCreate := by
    by_cases hex : ∃ t, threadStore.get sessionId = some t ∧ t ≠ ""
    · obtain ⟨t, hmap, ht⟩ := hex
      exact ⟨_, t, getOrCreateThread_existing env (World.init env threadStore) sessionId t
        hmap ht, by simp [World.init]⟩
    · obtain ⟨t, hcreate, ht⟩ := hthread.resolve_left hex
      have hf : truthy ((World.init env threadStore).threadStore.get sessionId) = false := by
        show truthy (threadStore.get sessionId) = false
        cases hg : truthy (threadStore.get sessionId) with
        | false => rfl
        | true => exact absurd (truthy_eq_true.mp hg) hex
      exact ⟨_, t, getOrCreateThread_created env (World.init env threadStore) sessionId t hf
        hcreate ht, by simp [World.await, World.init]⟩
  obtain ⟨w1, t1, hg, htr⟩ := hres
  rw [handler_valid assistantId env fuel _ req message sessionId hcfg hmethod hbody hmsg, hg]
  simp only [runTurn_run_failed assistantId env fuel w1 message sessionId t1 run hpost hrun hbad]
  refine ⟨?_, ?_⟩
  · cases run <;> simp [settle]
  · intro e hin
    simp only [settle_trace, World.await, List.mem_append, List.mem_singleton] at hin
    rcases hin with (hin | rfl) | rfl
    · rw [htr e hin]; exact ⟨rfl, rfl, rfl⟩
    · exact ⟨rfl, rfl, rfl⟩
    · exact ⟨rfl, rfl, rfl⟩

theorem chat_run_creation_failure_witness :
    ("asst_1" ≠ "" ∧ (post "hello" "s1").method = "POST" ∧
      readBody noRunEnv (post "hello" "s1").body = .ok (.str "hello", .str "s1") ∧
      jsTrim "hello" ≠ "" ∧
      ((∃ t, ThreadStore.empty.get (.str "s1") = some t ∧ t ≠ "") ∨
        ∃ t, noRunEnv.threadsCreate = .ok (some ⟨some t⟩) ∧ t ≠ "") ∧
      noRunEnv.messagesCreate = .ok () ∧ noRunEnv.runsCreate = .ok none ∧
      ∀ r, (none : Option Run) = some r → r.id = none ∨ r.id = some "") ∧
    ((handler (some "asst_1") noRunEnv 5 .empty (post "hello" "s1")).response =
        some ⟨500, corsHeaders,
          .error (if (none : Option Run) = none
            then "Failed to create assistant run - run object is null"
            else "Failed to create assistant run - run.id is undefined")⟩ ∧
    ∀ e ∈ (handler (some "asst_1") noRunEnv 5 .empty (post "hello" "s1")).trace,
      e.call.isRunsRetrieve = false ∧ e.call.isSetTimeout = false ∧
        e.call.isMessagesList = false) :=
  ⟨⟨by decide, rfl, rfl, by decide, Or.inr ⟨"thread_1", rfl, by decide⟩, rfl, rfl,
      fun r h => by cases h⟩,
    chat_run_creation_failure "asst_1" .empty noRunEnv 5 (post "hello" "s1") "hello"
      (.str "s1") none (by decide) rfl rfl (by decide)
      (Or.inr ⟨"thread_1", rfl, by decide⟩) rfl rfl (fun r h => by cases h)⟩

/-- C8.  A valid turn that reaches polling, on a run whose retrievals answer `n` times
with a status `queued` or `in_progress` and then with a status `last` outside these
two: with fuel for `n` rounds, and when the turn does not end in the timeout error, the
handler awaits exactly `n` polling delays and exactly `n + 1` retrievals, and then
responds. -/
theorem chat_poll_count (assistantId : String) (threadStore : ThreadStore)
    (env : Env) (fuel : Nat) (req : Request) (message : String) (sessionId : JsVal)
    (runId : String) (n : Nat) (last : RunStatus)
    (hcfg : assistantId ≠ "") (hmethod : req.method = "POST")
    (hbody : readBody env req.body = .ok (.str message, sessionId))
    (hmsg : jsTrim message ≠ "")
    (hthread : (∃ t, threadStore.get sessionId = some t ∧ t ≠ "") ∨
      ∃ t, env.threadsCreate = .ok (some ⟨some t⟩) ∧ t ≠ "")
    (hpost : env.messagesCreate = .ok ())
    (hrun : env.runsCreate = .ok (some ⟨some runId⟩)) (hid : runId ≠ "")
    (hseq : ∀ k, k < n → ∃ s, env.runsRetrieve k = .ok s ∧
      (s.status = "queued" ∨ s.status = "in_progress"))
    (hlast : env.runsRetrieve n = .ok last)
    (hterm : ¬(last.status = "queued" ∨ last.status = "in_progress"))
    (hfuel : n ≤ fuel)
    (hno : (handler (some assistantId) env fuel threadStore req).response ≠
      some ⟨500, corsHeaders, .error "Request timeout: Assistant took too long to respond"⟩) :
    delays (handler (some assistantId) env fuel threadStore req).trace = n ∧
    retrievals (handler (some assistantId) env fuel threadStore req).trace = n + 1 ∧
    (handler (some assistantId) env fuel threadStore req).response ≠ none := by
  obtain ⟨w1, t1, hg, ht1, htr⟩ := getOrCreateThread_resolves env threadStore sessionId hthread
  have hfirst : ∃ first, env.runsRetrieve 0 = .ok first := by
    by_cases hn : n = 0
    · subst hn; exact ⟨last, hlast⟩
    · obtain ⟨s, hs, _⟩ := hseq 0 (by omega)
      exact ⟨s, hs⟩
  obtain ⟨first, hfirst⟩ := hfirst
  have hd1 : delays w1.trace = 0 := by
    simp only [delays, calls, List.countP_eq_zero, List.mem_map]
    rintro c ⟨e, he, rfl⟩
    rw [htr e he]; simp [Call.isSetTimeout]
  have hr1 : retrievals w1.trace = 0 := by
    simp only [retrievals, calls, List.countP_eq_zero, List.mem_map]
    rintro c ⟨e, he, rfl⟩
    rw [htr e he]; simp [Call.isRunsRetrieve]
  rw [handler_valid assistantId env fuel _ req message sessionId hcfg hmethod hbody hmsg,
    hg] at hno ⊢
  simp only [runTurn_polling assistantId env fuel w1 message sessionId t1 runId first hpost
    hrun hid hfirst] at hno ⊢
  generalize hw3 : ((w1.await env (.messagesCreate t1 "user" (jsTrim message))).await env
    (.runsCreate t1 assistantId)).await env (.runsRetrieve runId t1) = w3 at hno ⊢
  have hd3 : delays w3.trace = 0 := by
    rw [← hw3]
    simp only [World.await, delays_append, hd1]
    simp [delays, calls, Call.isSetTimeout]
  have hr3 : retrievals w3.trace = 1 := by
    rw [← hw3]
    simp only [World.await, retrievals_append, hr1]
    simp [retrievals, calls, Call.isRunsRetrieve]
  rcases pollLoop_rounds env t1 runId w3.now last ht1 hid hterm n fuel 0 w3 first hfuel hfirst
    (fun i hi => by simpa using hseq i hi) (by simpa using hlast) with
    h | ⟨hdone, evs, he, hdel, hret⟩
  · rw [pollAndFinish_thrown env fuel w3 sessionId t1 runId first _ h] at hno
    exact absurd (by simp [settle]) hno
  · rw [pollAndFinish_done env fuel w3 sessionId t1 runId first last hdone]
    refine ⟨?_, ?_, settle_response_ne_none _ _ _ (finish_ne_pending _ _ _ _ _)⟩
    · rw [settle_trace]
      have : (finish env (pollLoop env t1 runId w3.now fuel 0 w3 first).1 sessionId t1
          last).1.trace = w3.trace ++ evs ∨ ∃ l, (finish env (pollLoop env t1 runId w3.now
            fuel 0 w3 first).1 sessionId t1 last).1.trace =
              (w3.trace ++ evs) ++ [⟨l, .messagesList t1 1 "desc"⟩] := by
        rcases finish_ext env (pollLoop env t1 runId w3.now fuel 0 w3 first).1 sessionId t1
          last with hf | ⟨_, hf⟩
        · left; rw [hf, he]
        · right; exact ⟨_, by rw [hf]; simp only [World.await]; rw [he]⟩
      rcases this with h | ⟨l, h⟩
      · rw [h, delays_append, hd3, hdel, Nat.zero_add]
      · rw [h, delays_append, delays_append, hd3, hdel]
        simp [delays, calls, Call.isSetTimeout]
    · rw [settle_trace]
      rcases finish_ext env (pollLoop env t1 runId w3.now fuel 0 w3 first).1 sessionId t1
        last with hf | ⟨_, hf⟩
      · rw [hf, he, retrievals_append, hr3, hret, Nat.add_comm]
      · rw [hf]
        simp only [World.await]
        rw [he, retrievals_append, retrievals_append, hr3, hret]
        simp [retrievals, calls, Call.isRunsRetrieve, Nat.add_comm]

theorem chat_poll_count_witness :
    ("asst_1" ≠ "" ∧ (post "hello" "s1").method = "POST" ∧
      readBody exampleEnv (post "hello" "s1").body = .ok (.str "hello", .str "s1") ∧
      jsTrim "hello" ≠ "" ∧
      ((∃ t, ThreadStore.empty.get (.str "s1") = some t ∧ t ≠ "") ∨
        ∃ t, exampleEnv.threadsCreate = .ok (some ⟨some t⟩) ∧ t ≠ "") ∧
      exampleEnv.messagesCreate = .ok () ∧
      exampleEnv.runsCreate = .ok (some ⟨some "run_1"⟩) ∧ "run_1" ≠ "" ∧
      (∀ k, k < 2 → ∃ s, exampleEnv.runsRetrieve k = .ok s ∧
        (s.status = "queued" ∨ s.status = "in_progress")) ∧
      exampleEnv.runsRetrieve 2 = .ok ⟨"completed", none⟩ ∧
      ¬((RunStatus.mk "completed" none).status = "queued" ∨
        (RunStatus.mk "completed" none).status = "in_progress") ∧
      2 ≤ 5 ∧
      (handler (some "asst_1") exampleEnv 5 .empty (post "hello" "s1")).response ≠
        some ⟨500, corsHeaders,
          .error "Request timeout: Assistant took too long to respond"⟩) ∧
    (delays (handler (some "asst_1") exampleEnv 5 .empty (post "hello" "s1")).trace = 2 ∧
    retrievals (handler (some "asst_1") exampleEnv 5 .empty (post "hello" "s1")).trace =
      2 + 1 ∧
    (handler (some "asst_1") exampleEnv 5 .empty (post "hello" "s1")).response ≠ none) :=
  have hseq : ∀ k, k < 2 → ∃ s, exampleEnv.runsRetrieve k = .ok s ∧
      (s.status = "queued" ∨ s.status = "in_progress") := fun k hk => by
    interval_cases k
    · exact ⟨_, rfl, Or.inl rfl⟩
    · exact ⟨_, rfl, Or.inr rfl⟩
  ⟨⟨by decide, rfl, rfl, by decide, Or.inr ⟨"thread_1", rfl, by decide⟩, rfl, rfl,
      by decide, hseq, rfl, by decide, by decide, by decide⟩,
    chat_poll_count "asst_1" .empty exampleEnv 5 (post "hello" "s1") "hello" (.str "s1")
      "run_1" 2 ⟨"completed", none⟩ (by decide) rfl rfl (by decide)
      (Or.inr ⟨"thread_1", rfl, by decide⟩) rfl rfl (by decide) hseq rfl (by decide)
      (by decide) (by decide)⟩

/-- C9.  Polling is bounded.  A valid turn that reaches polling, on a run whose status is
`queued` or `in_progress` at every retrieval, with timers that never fire early (a
`setTimeout` of `ms` takes at least `ms`): with fuel for 121 rounds the handler answers
with status 500 and the timeout error, after at most 121 polling delays. -/
theorem chat_poll_bounded (assistantId : String) (threadStore : ThreadStore)
    (env : Env) (fuel : Nat) (req : Request) (message : String) (sessionId : JsVal)
    (runId : String)
    (hcfg : assistantId ≠ "") (hmethod : req.method = "POST")
    (hbody : readBody env req.body = .ok (.str message, sessionId))
    (hmsg : jsTrim message ≠ "")
    (hthread : (∃ t, threadStore.get sessionId = some t ∧ t ≠ "") ∨
      ∃ t, env.threadsCreate = .ok (some ⟨some t⟩) ∧ t ≠ "")
    (hpost : env.messagesCreate = .ok ())
    (hrun : env.runsCreate = .ok (some ⟨some runId⟩)) (hid : runId ≠ "")
    (hstatus : ∀ k, ∃ s, env.runsRetrieve k = .ok s ∧
      (s.status = "queued" ∨ s.status = "in_progress"))
    (htimer : ∀ n ms, ms ≤ env.elapse n (.setTimeout ms))
    (hfuel : 121 ≤ fuel) :
    (handler (some assistantId) env fuel threadStore req).response =
        some ⟨500, corsHeaders,
          .error "Request timeout: Assistant took too long to respond"⟩ ∧
    delays (handler (some assistantId) env fuel threadStore req).trace ≤ 121 := by
  obtain ⟨w1, t1, hg, ht1, htr⟩ := getOrCreateThread_resolves env threadStore sessionId hthread
  obtain ⟨first, hfirst, hnon⟩ := hstatus 0
  have hd1 : delays w1.trace = 0 := by
    simp only [delays, calls, List.countP_eq_zero, List.mem_map]
    rintro c ⟨e, he, rfl⟩
    rw [htr e he]; simp [Call.isSetTimeout]
  rw [handler_valid assistantId env fuel _ req message sessionId hcfg hmethod hbody hmsg, hg]
  simp only [runTurn_polling assistantId env fuel w1 message sessionId t1 runId first hpost
    hrun hid hfirst]
  generalize hw3 : ((w1.await env (.messagesCreate t1 "user" (jsTrim message))).await env
    (.runsCreate t1 assistantId)).await env (.runsRetrieve runId t1) = w3
  have hd3 : delays w3.trace = 0 := by
    rw [← hw3]
    simp only [World.await, delays_append, hd1]
    simp [delays, calls, Call.isSetTimeout]
  obtain ⟨hthrown, evs, he, hdel⟩ := pollLoop_timeout env t1 runId w3.now ht1 hid hstatus
    htimer 121 fuel 0 w3 first (by omega) hfuel hnon (by simp)
  rw [pollAndFinish_thrown env fuel w3 sessionId t1 runId first _ hthrown]
  refine ⟨by simp [settle], ?_⟩
  rw [settle_trace]
  show delays (pollLoop env t1 runId w3.now fuel 0 w3 first).1.trace ≤ 121
  rw [he, delays_append, hd3]
  omega

theorem chat_poll_bounded_witness :
    ("asst_1" ≠ "" ∧ (post "hello" "s1").method = "POST" ∧
      readBody stuckEnv (post "hello" "s1").body = .ok (.str "hello", .str "s1") ∧
      jsTrim "hello" ≠ "" ∧
      ((∃ t, ThreadStore.empty.get (.str "s1") = some t ∧ t ≠ "") ∨
        ∃ t, stuckEnv.threadsCreate = .ok (some ⟨some t⟩) ∧ t ≠ "") ∧
      stuckEnv.messagesCreate = .ok () ∧
      stuckEnv.runsCreate = .ok (some ⟨some "run_1"⟩) ∧ "run_1" ≠ "" ∧
      (∀ k, ∃ s, stuckEnv.runsRetrieve k = .ok s ∧
        (s.status = "queued" ∨ s.status = "in_progress")) ∧
      (∀ n ms, ms ≤ stuckEnv.elapse n (.setTimeout ms)) ∧ 121 ≤ 121) ∧
    ((handler (some "asst_1") stuckEnv 121 .empty (post "hello" "s1")).response =
        some ⟨500, corsHeaders,
          .error "Request timeout: Assistant took too long to respond"⟩ ∧
    delays (handler (some "asst_1") stuckEnv 121 .empty (post "hello" "s1")).trace ≤ 121) :=
  ⟨⟨by decide, rfl, rfl, by decide, Or.inr ⟨"thread_1", rfl, by decide⟩, rfl, rfl,
      by decide, fun _ => ⟨_, rfl, Or.inr rfl⟩, fun _ _ => Nat.le_refl _, Nat.le_refl _⟩,
    chat_poll_bounded "asst_1" .empty stuckEnv 121 (post "hello" "s1") "hello" (.str "s1")
      "run_1" (by decide) rfl rfl (by decide) (Or.inr ⟨"thread_1", rfl, by decide⟩) rfl rfl
      (by decide) (fun _ => ⟨_, rfl, Or.inr rfl⟩) (fun _ _ => Nat.le_refl _) (Nat.le_refl _)⟩

/-- C10 (as amended).  In every turn that reaches polling, with `startTime` the clock
at the start of the loop, a run-status retrieval is awaited only right after the run
creation (the retrieval before the loop) or right after a polling delay that was
started at most `maxWaitTime` = 60 000 ms after `startTime`, at the moment that delay
is over.  So no polling round starts after the bound, while a retrieval may be issued
later than the bound by the duration of one delay. -/
theorem chat_retrieval_follows_timely_delay (ASSISTANT_ID : Option String) (env : Env)
    (fuel : Nat) (threadStore : ThreadStore) (req : Request) (startTime : Int)
    (hstart : (handler ASSISTANT_ID env fuel threadStore req).startTime = some startTime) :
    List.Chain' (TimelyRetrieval env startTime)
      (handler ASSISTANT_ID env fuel threadStore req).trace := by
  by_cases hopt : req.method = "OPTIONS"
  · simp [handler, hopt] at hstart
  by_cases hpost : req.method = "POST"
  swap
  · simp [handler, hopt, hpost] at hstart
  have hh : handler ASSISTANT_ID env fuel threadStore req =
      settle (tryBlock ASSISTANT_ID env fuel (World.init env threadStore) req) := by
    simp [handler, hpost]
  rw [hh, settle_startTime] at hstart
  rw [hh, settle_trace]
  cases hb : readBody env req.body with
  | error e => simp [tryBlock, hb] at hstart
  | ok fields =>
    obtain ⟨message, sessionId⟩ := fields
    cases hv : validMessage message with
    | none => simp [tryBlock, hb, hv] at hstart
    | some text =>
      by_cases hcfg : truthy ASSISTANT_ID = true
      swap
      · simp [tryBlock, hb, hv, hcfg] at hstart
      rcases getOrCreateThread_cases env (World.init env threadStore) sessionId with
        ⟨t, _, _, h⟩ | ⟨hf, ⟨e, h⟩ | ⟨t, ht, h⟩⟩
      · have ht : tryBlock ASSISTANT_ID env fuel (World.init env threadStore) req =
            runTurn (ASSISTANT_ID.getD "") env fuel (World.init env threadStore) text
              sessionId t := by
          simp [tryBlock, hb, hv, hcfg, h]
        rw [ht] at hstart ⊢
        exact runTurn_chain _ env fuel _ _ sessionId t startTime hstart
          (by simp [World.init])
      · simp [tryBlock, hb, hv, hcfg, h] at hstart
      · have ht : tryBlock ASSISTANT_ID env fuel (World.init env threadStore) req =
            runTurn (ASSISTANT_ID.getD "") env fuel
              { (World.init env threadStore).await env .threadsCreate with
                threadStore := (World.init env threadStore).threadStore.set sessionId t }
              text sessionId t := by
          simp [tryBlock, hb, hv, hcfg, h]
        rw [ht] at hstart ⊢
        exact runTurn_chain _ env fuel _ _ sessionId t startTime hstart
          (by simp [World.init, World.await, Call.isRunsRetrieve])

theorem chat_retrieval_follows_timely_delay_witness :
    (handler (some "asst_1") slowEnv 5 .empty (post "hello" "s1")).startTime = some 59500 ∧
    List.Chain' (TimelyRetrieval slowEnv 59500)
      (handler (some "asst_1") slowEnv 5 .empty (post "hello" "s1")).trace :=
  ⟨by decide, chat_retrieval_follows_timely_delay (some "asst_1") slowEnv 5 .empty
    (post "hello" "s1") 59500 (by decide)⟩

/-- C10 (as stated, refuted).  On a run that is always in progress and a service whose
retrievals take 59 500 ms, polling starts at clock 59 500 and the second retrieval of
the loop is issued at clock 120 000, that is 60 500 ms after the start of the loop:
the budget check before it read exactly 60 000 ms, which is not more than
`maxWaitTime`. -/
theorem chat_retrieval_after_bound :
    (∀ k, slowEnv.runsRetrieve k = .ok ⟨"in_progress", none⟩) ∧
    (handler (some "asst_1") slowEnv 5 .empty (post "hello" "s1")).startTime = some 59500 ∧
    ∃ e ∈ (handler (some "asst_1") slowEnv 5 .empty (post "hello" "s1")).trace,
      e.call = .runsRetrieve "run_1" "thread_1" ∧ e.time = 120000 ∧
        e.time - 59500 > maxWaitTime :=
  ⟨fun _ => rfl, by decide, ⟨120000, .runsRetrieve "run_1" "thread_1"⟩, by decide, rfl, rfl,
    by decide⟩

/-- C11.  A turn in which the handler saw the answer of the `n`-th retrieval and that
answer is `completed`, when the listing resolves to a page whose first message has a
text block first, with text `value`: the listing is awaited once, as the last thing of
the turn, on the thread `t` with limit 1 and order `desc`; `t` is the thread the
registry maps the session to; and the response is status 200 with
`response = cleanResponse value` (markers stripped, then trimmed), the `sessionId` of
the request and `threadId = t`. -/
theorem chat_completed_reply (ASSISTANT_ID : Option String) (env : Env) (fuel : Nat)
    (threadStore : ThreadStore) (req : Request) (message : String) (sessionId : JsVal)
    (n : Nat) (last : RunStatus) (page : MessagePage) (msg : Message) (rest : List Message)
    (value : String) (more : List ContentBlock)
    (hbody : readBody env req.body = .ok (.str message, sessionId))
    (hobs : n + 1 ≤ retrievals (handler ASSISTANT_ID env fuel threadStore req).trace)
    (hlast : env.runsRetrieve n = .ok last) (hcompleted : last.status = "completed")
    (hlist : env.messagesList = .ok page) (hdata : page.data = msg :: rest)
    (hcontent : msg.content = .text value :: more) :
    ∃ t, (handler ASSISTANT_ID env fuel threadStore req).threadStore.get sessionId = some t ∧
      (handler ASSISTANT_ID env fuel threadStore req).response =
        some ⟨200, corsHeaders, .reply (cleanResponse value) sessionId t⟩ ∧
      ∃ pre time, (handler ASSISTANT_ID env fuel threadStore req).trace =
          pre ++ [⟨time, .messagesList t 1 "desc"⟩] ∧
        (∀ e ∈ pre, e.call.isMessagesList = false) ∧ retrievals pre = n + 1 := by
  have hterm : ¬(last.status = "queued" ∨ last.status = "in_progress") := by
    rw [hcompleted]; decide
  obtain ⟨message', sessionId', assistantId, t, w4, startTime, _, hbody', _, _, _, _, hget,
    hr4, _, hl4, hh⟩ :=
    handler_last_status ASSISTANT_ID env fuel threadStore req n last hobs hlast hterm
  rw [hbody] at hbody'
  simp only [Except.ok.injEq, Prod.mk.injEq, JsVal.str.injEq] at hbody'
  obtain ⟨rfl, rfl⟩ := hbody'
  rw [hh, finish_completed env w4 sessionId t last hcompleted]
  simp only [hlist, firstText_text env page msg rest value more hdata hcontent]
  exact ⟨t, by simpa [settle, World.await] using hget, by simp [settle],
    w4.trace, w4.now, by simp [settle, World.await], hl4, hr4⟩

theorem chat_completed_reply_witness :
    (readBody exampleEnv (post "hello" "s1").body = .ok (.str "hello", .str "s1") ∧
      2 + 1 ≤ retrievals (handler (some "asst_1") exampleEnv 5 .empty
        (post "hello" "s1")).trace ∧
      exampleEnv.runsRetrieve 2 = .ok ⟨"completed", none⟩ ∧
      (RunStatus.mk "completed" none).status = "completed" ∧
      exampleEnv.messagesList = .ok ⟨[⟨[.text "Answer【12:3†source】."]⟩]⟩ ∧
      (MessagePage.mk [⟨[.text "Answer【12:3†source】."]⟩]).data =
        ⟨[.text "Answer【12:3†source】."]⟩ :: [] ∧
      (Message.mk [.text "Answer【12:3†source】."]).content =
        .text "Answer【12:3†source】." :: []) ∧
    ∃ t, (handler (some "asst_1") exampleEnv 5 .empty
        (post "hello" "s1")).threadStore.get (.str "s1") = some t ∧
      (handler (some "asst_1") exampleEnv 5 .empty (post "hello" "s1")).response =
        some ⟨200, corsHeaders,
          .reply (cleanResponse "Answer【12:3†source】.") (.str "s1") t⟩ ∧
      ∃ pre time, (handler (some "asst_1") exampleEnv 5 .empty (post "hello" "s1")).trace =
          pre ++ [⟨time, .messagesList t 1 "desc"⟩] ∧
        (∀ e ∈ pre, e.call.isMessagesList = false) ∧ retrievals pre = 2 + 1 :=
  ⟨⟨rfl, by decide, rfl, rfl, rfl, rfl, rfl⟩,
    chat_completed_reply (some "asst_1") exampleEnv 5 .empty (post "hello" "s1") "hello"
      (.str "s1") 2 ⟨"completed", none⟩ ⟨[⟨[.text "Answer【12:3†source】."]⟩]⟩
      ⟨[.text "Answer【12:3†source】."]⟩ [] "Answer【12:3†source】." [] rfl (by decide) rfl rfl
      rfl rfl rfl⟩

/-- C12.  Citation stripping removes an inserted marker exactly: when `a ++ b` contains
no citation marker and `m`, `n` are non-empty runs of ASCII digits, cleaning
`a ++ "【" ++ m ++ ":" ++ n ++ "†source】" ++ b` gives `(a ++ b).trim()`; and
`Answer【12:3†source】.` gives `Answer.`. -/
theorem clean_removes_inserted_marker (a b m n : String)
    (hfree : MarkerFree (a ++ b).data) (hm : Digits m.data) (hn : Digits n.data) :
    cleanResponse (a ++ "【" ++ m ++ ":" ++ n ++ "†source】" ++ b) = jsTrim (a ++ b) ∧
      cleanResponse "Answer【12:3†source】." = "Answer." := by
  refine ⟨?_, by decide⟩
  have hdata : (a ++ "【" ++ m ++ ":" ++ n ++ "†source】" ++ b).data =
      a.data ++ (marker m.data n.data ++ b.data) := by
    have e1 : markerOpen = '【' := by decide
    have e2 : markerTail = ['†', 's', 'o', 'u', 'r', 'c', 'e', '】'] := by decide
    simp [String.data_append, marker, e1, e2]
  have hab : (a ++ b).data = a.data ++ b.data := String.data_append a b
  rw [hab] at hfree
  simp only [cleanResponse, jsTrim, stripCitations, hdata, hab]
  rw [stripFrom_free_marker a.data m.data n.data b.data hfree.prefix hm hn,
    stripFrom_free b.data hfree.suffix]

theorem clean_removes_inserted_marker_witness :
    (MarkerFree ("Answer" ++ ".").data ∧ Digits "12".data ∧ Digits "3".data) ∧
    (cleanResponse ("Answer" ++ "【" ++ "12" ++ ":" ++ "3" ++ "†source】" ++ ".") =
        jsTrim ("Answer" ++ ".") ∧
      cleanResponse "Answer【12:3†source】." = "Answer.") :=
  ⟨⟨markerFree_of_no_open (by decide), ⟨by decide, by decide⟩, ⟨by decide, by decide⟩⟩,
    clean_removes_inserted_marker "Answer" "." "12" "3"
      (markerFree_of_no_open (by decide)) ⟨by decide, by decide⟩ ⟨by decide, by decide⟩⟩

/-- C13 (as amended).  Every message text is made of marker-free pieces separated by
citation markers, and the response text is the trimmed concatenation of the pieces:
every marker of the text is removed.  The response text contains no marker whenever
the concatenation of the pieces contains none. -/
theorem clean_removes_present_markers (text : String) :
    ∃ p0 parts, text.data = assemble p0 parts ∧ PiecesOK p0 parts ∧
      cleanResponse text = String.mk (trimChars (pieces p0 parts)) ∧
      (MarkerFree (pieces p0 parts) → MarkerFree (cleanResponse text).data) := by
  obtain ⟨p0, parts, heq, hok⟩ := exists_assemble text.data.length text.data (Nat.le_refl _)
  have hclean : cleanResponse text = String.mk (trimChars (pieces p0 parts)) := by
    simp only [cleanResponse]
    rw [heq, stripCitations_assemble parts p0 hok]
  refine ⟨p0, parts, heq, hok, hclean, fun hfree => ?_⟩
  rw [hclean]
  exact hfree.trim

/-- C13 (as stated, refuted).  The text `【1:【2:3†source】4†source】` has one match of the
pattern, the inner marker; removing it joins the two fragments around it, and the
response text is `【1:4†source】`, which is a citation marker. -/
theorem clean_can_leave_marker :
    cleanResponse "【1:【2:3†source】4†source】" = "【1:4†source】" ∧
      ¬MarkerFree (cleanResponse "【1:【2:3†source】4†source】").data := by
  refine ⟨by decide, fun h => ?_⟩
  have h1 := h [] _ rfl
  revert h1
  decide

/-- C14.  A turn in which the handler saw the answer of the `n`-th retrieval and that
answer is `failed`: the response is status 500 whose error is the message of
`last_error` when there is a non-empty one, and `Assistant run failed` otherwise; no
listing is awaited, and no further retrieval either. -/
theorem chat_run_failed (ASSISTANT_ID : Option String) (env : Env) (fuel : Nat)
    (threadStore : ThreadStore) (req : Request) (n : Nat) (last : RunStatus)
    (hobs : n + 1 ≤ retrievals (handler ASSISTANT_ID env fuel threadStore req).trace)
    (hlast : env.runsRetrieve n = .ok last) (hfailed : last.status = "failed") :
    (∀ m, last.last_error = some ⟨some m⟩ → m ≠ "" →
      (handler ASSISTANT_ID env fuel threadStore req).response =
        some ⟨500, corsHeaders, .error m⟩) ∧
    ((∀ m, last.last_error = some ⟨some m⟩ → m = "") →
      (handler ASSISTANT_ID env fuel threadStore req).response =
        some ⟨500, corsHeaders, .error "Assistant run failed"⟩) ∧
    (∀ e ∈ (handler ASSISTANT_ID env fuel threadStore req).trace,
      e.call.isMessagesList = false) ∧
    retrievals (handler ASSISTANT_ID env fuel threadStore req).trace = n + 1 := by
  have hterm : ¬(last.status = "queued" ∨ last.status = "in_progress") := by
    rw [hfailed]; decide
  obtain ⟨message, sessionId, assistantId, t, w4, startTime, _, _, _, _, _, _, _, hr4, _,
    hl4, hh⟩ :=
    handler_last_status ASSISTANT_ID env fuel threadStore req n last hobs hlast hterm
  obtain ⟨hf1, hf2⟩ := finish_failed env w4 sessionId t last hfailed
  rw [hh]
  refine ⟨?_, ?_, ?_, ?_⟩
  · intro m hm hne
    rw [hf1 m hm hne]
    simp [settle, hne]
  · intro hall
    rw [hf2 hall]
    simp [settle]
  · rw [settle_trace]
    rcases finish_ext env w4 sessionId t last with hf | ⟨hc, _⟩
    · rw [hf]; exact hl4
    · rw [hfailed] at hc; exact absurd hc (by decide)
  · rw [settle_trace, (finish_trace_cases env w4 sessionId t last).1, hr4]

theorem chat_run_failed_witness :
    (1 + 1 ≤ retrievals (handler (some "asst_1") failedEnv 5 .empty
        (post "hello" "s1")).trace ∧
      failedEnv.runsRetrieve 1 = .ok ⟨"failed", some ⟨some "Rate limit exceeded"⟩⟩ ∧
      (RunStatus.mk "failed" (some ⟨some "Rate limit exceeded"⟩)).status = "failed") ∧
    ((∀ m, (RunStatus.mk "failed" (some ⟨some "Rate limit exceeded"⟩)).last_error =
        some ⟨some m⟩ → m ≠ "" →
      (handler (some "asst_1") failedEnv 5 .empty (post "hello" "s1")).response =
        some ⟨500, corsHeaders, .error m⟩) ∧
    ((∀ m, (RunStatus.mk "failed" (some ⟨some "Rate limit exceeded"⟩)).last_error =
        some ⟨some m⟩ → m = "") →
      (handler (some "asst_1") failedEnv 5 .empty (post "hello" "s1")).response =
        some ⟨500, corsHeaders, .error "Assistant run failed"⟩) ∧
    (∀ e ∈ (handler (some "asst_1") failedEnv 5 .empty (post "hello" "s1")).trace,
      e.call.isMessagesList = false) ∧
    retrievals (handler (some "asst_1") failedEnv 5 .empty (post "hello" "s1")).trace =
      1 + 1) :=
  ⟨⟨by decide, rfl, rfl⟩,
    chat_run_failed (some "asst_1") failedEnv 5 .empty (post "hello" "s1") 1
      ⟨"failed", some ⟨some "Rate limit exceeded"⟩⟩ (by decide) rfl rfl⟩

/-- C15.  A turn in which the handler saw the answer of the `n`-th retrieval and that
answer is `requires_action`: polling stops there (`n + 1` retrievals and `n` delays in
all), the response is status 500 with the unsupported-action error, and no listing is
awaited. -/
theorem chat_requires_action (ASSISTANT_ID : Option String) (env : Env) (fuel : Nat)
    (threadStore : ThreadStore) (req : Request) (n : Nat) (last : RunStatus)
    (hobs : n + 1 ≤ retrievals (handler ASSISTANT_ID env fuel threadStore req).trace)
    (hlast : env.runsRetrieve n = .ok last) (haction : last.status = "requires_action") :
    (handler ASSISTANT_ID env fuel threadStore req).response =
      some ⟨500, corsHeaders,
        .error "Assistant requires action, but no functions are configured"⟩ ∧
    retrievals (handler ASSISTANT_ID env fuel threadStore req).trace = n + 1 ∧
    delays (handler ASSISTANT_ID env fuel threadStore req).trace = n ∧
    ∀ e ∈ (handler ASSISTANT_ID env fuel threadStore req).trace,
      e.call.isMessagesList = false := by
  have hterm : ¬(last.status = "queued" ∨ last.status = "in_progress") := by
    rw [haction]; decide
  obtain ⟨message, sessionId, assistantId, t, w4, startTime, _, _, _, _, _, _, _, hr4, hd4,
    hl4, hh⟩ :=
    handler_last_status ASSISTANT_ID env fuel threadStore req n last hobs hlast hterm
  rw [hh, finish_requires_action env w4 sessionId t last haction]
  exact ⟨by simp [settle], by simpa using hr4, by simpa using hd4, by simpa using hl4⟩

theorem chat_requires_action_witness :
    (1 + 1 ≤ retrievals (handler (some "asst_1") actionEnv 5 .empty
        (post "hello" "s1")).trace ∧
      actionEnv.runsRetrieve 1 = .ok ⟨"requires_action", none⟩ ∧
      (RunStatus.mk "requires_action" none).status = "requires_action") ∧
    ((handler (some "asst_1") actionEnv 5 .empty (post "hello" "s1")).response =
      some ⟨500, corsHeaders,
        .error "Assistant requires action, but no functions are configured"⟩ ∧
    retrievals (handler (some "asst_1") actionEnv 5 .empty (post "hello" "s1")).trace =
      1 + 1 ∧
    delays (handler (some "asst_1") actionEnv 5 .empty (post "hello" "s1")).trace = 1 ∧
    ∀ e ∈ (handler (some "asst_1") actionEnv 5 .empty (post "hello" "s1")).trace,
      e.call.isMessagesList = false) :=
  ⟨⟨by decide, rfl, rfl⟩,
    chat_requires_action (some "asst_1") actionEnv 5 .empty (post "hello" "s1") 1
      ⟨"requires_action", none⟩ (by decide) rfl rfl⟩

/-- C16.  A turn in which the handler saw the answer of the `n`-th retrieval and its
status `s` is none of `queued`, `in_progress`, `completed`, `failed`,
`requires_action`: the response is status 500 with the error
`Unexpected run status: ` followed by `s`, and no listing is awaited. -/
theorem chat_unexpected_status (ASSISTANT_ID : Option String) (env : Env) (fuel : Nat)
    (threadStore : ThreadStore) (req : Request) (n : Nat) (last : RunStatus)
    (hobs : n + 1 ≤ retrievals (handler ASSISTANT_ID env fuel threadStore req).trace)
    (hlast : env.runsRetrieve n = .ok last)
    (h1 : last.status ≠ "queued") (h2 : last.status ≠ "in_progress")
    (h3 : last.status ≠ "completed") (h4 : last.status ≠ "failed")
    (h5 : last.status ≠ "requires_action") :
    (handler ASSISTANT_ID env fuel threadStore req).response =
      some ⟨500, corsHeaders, .error ("Unexpected run status: " ++ last.status)⟩ ∧
    ∀ e ∈ (handler ASSISTANT_ID env fuel threadStore req).trace,
      e.call.isMessagesList = false := by
  have hterm : ¬(last.status = "queued" ∨ last.status = "in_progress") := by
    rintro (h | h)
    · exact h1 h
    · exact h2 h
  obtain ⟨message, sessionId, assistantId, t, w4, startTime, _, _, _, _, _, _, _, _, _,
    hl4, hh⟩ :=
    handler_last_status ASSISTANT_ID env fuel threadStore req n last hobs hlast hterm
  rw [hh, finish_other env w4 sessionId t last h3 h4 h5]
  refine ⟨?_, by simpa using hl4⟩
  have hne : "Unexpected run status: " ++ last.status ≠ "" := by
    intro h
    have := congrArg String.length h
    simp only [String.length_append] at this
    have h23 : "Unexpected run status: ".length = 23 := by decide
    rw [h23] at this
    have h0 : "".length = 0 := rfl
    omega
  simp [settle, hne]

theorem chat_unexpected_status_witness :
    (1 + 1 ≤ retrievals (handler (some "asst_1") expiredEnv 5 .empty
        (post "hello" "s1")).trace ∧
      expiredEnv.runsRetrieve 1 = .ok ⟨"expired", none⟩ ∧
      (RunStatus.mk "expired" none).status ≠ "queued" ∧
      (RunStatus.mk "expired" none).status ≠ "in_progress" ∧
      (RunStatus.mk "expired" none).status ≠ "completed" ∧
      (RunStatus.mk "expired" none).status ≠ "failed" ∧
      (RunStatus.mk "expired" none).status ≠ "requires_action") ∧
    ((handler (some "asst_1") expiredEnv 5 .empty (post "hello" "s1")).response =
      some ⟨500, corsHeaders,
        .error ("Unexpected run status: " ++ (RunStatus.mk "expired" none).status)⟩ ∧
    ∀ e ∈ (handler (some "asst_1") expiredEnv 5 .empty (post "hello" "s1")).trace,
      e.call.isMessagesList = false) :=
  ⟨⟨by decide, rfl, by decide, by decide, by decide, by decide, by decide⟩,
    chat_unexpected_status (some "asst_1") expiredEnv 5 .empty (post "hello" "s1") 1
      ⟨"expired", none⟩ (by decide) rfl (by decide) (by decide) (by decide) (by decide)
      (by decide)⟩

/-- C17.  A request whose method is not `POST`: the response is status 200 without a
body for `OPTIONS` and status 405 for every other method, with the three CORS headers
(any origin allowed); nothing is awaited, the registry is unchanged, and the result is
the same whatever the body and the outside world are (the body is never read). -/
theorem chat_other_methods (ASSISTANT_ID : Option String) (env : Env) (fuel : Nat)
    (threadStore : ThreadStore) (req : Request) (hmethod : req.method ≠ "POST") :
    (handler ASSISTANT_ID env fuel threadStore req).response =
        some (if req.method = "OPTIONS" then ⟨200, corsHeaders, .ended⟩
          else ⟨405, corsHeaders, .error "Method not allowed"⟩) ∧
      (handler ASSISTANT_ID env fuel threadStore req).trace = [] ∧
      (handler ASSISTANT_ID env fuel threadStore req).threadStore = threadStore ∧
      corsHeaders = [("Access-Control-Allow-Origin", "*"),
        ("Access-Control-Allow-Methods", "POST, OPTIONS"),
        ("Access-Control-Allow-Headers", "Content-Type")] ∧
      ∀ (env2 : Env) (fuel2 : Nat) (body2 : ReqBody),
        handler ASSISTANT_ID env2 fuel2 threadStore ⟨req.method, body2⟩ =
          handler ASSISTANT_ID env fuel threadStore req := by
  by_cases hopt : req.method = "OPTIONS"
  · exact ⟨by simp [handler, hopt], by simp [handler, hopt], by simp [handler, hopt], rfl,
      by simp [handler, hopt]⟩
  · exact ⟨by simp [handler, hopt, hmethod], by simp [handler, hopt, hmethod],
      by simp [handler, hopt, hmethod], rfl, by simp [handler, hopt, hmethod]⟩

theorem chat_other_methods_witness :
    ((Request.mk "GET" (.value .nullish)).method ≠ "POST" ∧
      (Request.mk "OPTIONS" (.text "")).method ≠ "POST") ∧
    (handler (some "asst_1") exampleEnv 5 .empty ⟨"GET", .value .nullish⟩).response =
      some ⟨405, corsHeaders, .error "Method not allowed"⟩ ∧
    (handler (some "asst_1") exampleEnv 5 .empty ⟨"OPTIONS", .text ""⟩).response =
      some ⟨200, corsHeaders, .ended⟩ :=
  ⟨⟨by decide, by decide⟩,
    (chat_other_methods (some "asst_1") exampleEnv 5 .empty ⟨"GET", .value .nullish⟩
      (by decide)).1,
    (chat_other_methods (some "asst_1") exampleEnv 5 .empty ⟨"OPTIONS", .text ""⟩
      (by decide)).1⟩

/-- C18.  A `GET` request to the health handler is answered with status 200, `status`
`ok` and `assistantId` equal to `not configured` exactly when the environment value is
absent or empty, and to `configured` otherwise.  The handler is a function of the
environment value, the date and the request alone: it awaits nothing. -/
theorem health_reports_configuration (OPENAI_ASSISTANT_ID : Option String)
    (isoNow : String) (req : Request) (hget : req.method = "GET") :
    healthHandler OPENAI_ASSISTANT_ID isoNow req =
      ⟨200, [("Access-Control-Allow-Origin", "*"),
          ("Access-Control-Allow-Methods", "GET, OPTIONS"),
          ("Access-Control-Allow-Headers", "Content-Type")],
        .health "ok"
          (if OPENAI_ASSISTANT_ID = none ∨ OPENAI_ASSISTANT_ID = some "" then "not configured"
            else "configured") isoNow⟩ := by
  have hopt : req.method ≠ "OPTIONS" := by rw [hget]; decide
  cases hid : OPENAI_ASSISTANT_ID with
  | none => simp [healthHandler, hopt, truthy]
  | some s =>
    by_cases hs : s = ""
    · simp [healthHandler, hopt, truthy, hs]
    · simp [healthHandler, hopt, truthy, hs]

theorem health_reports_configuration_witness :
    ((Request.mk "GET" (.value .nullish)).method = "GET") ∧
    healthHandler (some "") "2024-01-01T00:00:00.000Z" ⟨"GET", .value .nullish⟩ =
      ⟨200, [("Access-Control-Allow-Origin", "*"),
          ("Access-Control-Allow-Methods", "GET, OPTIONS"),
          ("Access-Control-Allow-Headers", "Content-Type")],
        .health "ok"
          (if (some "" : Option String) = none ∨ (some "" : Option String) = some ""
            then "not configured" else "configured") "2024-01-01T00:00:00.000Z"⟩ :=
  ⟨rfl, health_reports_configuration (some "") "2024-01-01T00:00:00.000Z"
    ⟨"GET", .value .nullish⟩ rfl⟩

/-- C19.  In every valid turn the calls to the service, in the order they are issued,
are a prefix of the fixed order `turnOrder`: the thread creation (only when the
registry has no usable mapping for the session), the message post, the run creation,
`k + 1` retrievals, the listing.  When the listing is issued, all of `k + 1`
retrievals came before it and the last of them answered `completed`. -/
theorem chat_calls_in_order (assistantId : String) (env : Env) (fuel : Nat)
    (threadStore : ThreadStore) (req : Request) (message : String) (sessionId : JsVal)
    (hcfg : assistantId ≠ "") (hmethod : req.method = "POST")
    (hbody : readBody env req.body = .ok (.str message, sessionId))
    (hmsg : jsTrim message ≠ "") :
    ∃ t runId k,
      remoteCalls (handler (some assistantId) env fuel threadStore req).trace <+:
        turnOrder (!truthy (threadStore.get sessionId)) assistantId t (jsTrim message)
          runId k ∧
      (Call.messagesList t 1 "desc" ∈
          remoteCalls (handler (some assistantId) env fuel threadStore req).trace →
        retrievals (handler (some assistantId) env fuel threadStore req).trace = k + 1 ∧
          ∃ s, env.runsRetrieve k = .ok s ∧ s.status = "completed") := by
  rcases handler_paths assistantId env fuel threadStore req message sessionId hcfg hmethod
    hbody hmsg with ⟨hf, e, hh, _⟩ | ⟨w1, t, ht, hget, hw1, hh⟩
  · refine ⟨"", "", 0, ?_, ?_⟩
    · rw [hh, settle_trace]
      simp [turnOrder, hf, World.init, World.await, remoteCalls, calls, Call.isRemote,
        Call.isSetTimeout]
    · rw [hh, settle_trace]
      simp [World.init, World.await, remoteCalls, calls, Call.isRemote, Call.isSetTimeout]
  have hP := remoteCalls_paths_start env threadStore sessionId t w1 ht hw1
  have hPl : Call.messagesList t 1 "desc" ∉ remoteCalls w1.trace := by
    rw [hP]; split <;> simp
  rw [hh]
  rcases runTurn_cases assistantId env fuel w1 message sessionId t with
    ⟨e, _, hrt⟩ | ⟨_, e, hrt, _⟩ | ⟨_, runId, hrid, _, ⟨e, h0, hrt⟩ | ⟨first, h0, hrt⟩⟩
  · refine ⟨t, "", 0, ?_, ?_⟩
    · rw [hrt, settle_trace]
      simp only [World.await, remoteCalls_append, hP, turnOrder]
      refine ⟨[.runsCreate t assistantId] ++ List.replicate (0 + 1) (.runsRetrieve "" t) ++
        [.messagesList t 1 "desc"], ?_⟩
      simp [remoteCalls, calls, Call.isRemote, Call.isSetTimeout]
    · rw [hrt, settle_trace]
      simp only [World.await, remoteCalls_append, List.mem_append]
      rintro (h | h)
      · exact absurd h hPl
      · simp [remoteCalls, calls, Call.isRemote, Call.isSetTimeout] at h
  · refine ⟨t, "", 0, ?_, ?_⟩
    · rw [hrt, settle_trace]
      simp only [World.await, remoteCalls_append, hP, turnOrder]
      refine ⟨List.replicate (0 + 1) (.runsRetrieve "" t) ++ [.messagesList t 1 "desc"], ?_⟩
      simp [remoteCalls, calls, Call.isRemote, Call.isSetTimeout]
    · rw [hrt, settle_trace]
      simp only [World.await, remoteCalls_append, List.mem_append]
      rintro ((h | h) | h)
      · exact absurd h hPl
      · simp [remoteCalls, calls, Call.isRemote, Call.isSetTimeout] at h
      · simp [remoteCalls, calls, Call.isRemote, Call.isSetTimeout] at h
  · refine ⟨t, runId, 0, ?_, ?_⟩
    · rw [hrt, settle_trace]
      simp only [World.await, remoteCalls_append, hP, turnOrder]
      refine ⟨[.messagesList t 1 "desc"], ?_⟩
      simp [remoteCalls, calls, Call.isRemote, Call.isSetTimeout]
    · rw [hrt, settle_trace]
      simp only [World.await, remoteCalls_append, List.mem_append]
      rintro (((h | h) | h) | h)
      · exact absurd h hPl
      · simp [remoteCalls, calls, Call.isRemote, Call.isSetTimeout] at h
      · simp [remoteCalls, calls, Call.isRemote, Call.isSetTimeout] at h
      · simp [remoteCalls, calls, Call.isRemote, Call.isSetTimeout] at h
  · rw [hrt]
    generalize hw3 : ((w1.await env (.messagesCreate t "user" (jsTrim message))).await env
      (.runsCreate t assistantId)).await env (.runsRetrieve runId t) = w3
    obtain ⟨_, hr1, _, _⟩ := paths_start env threadStore sessionId t w1 hw1
    have hr3 : retrievals w3.trace = 1 := by
      rw [← hw3]
      simp only [World.await, retrievals_append, hr1]
      simp [retrievals, calls, Call.isRunsRetrieve]
    have hrem3 : remoteCalls w3.trace = remoteCalls w1.trace ++
        [.messagesCreate t "user" (jsTrim message), .runsCreate t assistantId,
          .runsRetrieve runId t] := by
      rw [← hw3]
      simp only [World.await, remoteCalls_append]
      simp [remoteCalls, calls, Call.isRemote, Call.isSetTimeout]
    obtain ⟨j, evs, w4, he4, hs4, hret, hdel, hrem, hmid, hcase⟩ :=
      pollAndFinish_observe env fuel w3 sessionId t runId first ht hrid h0
    have hrem4 : remoteCalls w4.trace = remoteCalls w1.trace ++
        [.messagesCreate t "user" (jsTrim message), .runsCreate t assistantId] ++
        List.replicate (j + 1) (.runsRetrieve runId t) := by
      rw [he4, remoteCalls_append, hrem3, hrem, List.replicate_succ]
      simp
    have hr4 : retrievals w4.trace = j + 1 := by
      rw [he4, retrievals_append, hr3, hret, Nat.add_comm]
    have hnl4 : Call.messagesList t 1 "desc" ∉ remoteCalls w4.trace := by
      rw [hrem4]
      simp only [List.mem_append, List.mem_replicate, not_or]
      exact ⟨⟨hPl, by simp⟩, by simp⟩
    have hpre4 : remoteCalls w4.trace <+:
        turnOrder (!truthy (threadStore.get sessionId)) assistantId t (jsTrim message)
          runId j := by
      rw [hrem4, hP]
      exact ⟨[.messagesList t 1 "desc"], by simp [turnOrder]⟩
    refine ⟨t, runId, j, ?_⟩
    rcases hcase with ⟨last, hl, _, hpf⟩ | ⟨e, hpf, _⟩ | ⟨hpf, _⟩
    · rw [hpf, settle_trace]
      by_cases hc : last.status = "completed"
      · rw [finish_completed env w4 sessionId t last hc]
        simp only [World.await, remoteCalls_append, retrievals_append]
        refine ⟨?_, fun _ => ⟨?_, last, hl, hc⟩⟩
        · rw [hrem4, hP]
          exact ⟨[], by simp [turnOrder, remoteCalls, calls, Call.isRemote,
            Call.isSetTimeout]⟩
        · rw [hr4]
          simp [retrievals, calls, Call.isRunsRetrieve]
      · rcases finish_ext env w4 sessionId t last with hf | ⟨hc', _⟩
        · rw [hf]
          exact ⟨hpre4, fun h => absurd h hnl4⟩
        · exact absurd hc' hc
    · rw [hpf, settle_trace]
      exact ⟨hpre4, fun h => absurd h hnl4⟩
    · rw [hpf, settle_trace]
      exact ⟨hpre4, fun h => absurd h hnl4⟩

theorem chat_calls_in_order_witness :
    ("asst_1" ≠ "" ∧ (post "hello" "s1").method = "POST" ∧
      readBody exampleEnv (post "hello" "s1").body = .ok (.str "hello", .str "s1") ∧
      jsTrim "hello" ≠ "") ∧
    ∃ t runId k,
      remoteCalls (handler (some "asst_1") exampleEnv 5 .empty (post "hello" "s1")).trace <+:
        turnOrder (!truthy (ThreadStore.empty.get (.str "s1"))) "asst_1" t (jsTrim "hello")
          runId k ∧
      (Call.messagesList t 1 "desc" ∈
          remoteCalls (handler (some "asst_1") exampleEnv 5 .empty
            (post "hello" "s1")).trace →
        retrievals (handler (some "asst_1") exampleEnv 5 .empty (post "hello" "s1")).trace =
            k + 1 ∧
          ∃ s, exampleEnv.runsRetrieve k = .ok s ∧ s.status = "completed") :=
  ⟨⟨by decide, rfl, rfl, by decide⟩,
    chat_calls_in_order "asst_1" exampleEnv 5 .empty (post "hello" "s1") "hello" (.str "s1")
      (by decide) rfl rfl (by decide)⟩

/-- C20.  The request boundary of a `POST`.  An error thrown anywhere in the `try`
block is answered with `caught m`: status 500 and its message `m`, or
`An unexpected error occurred` when `m` is empty.  The handler responds unless the fuel
ran out while polling.  Every response carries the CORS headers and is a reply with
status 200, the validation error with status 400, or an error with a non-empty message
and status 500.  In particular a body that fails to parse, and every awaited call that
the service rejects (thread creation, message post, run creation, any retrieval, the
listing), is answered with `caught` of the message of that error. -/
theorem chat_errors_caught (ASSISTANT_ID : Option String) (env : Env) (fuel : Nat)
    (threadStore : ThreadStore) (req : Request) (hmethod : req.method = "POST") :
    (∀ w startTime m,
      tryBlock ASSISTANT_ID env fuel (World.init env threadStore) req =
        (w, startTime, .thrown m) →
      (handler ASSISTANT_ID env fuel threadStore req).response = some (caught m)) ∧
    ((handler ASSISTANT_ID env fuel threadStore req).response = none →
      (tryBlock ASSISTANT_ID env fuel (World.init env threadStore) req).2.2 = .pending) ∧
    (∀ res, (handler ASSISTANT_ID env fuel threadStore req).response = some res →
      res.headers = corsHeaders ∧
      ((res.status = 200 ∧ ∃ text sessionId threadId,
          res.payload = .reply text sessionId threadId) ∨
        (res.status = 400 ∧
          res.payload = .error "Message is required and must be a non-empty string") ∨
        (res.status = 500 ∧ ∃ m, m ≠ "" ∧ res.payload = .error m))) ∧
    (∀ e, readBody env req.body = .error e →
      (handler ASSISTANT_ID env fuel threadStore req).response = some (caught e)) ∧
    (∀ e, Call.threadsCreate ∈ calls (handler ASSISTANT_ID env fuel threadStore req).trace →
      env.threadsCreate = .error e →
      (handler ASSISTANT_ID env fuel threadStore req).response = some (caught e)) ∧
    (∀ e, (∃ c ∈ calls (handler ASSISTANT_ID env fuel threadStore req).trace,
        c.isMessagesCreate = true) →
      env.messagesCreate = .error e →
      (handler ASSISTANT_ID env fuel threadStore req).response = some (caught e)) ∧
    (∀ e, (∃ c ∈ calls (handler ASSISTANT_ID env fuel threadStore req).trace,
        c.isRunsCreate = true) →
      env.runsCreate = .error e →
      (handler ASSISTANT_ID env fuel threadStore req).response = some (caught e)) ∧
    (∀ e n, n + 1 ≤ retrievals (handler ASSISTANT_ID env fuel threadStore req).trace →
      env.runsRetrieve n = .error e →
      (handler ASSISTANT_ID env fuel threadStore req).response = some (caught e)) ∧
    (∀ e, (∃ c ∈ calls (handler ASSISTANT_ID env fuel threadStore req).trace,
        c.isMessagesList = true) →
      env.messagesList = .error e →
      (handler ASSISTANT_ID env fuel threadStore req).response = some (caught e)) := by
  have hh : handler ASSISTANT_ID env fuel threadStore req =
      settle (tryBlock ASSISTANT_ID env fuel (World.init env threadStore) req) := by
    simp [handler, hmethod]
  refine ⟨?_, ?_, ?_, ?_,
    fun e => (handler_rejections ASSISTANT_ID env fuel threadStore req e).1,
    fun e => (handler_rejections ASSISTANT_ID env fuel threadStore req e).2.1,
    fun e => (handler_rejections ASSISTANT_ID env fuel threadStore req e).2.2.1,
    fun e n => (handler_rejections ASSISTANT_ID env fuel threadStore req e).2.2.2.1 n,
    fun e => (handler_rejections ASSISTANT_ID env fuel threadStore req e).2.2.2.2⟩
  · intro w startTime m h
    rw [hh, h]
    rfl
  · intro h
    rw [hh] at h
    generalize tryBlock ASSISTANT_ID env fuel (World.init env threadStore) req = out at h ⊢
    obtain ⟨w, st, c⟩ := out
    cases c <;> simp [settle] at h ⊢
  · intro res h
    rw [hh] at h
    generalize hout : tryBlock ASSISTANT_ID env fuel (World.init env threadStore) req = out
      at h
    obtain ⟨w, st, c⟩ := out
    cases c with
    | pending => simp [settle] at h
    | thrown m =>
      simp only [settle, Option.some.injEq] at h
      subst h
      refine ⟨rfl, Or.inr (Or.inr ⟨rfl, _, ?_, rfl⟩)⟩
      by_cases hm : m = ""
      · simp [hm]
      · simp [hm]
    | done r =>
      simp only [settle, Option.some.injEq] at h
      subst h
      rcases tryBlock_done ASSISTANT_ID env fuel _ req r (by rw [hout]) with
        h | h | ⟨text, sid, tid, h⟩
      · subst h; exact ⟨rfl, Or.inr (Or.inl ⟨rfl, rfl⟩)⟩
      · subst h; exact ⟨rfl, Or.inr (Or.inr ⟨rfl, _, by decide, rfl⟩)⟩
      · subst h; exact ⟨rfl, Or.inl ⟨rfl, text, sid, tid, rfl⟩⟩
  · intro e he
    rw [hh]
    simp [tryBlock, he, settle, caught]

theorem chat_errors_caught_witness :
    ((Request.mk "POST" (.text "oops")).method = "POST" ∧
      (post "hello" "s1").method = "POST") ∧
    (handler (some "asst_1") exampleEnv 5 .empty ⟨"POST", .text "oops"⟩).response =
      some (caught "Unexpected token in JSON") ∧
    (handler (some "asst_1") outageEnv 5 .empty (post "hello" "s1")).response =
      some (caught "503 Service Unavailable") :=
  ⟨⟨rfl, rfl⟩,
    (chat_errors_caught (some "asst_1") exampleEnv 5 .empty ⟨"POST", .text "oops"⟩
      rfl).2.2.2.1 "Unexpected token in JSON" rfl,
    (chat_errors_caught (some "asst_1") outageEnv 5 .empty (post "hello" "s1")
      rfl).2.2.2.2.2.2.2.1 "503 Service Unavailable" 1 (by decide) rfl⟩

/-- C21.  In every turn that reaches the message-post step (a post is among the calls
it awaits), for the `message` read from the request body: exactly one message is
posted, with role `user`, its content is `message.trim()`, and it is posted on the
thread the registry holds for the session afterwards. -/
theorem chat_posts_trimmed_message (ASSISTANT_ID : Option String) (env : Env) (fuel : Nat)
    (threadStore : ThreadStore) (req : Request) (message : String) (sessionId : JsVal)
    (hbody : readBody env req.body = .ok (.str message, sessionId))
    (hreach : ∃ c ∈ calls (handler ASSISTANT_ID env fuel threadStore req).trace,
      c.isMessagesCreate = true) :
    ∃ t, (handler ASSISTANT_ID env fuel threadStore req).threadStore.get sessionId = some t ∧
      posts (handler ASSISTANT_ID env fuel threadStore req).trace =
        [.messagesCreate t "user" (jsTrim message)] := by
  have hne : (handler ASSISTANT_ID env fuel threadStore req).trace ≠ [] := by
    obtain ⟨c, hc, _⟩ := hreach
    intro h
    rw [h] at hc
    simp [calls] at hc
  obtain ⟨hmethod, message', sessionId', assistantId, hbody', hmsg, rfl, hcfg⟩ :=
    handler_trace_ne_nil ASSISTANT_ID env fuel threadStore req hne
  rw [hbody] at hbody'
  simp only [Except.ok.injEq, Prod.mk.injEq, JsVal.str.injEq] at hbody'
  obtain ⟨rfl, rfl⟩ := hbody'
  rcases handler_paths assistantId env fuel threadStore req message sessionId hcfg hmethod
    hbody hmsg with ⟨_, e, hh, _⟩ | ⟨w1, t, ht, hget, hw1, hh⟩
  · obtain ⟨c, hc, hp⟩ := hreach
    rw [hh, settle_trace] at hc
    simp [World.init, World.await, calls] at hc
    subst hc
    simp [Call.isMessagesCreate] at hp
  · obtain ⟨hs, evs, he, hc⟩ := runTurn_ext assistantId env fuel w1 message sessionId t
    refine ⟨t, ?_, ?_⟩
    · rw [hh, settle_threadStore, hs]; exact hget
    · rw [hh, settle_trace, he, posts_append]
      have h1 : posts w1.trace = [] := by
        rcases hw1 with ⟨rfl, _⟩ | ⟨_, _, rfl⟩
        · rfl
        · rfl
      have h2 : posts (⟨w1.now, .messagesCreate t "user" (jsTrim message)⟩ :: evs) =
          .messagesCreate t "user" (jsTrim message) :: posts evs := by
        simp [posts, calls, Call.isMessagesCreate]
      rw [h1, h2, posts_turnCalls assistantId t evs hc]
      rfl

theorem chat_posts_trimmed_message_witness :
    (readBody exampleEnv (post "  hello " "s1").body = .ok (.str "  hello ", .str "s1") ∧
      ∃ c ∈ calls (handler (some "asst_1") exampleEnv 5 .empty (post "  hello " "s1")).trace,
        c.isMessagesCreate = true) ∧
    ∃ t, (handler (some "asst_1") exampleEnv 5 .empty
        (post "  hello " "s1")).threadStore.get (.str "s1") = some t ∧
      posts (handler (some "asst_1") exampleEnv 5 .empty (post "  hello " "s1")).trace =
        [.messagesCreate t "user" (jsTrim "  hello ")] :=
  ⟨⟨rfl, .messagesCreate "thread_1" "user" "hello", by decide, rfl⟩,
    chat_posts_trimmed_message (some "asst_1") exampleEnv 5 .empty (post "  hello " "s1")
      "  hello " (.str "s1") rfl ⟨.messagesCreate "thread_1" "user" "hello", by decide, rfl⟩⟩

/-- C22.  A failed turn performs no cleanup.  When a valid turn on a session without a
mapping creates thread `t` and is then answered by the `catch` block (whatever error
`reason` was thrown after the creation): the answer is status 500 with a non-empty
error text; the registry afterwards is the old one with `sessionId` mapped to `t`; the
turn awaited the creation, the message post on `t` and after it only run creation,
retrievals, delays and the listing on `t` (no call that deletes anything); and the
next valid turn of the session, in any outside world, awaits no thread creation, starts
with the message post on `t`, awaits only calls on `t`, and leaves `sessionId` mapped
to `t`. -/
theorem chat_failure_keeps_thread (assistantId : String) (threadStore : ThreadStore)
    (env : Env) (fuel : Nat) (req : Request) (message reason : String)
    (env2 : Env) (fuel2 : Nat) (req2 : Request) (message2 : String)
    (sessionId : JsVal) (t : String)
    (hcfg : assistantId ≠ "") (hmethod : req.method = "POST")
    (hbody : readBody env req.body = .ok (.str message, sessionId))
    (hmsg : jsTrim message ≠ "")
    (hfresh : threadStore.get sessionId = none)
    (hcreate : env.threadsCreate = .ok (some ⟨some t⟩)) (ht : t ≠ "")
    (hfail : (handler (some assistantId) env fuel threadStore req).response =
      some (caught reason))
    (hmethod2 : req2.method = "POST")
    (hbody2 : readBody env2 req2.body = .ok (.str message2, sessionId))
    (hmsg2 : jsTrim message2 ≠ "") :
    (∃ text, text ≠ "" ∧ (handler (some assistantId) env fuel threadStore req).response =
      some ⟨500, corsHeaders, .error text⟩) ∧
    (handler (some assistantId) env fuel threadStore req).threadStore =
      threadStore.set sessionId t ∧
    (handler (some assistantId) env fuel threadStore req).threadStore.get sessionId =
      some t ∧
    (∃ evs, (handler (some assistantId) env fuel threadStore req).trace =
        ⟨env.arrival, .threadsCreate⟩ ::
          ⟨env.arrival + (env.elapse 0 .threadsCreate : Int),
            .messagesCreate t "user" (jsTrim message)⟩ :: evs ∧
      ∀ e ∈ evs, TurnCall assistantId t e.call) ∧
    (∀ e ∈ (handler (some assistantId) env2 fuel2
        (handler (some assistantId) env fuel threadStore req).threadStore req2).trace,
        e.call ≠ .threadsCreate) ∧
    (∃ evs, (handler (some assistantId) env2 fuel2
        (handler (some assistantId) env fuel threadStore req).threadStore req2).trace =
          ⟨env2.arrival, .messagesCreate t "user" (jsTrim message2)⟩ :: evs ∧
        ∀ e ∈ evs, TurnCall assistantId t e.call) ∧
    (handler (some assistantId) env2 fuel2
      (handler (some assistantId) env fuel threadStore req).threadStore
      req2).threadStore.get sessionId = some t := by
  have hf : truthy (threadStore.get sessionId) = false := by rw [hfresh]; rfl
  obtain ⟨hs, htr⟩ := handler_fresh_turn_trace assistantId env fuel threadStore req message
    sessionId t hcfg hmethod hbody hmsg hf hcreate ht
  have hget : (handler (some assistantId) env fuel threadStore req).threadStore.get
      sessionId = some t := by
    rw [hs]; exact ThreadStore.get_set_same _ _ _
  obtain ⟨hs2, hno, htr2⟩ := handler_known_turn_trace assistantId env2 fuel2
    (handler (some assistantId) env fuel threadStore req).threadStore req2 message2 sessionId
    t hcfg hmethod2 hbody2 hmsg2 hget ht
  refine ⟨?_, hs, hget, htr, hno, htr2, by rw [hs2]; exact hget⟩
  rw [hfail]
  by_cases hr : reason = ""
  · exact ⟨"An unexpected error occurred", by decide, by simp [caught, hr]⟩
  · exact ⟨reason, hr, by simp [caught, hr]⟩

theorem chat_failure_keeps_thread_witness :
    ("asst_1" ≠ "" ∧ (post "hello" "s1").method = "POST" ∧
      readBody noRunEnv (post "hello" "s1").body = .ok (.str "hello", .str "s1") ∧
      jsTrim "hello" ≠ "" ∧ ThreadStore.empty.get (.str "s1") = none ∧
      noRunEnv.threadsCreate = .ok (some ⟨some "thread_1"⟩) ∧ "thread_1" ≠ "" ∧
      (handler (some "asst_1") noRunEnv 5 .empty (post "hello" "s1")).response =
        some (caught "Failed to create assistant run - run object is null") ∧
      (post "again" "s1").method = "POST" ∧
      readBody otherThreadEnv (post "again" "s1").body = .ok (.str "again", .str "s1") ∧
      jsTrim "again" ≠ "") ∧
    (handler (some "asst_1") noRunEnv 5 .empty (post "hello" "s1")).threadStore.get
        (.str "s1") = some "thread_1" ∧
    (∀ e ∈ (handler (some "asst_1") otherThreadEnv 5
        (handler (some "asst_1") noRunEnv 5 .empty (post "hello" "s1")).threadStore
        (post "again" "s1")).trace, e.call ≠ .threadsCreate) :=
  have h := chat_failure_keeps_thread "asst_1" .empty noRunEnv 5 (post "hello" "s1") "hello"
    "Failed to create assistant run - run object is null" otherThreadEnv 5
    (post "again" "s1") "again" (.str "s1") "thread_1" (by decide) rfl rfl (by decide) rfl
    rfl (by decide) (by decide) rfl rfl (by decide)
  ⟨⟨by decide, rfl, rfl, by decide, rfl, rfl, by decide, by decide, rfl, rfl, by decide⟩,
    h.2.2.1, h.2.2.2.2.1⟩

/-- C25.  The list returned by `detectIntent`, for every message, conversation context,
knowledge base and engine: no two of its intents have the same type and the same
service/product key (`intent.service || intent.product || ''`), and its confidences
are in non-increasing order (every intent has at least the confidence of every later
one). -/
theorem detectIntent_unique_sorted (engine : Engine) (kb : KnowledgeBase)
    (conversationContext : ConversationContext) (message : String) :
    (detectIntent engine kb conversationContext message).Pairwise
        (fun a b => ¬(a.type = b.type ∧ a.serviceOrProduct = b.serviceOrProduct)) ∧
      (detectIntent engine kb conversationContext message).Pairwise
        (fun a b => b.confidence ≤ a.confidence) := by
  refine ⟨?_, jsSort_byConfidence_sorted _⟩
  have hkeys := (uniqueIntents_keys (collectIntents engine kb conversationContext message) []).2
  have hpair : (uniqueIntents [] (collectIntents engine kb conversationContext message)).Pairwise
      (fun a b => intentKey a ≠ intentKey b) := List.pairwise_map.mp hkeys
  have hsorted := (List.Perm.pairwise_iff (fun h => Ne.symm h)
    (jsSort_perm byConfidence
      (uniqueIntents [] (collectIntents engine kb conversationContext message)))).mpr hpair
  refine List.Pairwise.imp ?_ hsorted
  intro a b hne ⟨ht, hs⟩
  exact hne (by simp [intentKey, ht, hs])

/-- C26.  Input validation precedes the configuration check.  When no assistant
identifier is configured (`ASSISTANT_ID` absent or empty), a `POST` whose `message` is
not a string (in particular a missing one) or is blank is answered with status 400 and
the validation error, and the `return` of the configuration error (status 500) is
reached by the `try` block exactly for a body with a `message` that is a string and
not blank. -/
theorem chat_validation_before_configuration (ASSISTANT_ID : Option String) (env : Env)
    (fuel : Nat) (threadStore : ThreadStore) (req : Request)
    (hmethod : req.method = "POST")
    (hcfg : ASSISTANT_ID = none ∨ ASSISTANT_ID = some "") :
    (∀ message sessionId, readBody env req.body = .ok (message, sessionId) →
      ((∀ s, message ≠ .str s) ∨ ∃ s, message = .str s ∧ jsTrim s = "") →
      (handler ASSISTANT_ID env fuel threadStore req).response =
        some ⟨400, corsHeaders,
          .error "Message is required and must be a non-empty string"⟩) ∧
    (∀ message sessionId, readBody env req.body = .ok (.str message, sessionId) →
      jsTrim message ≠ "" →
      (handler ASSISTANT_ID env fuel threadStore req).response =
        some ⟨500, corsHeaders,
          .error "Chatbot is not configured. Please contact the administrator."⟩) ∧
    ((tryBlock ASSISTANT_ID env fuel (World.init env threadStore) req).2.2 =
        .done ⟨500, corsHeaders,
          .error "Chatbot is not configured. Please contact the administrator."⟩ ↔
      ∃ message sessionId, readBody env req.body = .ok (.str message, sessionId) ∧
        jsTrim message ≠ "") := by
  have ht : truthy ASSISTANT_ID = false := by rcases hcfg with h | h <;> simp [h, truthy]
  refine ⟨?_, ?_, tryBlock_not_configured ASSISTANT_ID env fuel _ req ht⟩
  · intro message sessionId hbody hmsg
    have hv := validMessage_of_invalid message hmsg
    simp [handler, settle, hmethod, tryBlock, hbody, hv]
  · intro message sessionId hbody hmsg
    have hv := validMessage_of_trim_ne message hmsg
    simp [handler, settle, hmethod, tryBlock, hbody, hv, ht]

theorem chat_validation_before_configuration_witness :
    ((post "   " "s1").method = "POST" ∧
      ((none : Option String) = none ∨ (none : Option String) = some "") ∧
      readBody exampleEnv (post "   " "s1").body = .ok (.str "   ", .str "s1") ∧
      ((∀ s, JsVal.str "   " ≠ .str s) ∨ ∃ s, JsVal.str "   " = .str s ∧ jsTrim s = "")) ∧
    (handler none exampleEnv 5 .empty (post "   " "s1")).response =
      some ⟨400, corsHeaders, .error "Message is required and must be a non-empty string"⟩ :=
  ⟨⟨rfl, Or.inl rfl, rfl, Or.inr ⟨"   ", rfl, by decide⟩⟩,
    (chat_validation_before_configuration none exampleEnv 5 .empty (post "   " "s1") rfl
      (Or.inl rfl)).1 (.str "   ") (.str "s1") rfl (Or.inr ⟨"   ", rfl, by decide⟩)⟩

/-- C27.  A `POST` whose body is absent (`undefined` or `null`), or is a string that
`JSON.parse` rejects, is answered by the `catch` block: status 500 with the message of
the error thrown (the `TypeError` of the destructuring, the `SyntaxError` of the
parser) or the generic text when that message is empty, so never 400; nothing is
awaited and the registry is unchanged.  This holds whatever `ASSISTANT_ID` is. -/
theorem chat_unreadable_body (ASSISTANT_ID : Option String) (env : Env) (fuel : Nat)
    (threadStore : ThreadStore) (req : Request)
    (hmethod : req.method = "POST")
    (hbody : req.body = .value .nullish ∨
      ∃ s e, req.body = .text s ∧ env.jsonParse s = .error e) :
    (∃ thrown, readBody env req.body = .error thrown ∧
      (handler ASSISTANT_ID env fuel threadStore req).response = some (caught thrown)) ∧
    (∃ m, m ≠ "" ∧ (handler ASSISTANT_ID env fuel threadStore req).response =
      some ⟨500, corsHeaders, .error m⟩) ∧
    (handler ASSISTANT_ID env fuel threadStore req).trace = [] ∧
    (handler ASSISTANT_ID env fuel threadStore req).threadStore = threadStore := by
  have hread : ∃ thrown, readBody env req.body = .error thrown := by
    rcases hbody with h | ⟨s, e, h, hp⟩
    · exact ⟨_, by rw [h]; rfl⟩
    · exact ⟨e, by rw [h]; simp [readBody, hp]⟩
  obtain ⟨thrown, hr⟩ := hread
  have hh : handler ASSISTANT_ID env fuel threadStore req =
      settle (World.init env threadStore, none, .thrown thrown) := by
    simp [handler, hmethod, tryBlock, hr]
  refine ⟨⟨thrown, hr, by rw [hh]; rfl⟩, ?_, by rw [hh]; rfl, by rw [hh]; rfl⟩
  rw [hh]
  by_cases hm : thrown = ""
  · exact ⟨"An unexpected error occurred", by decide, by simp [settle, hm]⟩
  · exact ⟨thrown, hm, by simp [settle, hm]⟩

theorem chat_unreadable_body_witness :
    ((postText "not json").method = "POST" ∧
      ((postText "not json").body = .value .nullish ∨
        ∃ s e, (postText "not json").body = .text s ∧ exampleEnv.jsonParse s = .error e)) ∧
    (handler (some "asst_1") exampleEnv 5 .empty (postText "not json")).trace = [] ∧
    (handler (some "asst_1") exampleEnv 5 .empty postNothing).response =
      some ⟨500, corsHeaders, .error "Cannot read properties of undefined: body"⟩ :=
  ⟨⟨rfl, Or.inr ⟨"not json", "Unexpected token in JSON", rfl, rfl⟩⟩,
    (chat_unreadable_body (some "asst_1") exampleEnv 5 .empty (postText "not json") rfl
      (Or.inr ⟨"not json", "Unexpected token in JSON", rfl, rfl⟩)).2.2.1,
    by decide⟩

/-- C28.  Registry frame.  For the registry reached from the empty one by any `history`
of requests handled one after another: handling one more request leaves the registry as
it was or appends one entry `(sessionId, t)` for the `sessionId` read from the request
body, which had no entry before; every key that is not the `sessionId` of the request
has the same mapping (present or absent) before and after; and every entry present
before is present, with the same identifier, after. -/
theorem registry_frame (ASSISTANT_ID : Option String) (history : List (Env × Nat × Request))
    (env : Env) (fuel : Nat) (req : Request) :
    ((handler ASSISTANT_ID env fuel (serve ASSISTANT_ID .empty history) req).threadStore =
        serve ASSISTANT_ID .empty history ∨
      ∃ message sessionId t, readBody env req.body = .ok (message, sessionId) ∧
        (serve ASSISTANT_ID .empty history).get sessionId = none ∧ t ≠ "" ∧
        (handler ASSISTANT_ID env fuel (serve ASSISTANT_ID .empty history)
          req).threadStore.entries =
          (serve ASSISTANT_ID .empty history).entries ++ [(sessionId, t)]) ∧
    (∀ k, (∀ message, readBody env req.body ≠ .ok (message, k)) →
      (handler ASSISTANT_ID env fuel (serve ASSISTANT_ID .empty history) req).threadStore.get
        k = (serve ASSISTANT_ID .empty history).get k) ∧
    (∀ k v, (serve ASSISTANT_ID .empty history).get k = some v →
      (handler ASSISTANT_ID env fuel (serve ASSISTANT_ID .empty history) req).threadStore.get
        k = some v) :=
  handler_frame ASSISTANT_ID env fuel (serve ASSISTANT_ID .empty history) req
    (serve_usable ASSISTANT_ID history .empty ThreadStore.usable_empty)

theorem registry_frame_witness :
    (handler (some "asst_1") exampleEnv 5
        (serve (some "asst_1") .empty [(exampleEnv, 5, post "hi" "s0")])
        (post "hello" "s1")).threadStore.entries =
      [(.str "s0", "thread_1"), (.str "s1", "thread_1")] ∧
    ∀ k v, (serve (some "asst_1") .empty [(exampleEnv, 5, post "hi" "s0")]).get k = some v →
      (handler (some "asst_1") exampleEnv 5
        (serve (some "asst_1") .empty [(exampleEnv, 5, post "hi" "s0")])
        (post "hello" "s1")).threadStore.get k = some v :=
  ⟨by decide,
    (registry_frame (some "asst_1") [(exampleEnv, 5, post "hi" "s0")] exampleEnv 5
      (post "hello" "s1")).2.2⟩

/-- C29.  The time-out check of the polling loop (lines 113-116), at a check made with
the clock `w.now`, the last status `runStatus` and the loop start `startTime`:
the timeout is thrown at this check exactly when the status is `queued` or
`in_progress` and `w.now - startTime` is strictly more than 60 000; on such a status
with `w.now - startTime` at most 60 000 (so at exactly 60 000) the loop goes on: it
awaits the delay, retrieves the status again and checks again; a status outside
`queued` and `in_progress` ends the loop with that status whatever the clock is, and a
completed one is then answered with status 200; and when the loop as a whole throws an
error that no retrieval was rejected with, it is the timeout and the clock is past the
budget. -/
theorem chat_timeout_boundary (env : Env) (sessionId : JsVal) (threadId runId : String)
    (startTime : Int) (fuel k : Nat) (w : World) (runStatus : RunStatus) :
    (pollLoop env threadId runId startTime fuel k w runStatus =
        (w, .thrown "Request timeout: Assistant took too long to respond") ↔
      (runStatus.status = "queued" ∨ runStatus.status = "in_progress") ∧
        w.now - startTime > 60000) ∧
    ((runStatus.status = "queued" ∨ runStatus.status = "in_progress") →
      w.now - startTime ≤ 60000 → threadId ≠ "" → runId ≠ "" →
      (∃ evs, (pollLoop env threadId runId startTime (fuel + 1) k w runStatus).1.trace =
        w.trace ++ ⟨w.now, .setTimeout 500⟩ :: evs) ∧
      (∀ next, env.runsRetrieve (k + 1) = .ok next →
        pollLoop env threadId runId startTime (fuel + 1) k w runStatus =
          pollLoop env threadId runId startTime fuel (k + 1)
            ((w.await env (.setTimeout 500)).await env (.runsRetrieve runId threadId))
            next)) ∧
    (¬(runStatus.status = "queued" ∨ runStatus.status = "in_progress") →
      pollLoop env threadId runId startTime fuel k w runStatus = (w, .done runStatus)) ∧
    (runStatus.status = "completed" →
      ∀ page msg rest value more, env.messagesList = .ok page → page.data = msg :: rest →
        msg.content = .text value :: more →
        pollLoop env threadId runId startTime fuel k w runStatus = (w, .done runStatus) ∧
        (finish env w sessionId threadId runStatus).2 =
          .done ⟨200, corsHeaders, .reply (cleanResponse value) sessionId threadId⟩) ∧
    (∀ e, (pollLoop env threadId runId startTime fuel k w runStatus).2 = .thrown e →
      threadId ≠ "" → runId ≠ "" → (∀ j, env.runsRetrieve j ≠ .error e) →
      e = "Request timeout: Assistant took too long to respond" ∧
        (pollLoop env threadId runId startTime fuel k w runStatus).1.now - startTime >
          60000) := by
  refine ⟨pollLoop_timeout_iff env threadId runId startTime fuel k w runStatus, ?_,
    pollLoop_done env threadId runId startTime fuel k w runStatus, ?_, ?_⟩
  · intro hwait hin hthread hrunId
    exact ⟨pollLoop_round_awaits env threadId runId startTime fuel k w runStatus hwait
        (not_lt.mpr hin),
      (pollLoop_within_budget env threadId runId startTime fuel k w runStatus hwait hin
        hthread hrunId).1⟩
  · intro hc page msg rest value more hlist hdata hcontent
    have hterm : ¬(runStatus.status = "queued" ∨ runStatus.status = "in_progress") := by
      rw [hc]; decide
    refine ⟨pollLoop_done env threadId runId startTime fuel k w runStatus hterm, ?_⟩
    rw [finish_completed env w sessionId threadId runStatus hc]
    simp only [hlist, firstText_text env page msg rest value more hdata hcontent]
  · intro e h hthread hrunId hno
    rcases pollLoop_thrown_cases env threadId runId startTime hthread hrunId fuel k w
      runStatus e h with ⟨j, hj⟩ | h2
    · exact absurd hj (hno j)
    · exact h2

theorem chat_timeout_boundary_witness :
    (((RunStatus.mk "in_progress" none).status = "queued" ∨
        (RunStatus.mk "in_progress" none).status = "in_progress") ∧
      (World.mk .empty 60000 []).now - 0 ≤ 60000 ∧ "thread_1" ≠ "" ∧ "run_1" ≠ "") ∧
    (∃ evs, (pollLoop stuckEnv "thread_1" "run_1" 0 (1 + 1) 0 (World.mk .empty 60000 [])
        ⟨"in_progress", none⟩).1.trace =
      (World.mk .empty 60000 []).trace ++ ⟨60000, .setTimeout 500⟩ :: evs) ∧
    (pollLoop stuckEnv "thread_1" "run_1" 0 5 0 (World.mk .empty 60001 [])
        ⟨"in_progress", none⟩).2 =
      .thrown "Request timeout: Assistant took too long to respond" ∧
    (handler (some "asst_1") lateEnv 5 .empty (post "hello" "s1")).response =
      some ⟨200, corsHeaders, .reply "Answer." (.str "s1") "thread_1"⟩ ∧
    delays (handler (some "asst_1") slowEnv 5 .empty (post "hello" "s1")).trace = 2 :=
  ⟨⟨Or.inr rfl, by decide, by decide, by decide⟩,
    ((chat_timeout_boundary stuckEnv (.str "s1") "thread_1" "run_1" 0 1 0
      (World.mk .empty 60000 []) ⟨"in_progress", none⟩).2.1 (Or.inr rfl) (by decide)
      (by decide) (by decide)).1,
    by rw [((chat_timeout_boundary stuckEnv (.str "s1") "thread_1" "run_1" 0 5 0
      (World.mk .empty 60001 []) ⟨"in_progress", none⟩).1).mpr ⟨Or.inr rfl, by decide⟩],
    by decide, by decide⟩

/-- C30.  The `sessionId` is not validated.  Two successive valid turns whose bodies
carry no `sessionId` (it is `undefined` after destructuring), the first on a registry
without an entry for `undefined`, with the service returning thread `t`: the first
awaits one thread creation and stores `t` under the key `undefined`; the second, in
any outside world, awaits no thread creation, posts its message on `t`, awaits only
calls on `t`, and any reply it sends names `t`: the two requests share one thread. -/
theorem chat_absent_session_shares_thread (assistantId : String) (threadStore : ThreadStore)
    (env : Env) (fuel : Nat) (req : Request) (message : String)
    (env2 : Env) (fuel2 : Nat) (req2 : Request) (message2 : String) (t : String)
    (hcfg : assistantId ≠ "") (hmethod : req.method = "POST")
    (hbody : readBody env req.body = .ok (.str message, .undefined))
    (hmsg : jsTrim message ≠ "")
    (hfresh : threadStore.get .undefined = none)
    (hcreate : env.threadsCreate = .ok (some ⟨some t⟩)) (ht : t ≠ "")
    (hmethod2 : req2.method = "POST")
    (hbody2 : readBody env2 req2.body = .ok (.str message2, .undefined))
    (hmsg2 : jsTrim message2 ≠ "") :
    (calls (handler (some assistantId) env fuel threadStore req).trace).count
        .threadsCreate = 1 ∧
    (handler (some assistantId) env fuel threadStore req).threadStore =
      threadStore.set .undefined t ∧
    (handler (some assistantId) env fuel threadStore req).threadStore.get .undefined =
      some t ∧
    (calls (handler (some assistantId) env2 fuel2
        (handler (some assistantId) env fuel threadStore req).threadStore req2).trace).count
        .threadsCreate = 0 ∧
    (∃ evs, (handler (some assistantId) env2 fuel2
        (handler (some assistantId) env fuel threadStore req).threadStore req2).trace =
          ⟨env2.arrival, .messagesCreate t "user" (jsTrim message2)⟩ :: evs ∧
        ∀ e ∈ evs, TurnCall assistantId t e.call) ∧
    (handler (some assistantId) env2 fuel2
      (handler (some assistantId) env fuel threadStore req).threadStore
      req2).threadStore = threadStore.set .undefined t ∧
    (∀ res, (handler (some assistantId) env2 fuel2
        (handler (some assistantId) env fuel threadStore req).threadStore req2).response =
          some res → res.status = 200 →
        ∃ text, res.payload = .reply text .undefined t) := by
  have hf : truthy (threadStore.get .undefined) = false := by rw [hfresh]; rfl
  obtain ⟨hs, evs, htr, hc⟩ := handler_fresh_turn_trace assistantId env fuel threadStore req
    message .undefined t hcfg hmethod hbody hmsg hf hcreate ht
  have hget : (handler (some assistantId) env fuel threadStore req).threadStore.get
      .undefined = some t := by
    rw [hs]; exact ThreadStore.get_set_same _ _ _
  obtain ⟨hs2, hno, htr2⟩ := handler_known_turn_trace assistantId env2 fuel2
    (handler (some assistantId) env fuel threadStore req).threadStore req2 message2
    .undefined t hcfg hmethod2 hbody2 hmsg2 hget ht
  refine ⟨?_, hs, hget, ?_, htr2, by rw [hs2, hs], ?_⟩
  · rw [htr]
    have : (calls evs).count .threadsCreate = 0 := by
      rw [List.count_eq_zero]
      simp only [calls, List.mem_map, not_exists, not_and]
      intro e he h
      exact (hc e he).ne_threadsCreate h
    simp [calls] at this ⊢
    simpa [List.count_cons] using this
  · rw [List.count_eq_zero]
    simp only [calls, List.mem_map, not_exists, not_and]
    intro e he h
    exact hno e he h
  · intro res hres h200
    rw [handler_known_turn assistantId env2 fuel2 _ req2 message2 .undefined t hcfg hmethod2
      hbody2 hmsg2 hget ht] at hres
    generalize hout : runTurn assistantId env2 fuel2
      (World.init env2 (handler (some assistantId) env fuel threadStore req).threadStore)
      message2 .undefined t = out at hres
    obtain ⟨w, st, c⟩ := out
    cases c with
    | pending => simp [settle] at hres
    | thrown m =>
      simp [settle] at hres
      subst hres
      simp at h200
    | done r =>
      simp [settle] at hres
      subst hres
      have := runTurn_reply assistantId env2 fuel2 _ message2 .undefined t r
        (by rw [hout])
      obtain ⟨text, rfl⟩ := this
      exact ⟨text, rfl⟩

theorem chat_absent_session_shares_thread_witness :
    ("asst_1" ≠ "" ∧ (postAnonymous "hello").method = "POST" ∧
      readBody exampleEnv (postAnonymous "hello").body = .ok (.str "hello", .undefined) ∧
      jsTrim "hello" ≠ "" ∧ ThreadStore.empty.get .undefined = none ∧
      exampleEnv.threadsCreate = .ok (some ⟨some "thread_1"⟩) ∧ "thread_1" ≠ "" ∧
      (postAnonymous "again").method = "POST" ∧
      readBody otherThreadEnv (postAnonymous "again").body =
        .ok (.str "again", .undefined) ∧
      jsTrim "again" ≠ "") ∧
    (handler (some "asst_1") exampleEnv 5 .empty (postAnonymous "hello")).threadStore.get
        .undefined = some "thread_1" ∧
    (calls (handler (some "asst_1") otherThreadEnv 5
        (handler (some "asst_1") exampleEnv 5 .empty (postAnonymous "hello")).threadStore
        (postAnonymous "again")).trace).count .threadsCreate = 0 :=
  have h := chat_absent_session_shares_thread "asst_1" .empty exampleEnv 5
    (postAnonymous "hello") "hello" otherThreadEnv 5 (postAnonymous "again") "again"
    "thread_1" (by decide) rfl rfl (by decide) rfl rfl (by decide) rfl rfl (by decide)
  ⟨⟨by decide, rfl, rfl, by decide, rfl, rfl, by decide, rfl, rfl, by decide⟩,
    h.2.2.1, h.2.2.2.1⟩

end AuraLogic
